import Mathlib

/-!
# miemie delivery pipeline: a shallow embedding and its checked properties

The definitions below transcribe the Go sources of `internal/delivery`
(`backpressure.go`, `retry.go`, `queue.go`, `worker.go`, `system.go`,
`main_loops.go`, `types.go`), of `internal/workspace` (`cache.go`,
`manager.go`), of `internal/storage` (`user_storage.go`), of
`internal/websocket` (`manager.go`), of `internal/config` (`types.go`,
`config.go`), of `internal/models` (`message.go`) and of `internal/api`
(`api_simple.go`) into pure Lean functions.

Conventions of the embedding:

* a buffered Go channel is a list (head = next element received) together with
  its capacity; a send that cannot complete (the `default` or the timeout arm
  of a `select`) is the case `length ≥ capacity`;
* `time.Time` and `time.Duration` are integers counting nanoseconds; every
  reading of `time.Now()` is an explicit argument `now`; the difference of two
  times is taken exactly (Go saturates it at about 292 years);
* `int64` arithmetic whose result can leave the 64-bit range is wrapped with
  `wrap64`; event counters that start at zero and grow by one per event are
  plain integers;
* `float64` arithmetic is IEEE-754 binary64 with round-to-nearest-even,
  computed exactly over the rationals (`f64Round`);
* the reading of the memory-pressure probe, the outcome of a per-recipient
  delivery and similar environment inputs are explicit arguments;
* a Go map with string keys is an association list with one pair per key; the
  order of the list is the order in which a `range` loop visits the map, and
  statements about such loops hold for every order;
* a `*sql.DB` handle is a number, and the calls of `Close()` on handles are
  recorded in ghost fields;
* a `sync.WaitGroup` is its counter, kept next to the list of the goroutines
  that are running; which of them return during a bounded wait is an explicit
  argument;
* the state that the calls of `deliverToUser` act on is threaded through
  `processTaskIn`; `processTask` is the same function with the outcomes of
  these calls given as an argument (`processTaskIn_fst`).
-/

namespace Delivery

/-! ## Machine arithmetic -/

/-- Two's-complement wrap of an integer into the `int64` range. -/
def wrap64 (x : Int) : Int := (x + 2 ^ 63) % 2 ^ 64 - 2 ^ 63

/-- Round a rational to the nearest integer, ties going to the even neighbour. -/
def roundHalfEven (x : ℚ) : Int :=
  if x - ⌊x⌋ < 1 / 2 then ⌊x⌋
  else if 1 / 2 < x - ⌊x⌋ then ⌊x⌋ + 1
  else if ⌊x⌋ % 2 = 0 then ⌊x⌋ else ⌊x⌋ + 1

/-- Binary exponent of the unit in the last place of binary64 at the positive
magnitude `x`: 53 significant bits, subnormals below `2^-1022`. -/
def f64Ulp (x : ℚ) : Int := max (Int.log 2 x) (-1022) - 52

/-- Nearest binary64 value of a positive rational. -/
def f64RoundPos (x : ℚ) : ℚ := (roundHalfEven (x / 2 ^ f64Ulp x) : ℚ) * 2 ^ f64Ulp x

/-- Nearest binary64 value (round to nearest, ties to even) of a rational.
Sign and magnitude are treated separately, as in the IEEE format. The model
covers finite results only; every operand in this development is below `2^64`
in magnitude. -/
def f64Round (x : ℚ) : ℚ :=
  if x = 0 then 0 else if x < 0 then -f64RoundPos (-x) else f64RoundPos x

/-- Go conversion `float64(n)` of an integer. -/
def f64OfInt (n : Int) : ℚ := f64Round n

/-- Go `x * y` on `float64`. -/
def f64Mul (x y : ℚ) : ℚ := f64Round (x * y)

/-- Go `x / y` on `float64`, `y` non-zero. -/
def f64Div (x y : ℚ) : ℚ := f64Round (x / y)

/-- Go `x - y` on `float64`. -/
def f64Sub (x y : ℚ) : ℚ := f64Round (x - y)

/-- Go conversion of a finite `float64` to `int64`: the fraction is discarded
(truncation toward zero). For a value outside the `int64` range the Go
specification leaves the result to the implementation; the value used here is
the one produced on amd64 (`-2^63`). -/
def f64ToInt64 (x : ℚ) : Int :=
  let t : Int := if x < 0 then -⌊-x⌋ else ⌊x⌋
  if -(2 ^ 63) ≤ t ∧ t < 2 ^ 63 then t else -(2 ^ 63)

/-! ## Data model (`types.go`, `models/message.go`) -/

/-- Message of `models/message.go`. -/
structure Message where
  ID : String
  UserID : String
  ChannelID : String
  Title : String
  Content : String
  MessageType : String
  Priority : Int
  Sender : String
  CreatedAt : Int
  UpdatedAt : Int
  Metadata : List (String × String)
deriving DecidableEq, Repr

/-- DeliveryTask of `types.go`; `Message` is a pointer that may be nil. -/
structure DeliveryTask where
  ID : String
  ChannelID : String
  Message : Option Message
  TargetUsers : List String
  Priority : Int
  RetryCount : Int
  CreatedAt : Int
  Timeout : Int
deriving DecidableEq, Repr

/-- RetryTask of `types.go`. -/
structure RetryTask where
  OriginalTask : DeliveryTask
  RetryCount : Int
  NextRetry : Int
  Reason : String
deriving DecidableEq, Repr

/-- MemoryPressure levels of `types.go`. -/
inductive MemoryPressure where
  | Low
  | Medium
  | High
  | Critical
deriving DecidableEq, Repr

/-- BackpressureCtrl of `types.go` (the mutex is not represented). -/
structure BackpressureCtrl where
  rejectionCount : Int
  acceptanceCount : Int
  windowSize : Int
  lastWindow : Int
deriving DecidableEq, Repr

/-- DeliveryStats counters of `types.go`. -/
structure DeliveryStats where
  TotalReceived : Int
  TotalDelivered : Int
  TotalFailed : Int
  TotalRetried : Int
deriving DecidableEq, Repr

/-- A buffered channel: queued elements, oldest first, and the capacity. -/
structure Chan (α : Type) where
  buf : List α
  cap : Nat
deriving DecidableEq, Repr

/-- Non-blocking send: succeeds exactly when the buffer has a free slot. -/
def Chan.trySend {α : Type} (c : Chan α) (x : α) : Option (Chan α) :=
  if c.buf.length < c.cap then some { c with buf := c.buf ++ [x] } else none

/-- Non-blocking receive: the oldest element, if any. -/
def Chan.tryRecv {α : Type} (c : Chan α) : Option (α × Chan α) :=
  match c.buf with
  | [] => none
  | x :: rest => some (x, { c with buf := rest })

/-! ## Backpressure controller (`backpressure.go`) -/

/-- NewBackpressureCtrl: empty counters, a 60 s window starting now. -/
def NewBackpressureCtrl (now : Int) : BackpressureCtrl :=
  { rejectionCount := 0, acceptanceCount := 0, windowSize := 60 * 1000000000, lastWindow := now }

/-- ShouldAccept of `backpressure.go`. `pressure` is the value that
`GetCurrentMemoryPressure()` returns when it is called. -/
def ShouldAccept (bp : BackpressureCtrl) (pressure : MemoryPressure) (task : DeliveryTask) :
    Bool × BackpressureCtrl :=
  let total := bp.rejectionCount + bp.acceptanceCount
  if total = 0 then
    (true, { bp with acceptanceCount := bp.acceptanceCount + 1 })
  else
    let rejectionRate := f64Div (f64OfInt bp.rejectionCount) (f64OfInt total)
    let reject : Bool :=
      match pressure with
      | .Critical => decide (task.Priority < 8)
      | .High => decide (rejectionRate > f64Round (3 / 10) ∧ task.Priority < 6)
      | .Medium => decide (rejectionRate > f64Round (1 / 2) ∧ task.Priority < 4)
      | .Low => false
    if reject then (false, { bp with rejectionCount := bp.rejectionCount + 1 })
    else (true, { bp with acceptanceCount := bp.acceptanceCount + 1 })

/-! ## Retry manager (`retry.go`) -/

/-- RetryManager of `types.go`. -/
structure RetryManager where
  retryQueue : Chan RetryTask
  maxRetries : Int
  backoffBase : Int
  backoffMax : Int
deriving DecidableEq, Repr

/-- NewRetryManager: the queue is `make(chan RetryTask, maxRetries*100)`, which
panics (`none`) for a negative size. -/
def NewRetryManager (maxRetries backoffBase backoffMax : Int) : Option RetryManager :=
  if 0 ≤ wrap64 (maxRetries * 100) then
    some { retryQueue := { buf := [], cap := (wrap64 (maxRetries * 100)).toNat },
           maxRetries := maxRetries, backoffBase := backoffBase, backoffMax := backoffMax }
  else none

/-- Value of `math.Pow(2, float64(k))` for an integer `k`: the power of two
rounded to binary64 (exact for normal exponents, subnormal or zero far below),
and `none` for the overflow to `+Inf` above `2^1023`. -/
def mathPow2 (k : Int) : Option ℚ :=
  if 1023 < k then none else some (f64Round ((2 : ℚ) ^ k))

/-- The conversion `time.Duration(math.Pow(2, float64(k)))`. -/
def pow2Duration (k : Int) : Int :=
  match mathPow2 k with
  | none => -(2 ^ 63)
  | some v => f64ToInt64 v

/-- The jitter factor `2.0*float64(retryCount%10)/10.0 - 1.0`. -/
def jitterFactor (retryCount : Int) : ℚ :=
  f64Sub (f64Div (f64Mul 2 (f64OfInt (retryCount.tmod 10))) 10) 1

/-- The delay that ScheduleRetry adds to `time.Now()`: exponential backoff
capped at `backoffMax`, plus the deterministic jitter (lines 26-34 of
`retry.go`). -/
def backoffDelay (rm : RetryManager) (retryCount : Int) : Int :=
  let delay0 := wrap64 (pow2Duration retryCount * rm.backoffBase)
  let delay1 := if delay0 > rm.backoffMax then rm.backoffMax else delay0
  let jitter := f64ToInt64 (f64Mul (f64Mul (f64OfInt delay1) (f64Round (1 / 10)))
    (jitterFactor retryCount))
  wrap64 (delay1 + jitter)

/-- ScheduleRetry of `retry.go`. -/
def ScheduleRetry (rm : RetryManager) (now : Int) (task : DeliveryTask) (reason : String) :
    Bool × RetryManager :=
  if task.RetryCount ≥ rm.maxRetries then (false, rm)
  else
    let retryTask : RetryTask :=
      { OriginalTask := task, RetryCount := task.RetryCount + 1,
        NextRetry := now + backoffDelay rm task.RetryCount, Reason := reason }
    match rm.retryQueue.trySend retryTask with
    | some q => (true, { rm with retryQueue := q })
    | none => (false, rm)

/-- Result of GetNextRetry: the due task if one was found, the manager
afterwards, and the tasks the loop logged as lost because the queue had no
room to take them back. -/
structure NextRetry where
  task : Option RetryTask
  rm : RetryManager
  lost : List RetryTask
deriving DecidableEq, Repr

/-- GetNextRetry of `retry.go`. Each unit of fuel is one pass through the
`for` loop; `none` means the loop is still running when the fuel is used up.
`now` is the value of `time.Now()` read in every pass. -/
def GetNextRetry : Nat → Int → RetryManager → Option NextRetry
  | 0, _, _ => none
  | fuel + 1, now, rm =>
    match rm.retryQueue.tryRecv with
    | none => some { task := none, rm := rm, lost := [] }
    | some (task, q) =>
      if now > task.NextRetry then
        some { task := some task, rm := { rm with retryQueue := q }, lost := [] }
      else
        match q.trySend task with
        | some q' => GetNextRetry fuel now { rm with retryQueue := q' }
        | none =>
          (GetNextRetry fuel now { rm with retryQueue := q }).map
            (fun r => { r with lost := task :: r.lost })

/-- RetryWorker of `retry.go`: the channel on which due tasks are handed to
`runRetryManager`. -/
structure RetryWorker where
  workerChan : Chan DeliveryTask
deriving DecidableEq, Repr

/-- NewRetryWorker: `workerChan` has room for 100 tasks. -/
def NewRetryWorker : RetryWorker := { workerChan := { buf := [], cap := 100 } }

/-- Result of one call of processRetries: manager and worker afterwards, the
retry tasks handed to a re-scheduling goroutine (their send timed out), and
the tasks GetNextRetry logged as lost. -/
structure RetryPass where
  rm : RetryManager
  rw : RetryWorker
  requeue : List RetryTask
  lost : List RetryTask
deriving DecidableEq, Repr

/-- The loop of processRetries in `retry.go`. The fuel bounds both the
number of passes and each inner GetNextRetry; `none` means still running. -/
def processRetries : Nat → Int → RetryManager → RetryWorker → Option RetryPass
  | 0, _, _, _ => none
  | fuel + 1, now, rm, rw =>
    match GetNextRetry (fuel + 1) now rm with
    | none => none
    | some r =>
      match r.task with
      | none => some { rm := r.rm, rw := rw, requeue := [], lost := r.lost }
      | some retryTask =>
        let updated : RetryTask :=
          { retryTask with
            OriginalTask := { retryTask.OriginalTask with RetryCount := retryTask.RetryCount } }
        match rw.workerChan.trySend updated.OriginalTask with
        | some ch =>
          (processRetries fuel now r.rm { rw with workerChan := ch }).map
            (fun p => { p with lost := r.lost ++ p.lost })
        | none =>
          (processRetries fuel now r.rm rw).map
            (fun p => { p with requeue := updated :: p.requeue, lost := r.lost ++ p.lost })

/-- The goroutine that processRetries starts for a task whose send timed out:
100 ms later it calls ScheduleRetry with reason "worker_queue_full" and
discards the result. -/
def rescheduleAfterTimeout (rm : RetryManager) (now : Int) (task : RetryTask) :
    Bool × RetryManager :=
  ScheduleRetry rm (now + 100000000) task.OriginalTask "worker_queue_full"

/-- Result of ProcessBatch: the tasks handed back, the manager afterwards
and the tasks logged as lost. -/
structure RetryBatch where
  tasks : List DeliveryTask
  rm : RetryManager
  lost : List RetryTask
deriving DecidableEq, Repr

/-- The loop of BatchRetryProcessor.ProcessBatch in `retry.go`, entered with
`room` free places in the batch (`batchSize - len(tasks)`); the deadline lies
5 s after the fixed reading `now`, so it never ends the loop. -/
def ProcessBatchLoop (fuel : Nat) (now : Int) : Nat → RetryManager → Option RetryBatch
  | 0, rm => some { tasks := [], rm := rm, lost := [] }
  | room + 1, rm =>
    match GetNextRetry fuel now rm with
    | none => none
    | some r =>
      match r.task with
      | none => some { tasks := [], rm := r.rm, lost := r.lost }
      | some retryTask =>
        (ProcessBatchLoop fuel now room r.rm).map
          (fun b => { b with
            tasks := { retryTask.OriginalTask with RetryCount := retryTask.RetryCount } :: b.tasks,
            lost := r.lost ++ b.lost })

/-- ProcessBatch with the batch size 10 of NewBatchRetryProcessor. -/
def ProcessBatch (fuel : Nat) (now : Int) (rm : RetryManager) : Option RetryBatch :=
  ProcessBatchLoop fuel now 10 rm

/-! ## Queue manager (`queue.go`) -/

/-- QueueConfig of `types.go`. -/
structure QueueConfig where
  EntryQueueSize : Int
  PriorityQueueSize : Int
  WorkerQueueSize : Int
  MaxWorkers : Int
  MinWorkers : Int
  QueueTimeout : Int
deriving DecidableEq, Repr

/-- QueueManager of `types.go`. The channels in `workerQueues` are the inboxes
(`taskChan`) of the workers: `initWorkers` registers each of them here, and
the embedding keeps this one copy of them. -/
structure QueueManager where
  entryQueue : Chan DeliveryTask
  highQueue : Chan DeliveryTask
  normalQueue : Chan DeliveryTask
  lowQueue : Chan DeliveryTask
  workerQueues : List (Chan DeliveryTask)
  workerCount : Int
  config : QueueConfig
deriving DecidableEq, Repr

/-- Allocation `make(chan T, n)`: panics (`none`) for a negative size. -/
def makeChan (α : Type) (n : Int) : Option (Chan α) :=
  if 0 ≤ n then some { buf := [], cap := n.toNat } else none

/-- NewQueueManager of `queue.go`. -/
def NewQueueManager (config : QueueConfig) : Option QueueManager := do
  let entry ← makeChan DeliveryTask config.EntryQueueSize
  let high ← makeChan DeliveryTask config.PriorityQueueSize
  let normal ← makeChan DeliveryTask config.PriorityQueueSize
  let low ← makeChan DeliveryTask config.PriorityQueueSize
  pure { entryQueue := entry, highQueue := high, normalQueue := normal, lowQueue := low,
         workerQueues := [], workerCount := 0, config := config }

/-- AddWorker of `queue.go`. -/
def AddWorker (qm : QueueManager) (taskChan : Chan DeliveryTask) : QueueManager :=
  { qm with workerQueues := qm.workerQueues ++ [taskChan], workerCount := qm.workerCount + 1 }

/-- DispatchTask of `queue.go`: the bucket is chosen by priority; the send
gives up after 100 ms, which is the case of a full bucket. -/
def DispatchTask (qm : QueueManager) (task : DeliveryTask) : Bool × QueueManager :=
  if task.Priority ≤ 3 then
    match qm.highQueue.trySend task with
    | some q => (true, { qm with highQueue := q })
    | none => (false, qm)
  else if task.Priority ≤ 7 then
    match qm.normalQueue.trySend task with
    | some q => (true, { qm with normalQueue := q })
    | none => (false, qm)
  else
    match qm.lowQueue.trySend task with
    | some q => (true, { qm with lowQueue := q })
    | none => (false, qm)

/-- GetNextTask of `queue.go`: high, then normal, then low. -/
def GetNextTask (qm : QueueManager) : Option DeliveryTask × QueueManager :=
  match qm.highQueue.tryRecv with
  | some (task, q) => (some task, { qm with highQueue := q })
  | none =>
    match qm.normalQueue.tryRecv with
    | some (task, q) => (some task, { qm with normalQueue := q })
    | none =>
      match qm.lowQueue.tryRecv with
      | some (task, q) => (some task, { qm with lowQueue := q })
      | none => (none, qm)

/-- The fallback loop of DistributeToWorkers and dispatchToWorker: starting at
index `i`, offer the task without waiting to each inbox other than `skip`;
the result is the inbox list after the first successful send. -/
def offerToOthers (task : DeliveryTask) (skip : Nat) :
    Nat → List (Chan DeliveryTask) → Option (List (Chan DeliveryTask))
  | _, [] => none
  | i, c :: rest =>
    if i = skip then (offerToOthers task skip (i + 1) rest).map (fun r => c :: r)
    else
      match c.trySend task with
      | some c' => some (c' :: rest)
      | none => (offerToOthers task skip (i + 1) rest).map (fun r => c :: r)

/-- DistributeToWorkers of `queue.go`. `now` is `time.Now().UnixNano()`.
The outer `none` is the run-time panic of an index outside `workerQueues`. -/
def DistributeToWorkers (qm : QueueManager) (now : Int) (task : DeliveryTask) :
    Option (Bool × QueueManager) :=
  if qm.workerCount = 0 then some (false, qm)
  else
    let workerIndex := now.tmod qm.workerCount
    if workerIndex < 0 then none
    else
      match qm.workerQueues.get? workerIndex.toNat with
      | none => none
      | some target =>
        match target.trySend task with
        | some c => some (true, { qm with workerQueues := qm.workerQueues.set workerIndex.toNat c })
        | none =>
          if qm.workerQueues.length < qm.workerCount then
            match offerToOthers task workerIndex.toNat 0 qm.workerQueues with
            | some qs => some (true, { qm with workerQueues := qs })
            | none => none
          else
            match offerToOthers task workerIndex.toNat 0 (qm.workerQueues.take qm.workerCount.toNat) with
            | some qs =>
              some (true, { qm with workerQueues := qs ++ qm.workerQueues.drop qm.workerCount.toNat })
            | none => some (false, qm)

/-! ## Delivery system (`system.go`) and worker (`worker.go`) -/

/-- DeliveryConfig of `system.go`. -/
structure DeliveryConfig where
  WorkerCount : Int
  QueueLimit : Int
  RateLimit : Int
  TaskTimeout : Int
  MaxRetries : Int
  RetryBackoffBase : Int
  RetryBackoffMax : Int
deriving DecidableEq, Repr

/-- DeliverySystem of `system.go`: entry buffer, queue manager (which holds
the worker inboxes), retry manager, backpressure controller, configuration
and counters. The moving average and the gauges of the statistics are not
represented. -/
structure DeliverySystem where
  inputChan : Chan DeliveryTask
  queueManager : QueueManager
  retryManager : RetryManager
  backpressure : BackpressureCtrl
  config : DeliveryConfig
  stats : DeliveryStats
deriving DecidableEq, Repr

/-- The loop of initWorkers: every new worker has an inbox for 100 tasks
(NewDeliveryWorker), registered with AddWorker. -/
def initWorkers : Nat → QueueManager → QueueManager
  | 0, qm => qm
  | n + 1, qm => initWorkers n (AddWorker qm { buf := [], cap := 100 })

/-- The default configuration of NewDeliverySystemWithConfig for a nil
config file, on a machine with `cpus` cores. -/
def defaultDeliveryConfig (cpus : Int) : DeliveryConfig :=
  { WorkerCount := cpus, QueueLimit := 10000, RateLimit := 1000,
    TaskTimeout := 30 * 1000000000, MaxRetries := 3,
    RetryBackoffBase := 100 * 1000000, RetryBackoffMax := 5 * 1000000000 }

/-- Construction of the system from its DeliveryConfig (the tail of
NewDeliverySystemWithConfig with initQueueManager, initRetryManager,
initBackpressureControl and initWorkers); `none` is an allocation panic. -/
def NewDeliverySystemWithConfig (config : DeliveryConfig) (now : Int) : Option DeliverySystem := do
  let input ← makeChan DeliveryTask config.QueueLimit
  let qm ← NewQueueManager
    { EntryQueueSize := config.QueueLimit, PriorityQueueSize := config.QueueLimit.tdiv 3,
      WorkerQueueSize := 100, MaxWorkers := wrap64 (config.WorkerCount * 2), MinWorkers := 2,
      QueueTimeout := 5 * 1000000000 }
  let rm ← NewRetryManager config.MaxRetries config.RetryBackoffBase config.RetryBackoffMax
  if config.WorkerCount < 0 then none
  else
    pure { inputChan := input, queueManager := initWorkers config.WorkerCount.toNat qm,
           retryManager := rm, backpressure := NewBackpressureCtrl now, config := config,
           stats := { TotalReceived := 0, TotalDelivered := 0, TotalFailed := 0, TotalRetried := 0 } }

/-- The two errors SubmitTask returns: "rejected due to backpressure" and
"queue full, task rejected". -/
inductive SubmitError where
  | RejectedOverload
  | QueueFull
deriving DecidableEq, Repr

/-- The task as SubmitTask stores it: id, creation time and timeout filled in
where the caller left them empty. -/
def withDefaults (ds : DeliverySystem) (now : Int) (newID : String) (task : DeliveryTask) :
    DeliveryTask :=
  let task1 := if task.ID = "" then { task with ID := newID } else task
  let task2 := if task1.CreatedAt = 0 then { task1 with CreatedAt := now } else task1
  if task2.Timeout = 0 then { task2 with Timeout := ds.config.TaskTimeout } else task2

/-- SubmitTask of `system.go`. `pressure` is the probe reading, `newID` the
value of generateTaskID(), `now` the clock. The send gives up after 100 ms,
which is the case of a full entry buffer. -/
def SubmitTask (ds : DeliverySystem) (pressure : MemoryPressure) (now : Int) (newID : String)
    (task : DeliveryTask) : Option SubmitError × DeliverySystem :=
  match ShouldAccept ds.backpressure pressure task with
  | (false, bp) =>
    (some .RejectedOverload,
      { ds with backpressure := bp,
                stats := { ds.stats with TotalFailed := ds.stats.TotalFailed + 1 } })
  | (true, bp) =>
    match ds.inputChan.trySend (withDefaults ds now newID task) with
    | some ch =>
      (none, { ds with backpressure := bp, inputChan := ch,
                       stats := { ds.stats with TotalReceived := ds.stats.TotalReceived + 1 } })
    | none =>
      (some .QueueFull,
        { ds with backpressure := bp,
                  stats := { ds.stats with TotalFailed := ds.stats.TotalFailed + 1 } })

/-- IsExpired of `types.go`. -/
def IsExpired (task : DeliveryTask) (now : Int) : Bool :=
  decide (now - task.CreatedAt > task.Timeout)

/-- The method scheduleRetry of the worker (`worker.go`): a scheduled retry
counts in TotalRetried, a refused one in TotalFailed. -/
def scheduleRetry (ds : DeliverySystem) (now : Int) (task : DeliveryTask) (reason : String) :
    DeliverySystem :=
  match ScheduleRetry ds.retryManager now task reason with
  | (true, rm) =>
    { ds with retryManager := rm,
              stats := { ds.stats with TotalRetried := ds.stats.TotalRetried + 1 } }
  | (false, rm) =>
    { ds with retryManager := rm,
              stats := { ds.stats with TotalFailed := ds.stats.TotalFailed + 1 } }

/-- Recipient list of processTask: the target users if there are any, else
the user of the message, else none. -/
def resolveRecipients (task : DeliveryTask) : Option (List String) :=
  if task.TargetUsers.length > 0 then some task.TargetUsers
  else
    match task.Message with
    | some m => some [m.UserID]
    | none => none

/-- Number of recipients for which deliverToUser returns no error;
`deliver i u` is the outcome of the call for the `i`-th recipient `u`. -/
def successCount (deliver : Nat → String → Bool) (users : List String) : Nat :=
  (users.enum.filter (fun p => deliver p.1 p.2)).length

/-- What processTask did with a task. -/
inductive TaskOutcome where
  | expired
  | noRecipients
  | delivered
  | allFailed
deriving DecidableEq, Repr

/-- The branch processTask takes. -/
def taskOutcome (now : Int) (deliver : Nat → String → Bool) (task : DeliveryTask) : TaskOutcome :=
  if IsExpired task now then .expired
  else
    match resolveRecipients task with
    | none => .noRecipients
    | some users => if successCount deliver users > 0 then .delivered else .allFailed

/-- processTask of `worker.go`. -/
def processTask (ds : DeliverySystem) (now : Int) (deliver : Nat → String → Bool)
    (task : DeliveryTask) : DeliverySystem :=
  if IsExpired task now then scheduleRetry ds now task "task_expired"
  else
    match resolveRecipients task with
    | none => ds
    | some targetUsers =>
      let count := successCount deliver targetUsers
      let ds1 :=
        if count > 0 then
          { ds with stats := { ds.stats with TotalDelivered := ds.stats.TotalDelivered + 1 } }
        else ds
      if count = 0 ∧ targetUsers.length > 0 then scheduleRetry ds1 now task "all_users_failed"
      else ds1

/-! ## The loops of `main_loops.go` -/

/-- One pass of runMainLoop: take the next task from the entry buffer and
dispatch it to its priority bucket; a failed dispatch counts in TotalFailed.
`none` when the entry buffer is empty (the loop waits). -/
def runMainLoopStep (ds : DeliverySystem) : Option DeliverySystem :=
  match ds.inputChan.tryRecv with
  | none => none
  | some (task, ch) =>
    match DispatchTask ds.queueManager task with
    | (true, qm) => some { ds with inputChan := ch, queueManager := qm }
    | (false, qm) =>
      some { ds with inputChan := ch, queueManager := qm,
                     stats := { ds.stats with TotalFailed := ds.stats.TotalFailed + 1 } }

/-- One pass of the loop of processQueueBacklog: take the next task by
priority and hand it to a worker inbox; when no inbox takes it, the goroutine
started for it dispatches it again 50 ms later and ignores the result. The
Boolean tells whether that second dispatch failed, in which case the task is
gone. Outer `none`: no task is queued, or DistributeToWorkers panicked. -/
def processQueueBacklogStep (ds : DeliverySystem) (now : Int) : Option (DeliverySystem × Bool) :=
  match GetNextTask ds.queueManager with
  | (none, _) => none
  | (some task, qm) =>
    match DistributeToWorkers qm now task with
    | none => none
    | some (true, qm1) => some ({ ds with queueManager := qm1 }, false)
    | some (false, qm1) =>
      match DispatchTask qm1 task with
      | (true, qm2) => some ({ ds with queueManager := qm2 }, false)
      | (false, qm2) => some ({ ds with queueManager := qm2 }, true)

/-- A worker takes the next task from inbox `i` and runs processTask.
`none` when there is no such inbox or it is empty. -/
def workerStep (ds : DeliverySystem) (i : Nat) (now : Int) (deliver : Nat → String → Bool) :
    Option (DeliverySystem × DeliveryTask) :=
  match ds.queueManager.workerQueues.get? i with
  | none => none
  | some inbox =>
    match inbox.tryRecv with
    | none => none
    | some (task, inbox1) =>
      some (processTask
        { ds with queueManager :=
            { ds.queueManager with workerQueues := ds.queueManager.workerQueues.set i inbox1 } }
        now deliver task, task)

/-- Result of dispatchToWorker: the system afterwards and, when every inbox
was full, the task now held by the goroutine that will send it to the entry
buffer with a blocking send. -/
structure WorkerDispatch where
  ds : DeliverySystem
  held : Option DeliveryTask
deriving DecidableEq, Repr

/-- dispatchToWorker of `main_loops.go`; the workers of the system are the
owners of the inboxes in `workerQueues`. Outer `none`: the modulo by zero of
a system without workers, or a negative clock reading as index. -/
def dispatchToWorker (ds : DeliverySystem) (now : Int) (task : DeliveryTask) :
    Option WorkerDispatch :=
  let inboxes := ds.queueManager.workerQueues
  if inboxes.length = 0 then none
  else
    let workerIndex := now.tmod inboxes.length
    if workerIndex < 0 then none
    else
      match inboxes.get? workerIndex.toNat with
      | none => none
      | some target =>
        match target.trySend task with
        | some c =>
          some { ds := { ds with queueManager :=
                   { ds.queueManager with workerQueues := inboxes.set workerIndex.toNat c } },
                 held := none }
        | none =>
          match offerToOthers task workerIndex.toNat 0 inboxes with
          | some qs =>
            some { ds := { ds with queueManager := { ds.queueManager with workerQueues := qs } },
                   held := none }
          | none => some { ds := ds, held := some task }

/-! ## The pipeline as a transition system -/

/-- Number of tasks held in the worker inboxes. -/
def inboxLoad (qs : List (Chan DeliveryTask)) : Int :=
  (qs.map (fun c => (c.buf.length : Int))).sum

/-- State of the running pipeline: the delivery system, the retry worker
created by runRetryManager, the tasks held by goroutines of dispatchToWorker
that wait to send into the entry buffer, and the history of SubmitTask:
`refused` is the number of its calls that returned an error. -/
structure Pipeline where
  ds : DeliverySystem
  rw : RetryWorker
  held : List DeliveryTask
  refused : Int
deriving DecidableEq, Repr

/-- Number of admitted tasks still in the pipeline: entry buffer, priority
buckets, worker inboxes, retry queue, the channel of the retry worker, and
the tasks held by waiting goroutines. -/
def inFlight (p : Pipeline) : Int :=
  p.ds.inputChan.buf.length + p.ds.queueManager.highQueue.buf.length +
  p.ds.queueManager.normalQueue.buf.length + p.ds.queueManager.lowQueue.buf.length +
  inboxLoad p.ds.queueManager.workerQueues + p.ds.retryManager.retryQueue.buf.length +
  p.rw.workerChan.buf.length + p.held.length

/-- The goroutines started by one call of processRetries, run one after the
other: each re-schedules its task; the number counts the refused ones. -/
def rescheduleAll (now : Int) : List RetryTask → RetryManager → RetryManager × Int
  | [], rm => (rm, 0)
  | t :: rest, rm =>
    match rescheduleAfterTimeout rm now t with
    | (true, rm1) => rescheduleAll now rest rm1
    | (false, rm1) =>
      let r := rescheduleAll now rest rm1
      (r.1, r.2 + 1)

/-- The steps of the running pipeline in which every task that leaves a queue
is counted, queued again or held by a goroutine. The code has four places
where a task is let go with a log line only or with nothing at all: the
second dispatch of processQueueBacklog finds the bucket full, processTask
finds no recipient, GetNextRetry cannot put a task that is not yet due back,
and ScheduleRetry refuses a task whose hand-off timed out. A pass through
one of these places is not a `Step`; nothing is stated about it here. -/
inductive Step : Pipeline → Pipeline → Prop where
  | submit (p : Pipeline) (pressure : MemoryPressure) (now : Int) (newID : String)
      (task : DeliveryTask) :
      Step p { p with
        ds := (SubmitTask p.ds pressure now newID task).2,
        refused := p.refused + (if (SubmitTask p.ds pressure now newID task).1 = none then 0 else 1) }
  | mainLoop (p : Pipeline) (ds1 : DeliverySystem) :
      runMainLoopStep p.ds = some ds1 → Step p { p with ds := ds1 }
  | backlog (p : Pipeline) (now : Int) (ds1 : DeliverySystem) :
      processQueueBacklogStep p.ds now = some (ds1, false) →
      Step p { p with ds := ds1 }
  | worker (p : Pipeline) (i : Nat) (now : Int) (deliver : Nat → String → Bool)
      (ds1 : DeliverySystem) (task : DeliveryTask) :
      workerStep p.ds i now deliver = some (ds1, task) →
      taskOutcome now deliver task ≠ .noRecipients →
      Step p { p with ds := ds1 }
  | retryTick (p : Pipeline) (fuel : Nat) (now : Int) (r : RetryPass) :
      processRetries fuel now p.ds.retryManager p.rw = some r →
      r.lost = [] →
      (rescheduleAll now r.requeue r.rm).2 = 0 →
      Step p { p with
        ds := { p.ds with retryManager := (rescheduleAll now r.requeue r.rm).1 },
        rw := r.rw }
  | retryDispatch (p : Pipeline) (now : Int) (task : DeliveryTask) (ch : Chan DeliveryTask)
      (d : WorkerDispatch) :
      p.rw.workerChan.tryRecv = some (task, ch) →
      dispatchToWorker p.ds now task = some d →
      Step p { p with ds := d.ds, rw := { p.rw with workerChan := ch },
                      held := p.held ++ d.held.toList }
  | release (p : Pipeline) (task : DeliveryTask) (rest : List DeliveryTask)
      (ch : Chan DeliveryTask) :
      p.held = task :: rest → p.ds.inputChan.trySend task = some ch →
      Step p { p with ds := { p.ds with inputChan := ch }, held := rest }

/-- The pipeline right after construction of the system. -/
def Pipeline.start (ds : DeliverySystem) : Pipeline :=
  { ds := ds, rw := NewRetryWorker, held := [], refused := 0 }

/-- States the pipeline can reach from a newly constructed system by such
steps. -/
inductive Reachable : Pipeline → Prop where
  | start (config : DeliveryConfig) (now : Int) (ds : DeliverySystem) :
      NewDeliverySystemWithConfig config now = some ds → Reachable (Pipeline.start ds)
  | step (p q : Pipeline) : Reachable p → Step p q → Reachable q

/-- The accounting equation: every task counted as received, together with
every refused submission, is delivered, failed or still in the pipeline. -/
def Accounted (p : Pipeline) : Prop :=
  p.ds.stats.TotalReceived + p.refused
    = p.ds.stats.TotalDelivered + p.ds.stats.TotalFailed + inFlight p

/-! ## The retry path as a transition system -/

/-- States of the retry manager reachable from NewRetryManager through
ScheduleRetry (for any task), GetNextRetry, processRetries and ProcessBatch. -/
inductive RetryReachable : RetryManager → Prop where
  | fresh (maxRetries backoffBase backoffMax : Int) (rm : RetryManager) :
      NewRetryManager maxRetries backoffBase backoffMax = some rm → RetryReachable rm
  | schedule (rm : RetryManager) (now : Int) (task : DeliveryTask) (reason : String) :
      RetryReachable rm → RetryReachable (ScheduleRetry rm now task reason).2
  | next (rm : RetryManager) (fuel : Nat) (now : Int) (r : NextRetry) :
      RetryReachable rm → GetNextRetry fuel now rm = some r → RetryReachable r.rm
  | pass (rm : RetryManager) (fuel : Nat) (now : Int) (rw : RetryWorker) (p : RetryPass) :
      RetryReachable rm → processRetries fuel now rm rw = some p → RetryReachable p.rm
  | batch (rm : RetryManager) (fuel : Nat) (now : Int) (b : RetryBatch) :
      RetryReachable rm → ProcessBatch fuel now rm = some b → RetryReachable b.rm

/-- Scenario of a task whose every delivery attempt fails for all recipients:
`k` attempts by a worker, each followed, if a retry was scheduled, by the tick
of the retry worker right after the retry falls due, which hands the task
back for the next attempt. The result is the system after the attempts and
the task waiting for a further attempt, if any. -/
def failingAttempts : Nat → DeliverySystem → Int → DeliveryTask →
    Option (DeliverySystem × Option DeliveryTask)
  | 0, ds, _, task => some (ds, some task)
  | k + 1, ds, now, task =>
    let ds1 := processTask ds now (fun _ _ => false) task
    match ds1.retryManager.retryQueue.buf with
    | [] => some (ds1, none)
    | rt :: _ =>
      match processRetries 2 (rt.NextRetry + 1) ds1.retryManager NewRetryWorker with
      | none => none
      | some p =>
        match p.rw.workerChan.buf with
        | [] => some ({ ds1 with retryManager := p.rm }, none)
        | t :: _ => failingAttempts k { ds1 with retryManager := p.rm } (rt.NextRetry + 1) t

/-- Every queued retry task carries a retry count within the limit. -/
def RetryBounded (rm : RetryManager) : Prop :=
  ∀ rt ∈ rm.retryQueue.buf, rt.RetryCount ≤ rm.maxRetries

/-! ## Dispatching and draining the priority buckets -/

/-- DispatchTask applied to a sequence of tasks, in order, as the main loop
does for the tasks it takes from the entry buffer. -/
def dispatchAll : List DeliveryTask → QueueManager → QueueManager
  | [], qm => qm
  | t :: ts, qm => dispatchAll ts (DispatchTask qm t).2

/-- GetNextTask called again and again until it reports that nothing is
queued: the tasks in the order they came out and the manager afterwards.
Each unit of fuel is one call; `none` means the fuel ran out first. -/
def drain : Nat → QueueManager → Option (List DeliveryTask × QueueManager)
  | 0, _ => none
  | fuel + 1, qm =>
    match GetNextTask qm with
    | (none, qm1) => some ([], qm1)
    | (some t, qm1) => (drain fuel qm1).map (fun r => (t :: r.1, r.2))

/-- Priority class of the high bucket: priority at most 3. -/
def inHigh (t : DeliveryTask) : Bool := decide (t.Priority ≤ 3)

/-- Priority class of the normal bucket: priority 4 to 7. -/
def inNormal (t : DeliveryTask) : Bool := decide (3 < t.Priority ∧ t.Priority ≤ 7)

/-- Priority class of the low bucket: priority above 7. -/
def inLow (t : DeliveryTask) : Bool := decide (7 < t.Priority)

/-! ## Workspace cache (`workspace/cache.go`) -/

/-- A `*sql.DB` handle, named by the order in which `sql.Open` returned it. -/
abbrev Handle := Nat

/-- Workspace of `workspace/manager.go`. The field `Database` is always nil
and is left out; a handle is a pointer that may be nil. -/
structure Workspace where
  UserID : String
  BasePath : String
  MessagesDB : Option Handle
  ReadDB : Option Handle
deriving DecidableEq, Repr

/-- CacheEntry of `cache.go`; `Workspace` is a pointer that may be nil. -/
structure CacheEntry where
  Workspace : Option Workspace
  LastAccess : Int
  CreatedAt : Int
deriving DecidableEq, Repr

/-- Lookup in a Go map kept as an association list. -/
def mapGet {α : Type} : List (String × α) → String → Option α
  | [], _ => none
  | (k, v) :: rest, key => if k = key then some v else mapGet rest key

/-- Assignment `m[key] = val`: an existing key keeps its place, a new key
goes to the end. -/
def mapSet {α : Type} : List (String × α) → String → α → List (String × α)
  | [], key, val => [(key, val)]
  | (k, v) :: rest, key, val =>
    if k = key then (key, val) :: rest else (k, v) :: mapSet rest key val

/-- The builtin `delete(m, key)`. -/
def mapDelete {α : Type} : List (String × α) → String → List (String × α)
  | [], _ => []
  | (k, v) :: rest, key =>
    if k = key then mapDelete rest key else (k, v) :: mapDelete rest key

/-- WorkspaceCache of `cache.go`. `entries` is the map, in the order in which
a `range` loop visits it; `stopped` tells that `stopCleanup` has been closed;
`closeLog` is a ghost field, the handles on which the cache has called
`Close()`, in call order. -/
structure WorkspaceCache where
  entries : List (String × CacheEntry)
  maxSize : Int
  ttl : Int
  stopped : Bool
  closeLog : List Handle
deriving DecidableEq, Repr

/-- NewWorkspaceCache: an empty map (the sweeper goroutine is the repeated
application of `cleanupOnce`). -/
def NewWorkspaceCache (maxSize : Int) (ttl : Int) : WorkspaceCache :=
  { entries := [], maxSize := maxSize, ttl := ttl, stopped := false, closeLog := [] }

/-- Get at clock reading `now`: the returned pair, the cache afterwards, and
the user whose `removeEntry` goroutine Get has started, if any. -/
def WorkspaceCache.Get (wc : WorkspaceCache) (now : Int) (userID : String) :
    (Option Workspace × Bool) × WorkspaceCache × Option String :=
  match mapGet wc.entries userID with
  | none => ((none, false), wc, none)
  | some entry =>
    if now - entry.LastAccess > wc.ttl then ((none, false), wc, some userID)
    else ((entry.Workspace, true),
          { wc with entries := mapSet wc.entries userID { entry with LastAccess := now } },
          none)

/-- The `Close()` calls that removeEntryUnsafe makes on a workspace:
MessagesDB first, then ReadDB, each only when not nil. -/
def closeCalls : Option Workspace → List Handle
  | none => []
  | some ws => ws.MessagesDB.toList ++ ws.ReadDB.toList

/-- The method removeEntryUnsafe. -/
def WorkspaceCache.removeEntryUnsafe (wc : WorkspaceCache) (userID : String) :
    WorkspaceCache :=
  match mapGet wc.entries userID with
  | some entry =>
    { wc with closeLog := wc.closeLog ++ closeCalls entry.Workspace,
              entries := mapDelete wc.entries userID }
  | none => wc

/-- Remove: removeEntryUnsafe under the lock. -/
def WorkspaceCache.Remove (wc : WorkspaceCache) (userID : String) : WorkspaceCache :=
  wc.removeEntryUnsafe userID

/-- The method removeEntry, the body of the goroutine that Get starts. -/
def WorkspaceCache.removeEntry (wc : WorkspaceCache) (userID : String) : WorkspaceCache :=
  wc.removeEntryUnsafe userID

/-- The loop of evictLRU over the entries still to visit, carrying
`(oldestUserID, oldestTime)`. -/
def evictLRUScan : List (String × CacheEntry) → String × Int → String × Int
  | [], acc => acc
  | (userID, entry) :: rest, (oldestUserID, oldestTime) =>
    if oldestUserID = "" ∨ entry.LastAccess < oldestTime then
      evictLRUScan rest (userID, entry.LastAccess)
    else evictLRUScan rest (oldestUserID, oldestTime)

/-- The method evictLRU. The zero `time.Time` that `oldestTime` starts with is
never compared: the first visit finds `oldestUserID == ""`. -/
def WorkspaceCache.evictLRU (wc : WorkspaceCache) : WorkspaceCache :=
  let oldestUserID := (evictLRUScan wc.entries ("", 0)).1
  if oldestUserID ≠ "" then wc.removeEntryUnsafe oldestUserID else wc

/-- Put at clock reading `now` (the two readings of the entry literal are
taken as one). -/
def WorkspaceCache.Put (wc : WorkspaceCache) (now : Int) (userID : String)
    (ws : Option Workspace) : WorkspaceCache :=
  let wc1 := if (wc.entries.length : Int) ≥ wc.maxSize then wc.evictLRU else wc
  { wc1 with
    entries := mapSet wc1.entries userID { Workspace := ws, LastAccess := now, CreatedAt := now } }

/-- One sweep, cleanupOnce, at clock reading `now`. -/
def WorkspaceCache.cleanupOnce (wc : WorkspaceCache) (now : Int) : WorkspaceCache :=
  let toRemove := (wc.entries.filter (fun p => now - p.2.LastAccess > wc.ttl)).map (fun p => p.1)
  toRemove.foldl WorkspaceCache.removeEntryUnsafe wc

/-- Size. -/
def WorkspaceCache.Size (wc : WorkspaceCache) : Int := wc.entries.length

/-- Close: closing `stopCleanup` a second time panics (none); otherwise every
entry is removed. -/
def WorkspaceCache.Close (wc : WorkspaceCache) : Option WorkspaceCache :=
  if wc.stopped then none
  else some ((wc.entries.map (fun p => p.1)).foldl WorkspaceCache.removeEntryUnsafe
    { wc with stopped := true })

/-- The calls a client of the cache can make; the goroutine that an expired
Get starts is a later `Remove` of the same user. -/
inductive CacheOp where
  | Put (now : Int) (userID : String) (ws : Option Workspace)
  | Get (now : Int) (userID : String)
  | Remove (userID : String)
  | cleanupOnce (now : Int)
  | Close
deriving DecidableEq, Repr

/-- The cache after one call; none when the call panics. -/
def WorkspaceCache.step (wc : WorkspaceCache) : CacheOp → Option WorkspaceCache
  | .Put now userID ws => some (wc.Put now userID ws)
  | .Get now userID => some (wc.Get now userID).2.1
  | .Remove userID => some (wc.Remove userID)
  | .cleanupOnce now => some (wc.cleanupOnce now)
  | .Close => wc.Close

/-- The cache after a sequence of calls. -/
def WorkspaceCache.run : WorkspaceCache → List CacheOp → Option WorkspaceCache
  | wc, [] => some wc
  | wc, op :: ops =>
    match wc.step op with
    | none => none
    | some wc1 => wc1.run ops
/-! ## Message storage (`storage/user_storage.go`) -/

/-- A row of the table `messages` of a user's messages.db; the table has no
`user_id` column, and `metadata` may be NULL. -/
structure MessageRow where
  id : String
  channel_id : String
  title : String
  content : String
  message_type : String
  priority : Int
  sender : String
  created_at : Int
  updated_at : Int
  metadata : Option String
deriving DecidableEq, Repr

/-- A row of the table `channels`, as far as the message path touches it. -/
structure ChannelRow where
  id : String
  last_message_at : Option Int
deriving DecidableEq, Repr

/-- The database behind the handle `MessagesDB` of a workspace: whether the
handle has been closed, and the two tables. Timestamps are stored and read
back as instants; failures of SQLite other than a closed handle and a
primary-key conflict are not modelled. -/
structure SqlDB where
  closed : Bool
  messages : List MessageRow
  channels : List ChannelRow
deriving DecidableEq, Repr

/-- The functions json.Marshal and json.Unmarshal on a metadata map; none is
an error. -/
structure JsonCodec where
  marshal : List (String × String) → Option String
  unmarshal : String → Option (List (String × String))

/-- The statement `UPDATE channels SET last_message_at = ? WHERE id = ?`. -/
def updateChannelLastMessage (db : SqlDB) (channelID : String) (messageTime : Int) :
    Except String Unit × SqlDB :=
  if db.closed then (.error "sql: database is closed", db)
  else (.ok (), { db with
    channels := db.channels.map (fun c =>
      if c.id = channelID then { c with last_message_at := some messageTime } else c) })

/-- CreateMessage of `user_storage.go`: the error of json.Marshal is dropped
(the text is then empty), ten columns are inserted, then the channel is
touched. -/
def CreateMessage (codec : JsonCodec) (db : SqlDB) (message : Message) :
    Except String Unit × SqlDB :=
  let metadataJSON := (codec.marshal message.Metadata).getD ""
  if db.closed then (.error "failed to create message: sql: database is closed", db)
  else if db.messages.any (fun r => r.id = message.ID) then
    (.error "failed to create message: UNIQUE constraint failed: messages.id", db)
  else
    updateChannelLastMessage
      { db with
        messages := db.messages ++ [{
          id := message.ID,
          channel_id := message.ChannelID,
          title := message.Title,
          content := message.Content,
          message_type := message.MessageType,
          priority := message.Priority,
          sender := message.Sender,
          created_at := message.CreatedAt,
          updated_at := message.UpdatedAt,
          metadata := some metadataJSON }] }
      message.ChannelID message.CreatedAt

/-- GetMessage of `user_storage.go`: the ten selected columns are scanned
into a zero Message, so `UserID` keeps its zero value; metadata that does not
parse leaves the map nil. -/
def GetMessage (codec : JsonCodec) (db : SqlDB) (id : String) : Except String Message :=
  if db.closed then .error "failed to get message: sql: database is closed"
  else
    match db.messages.find? (fun r => r.id = id) with
    | none => .error "message not found"
    | some r =>
      .ok { ID := r.id,
            UserID := "",
            ChannelID := r.channel_id,
            Title := r.title,
            Content := r.content,
            MessageType := r.message_type,
            Priority := r.priority,
            Sender := r.sender,
            CreatedAt := r.created_at,
            UpdatedAt := r.updated_at,
            Metadata := match r.metadata with
              | some text => (codec.unmarshal text).getD []
              | none => [] }

/-! ## Workspace manager (`workspace/manager.go`) -/

/-- What the file system and SQLite answer during createUserWorkspace. -/
inductive CreateOutcome where
  | mkdirUserFails
  | mkdirSyncFails
  | mkdirBackupFails
  | openMessagesFails
  | openReadFails
  | initFails
  | ok
deriving DecidableEq, Repr

/-- The tables of one messages.db file. -/
structure DBFile where
  messages : List MessageRow
  channels : List ChannelRow
deriving DecidableEq, Repr

/-- Manager of `workspace/manager.go`. Ghost fields: `opened` counts the
handles `sql.Open` has returned, `closedOnError` lists the handles closed on
the error paths of createUserWorkspace, `pending` lists the users whose
`removeEntry` goroutine has been started by Get and has not run yet, and
`disk` holds the messages.db files by user directory. -/
structure workspace.Manager where
  basePath : String
  cache : WorkspaceCache
  opened : Nat
  closedOnError : List Handle
  pending : List String
  disk : List (String × DBFile)
deriving DecidableEq, Repr

/-- NewManagerWithConfig, from the cache parameters it has chosen. -/
def workspace.NewManager (basePath : String) (maxSize : Int) (ttl : Int) : workspace.Manager :=
  { basePath := basePath, cache := NewWorkspaceCache maxSize ttl, opened := 0,
    closedOnError := [], pending := [], disk := [] }

/-- The method ensureDefaultChannel after the tables exist. -/
def ensureDefaultChannel (file : DBFile) : DBFile :=
  if file.channels.any (fun c => c.id = "default") then file
  else { file with channels := file.channels ++ [{ id := "default", last_message_at := none }] }

/-- `filepath.Join` of two elements: an empty element is left out and the
others are joined by the separator. The `filepath.Clean` that ends Join is the
identity on a clean first element followed by a plain name (no separator, no
dot element); other names are outside this model. -/
def filepathJoin (a b : String) : String :=
  if a = "" then b else if b = "" then a else a ++ "/" ++ b

/-- The method createUserWorkspace; the handles opened before a failure are
closed. -/
def workspace.Manager.createUserWorkspace (m : workspace.Manager) (outcome : CreateOutcome)
    (userID : String) : Except String Workspace × workspace.Manager :=
  let userPath := filepathJoin m.basePath userID
  match outcome with
  | .mkdirUserFails => (.error "failed to create user directory", m)
  | .mkdirSyncFails => (.error "failed to create sync directory", m)
  | .mkdirBackupFails => (.error "failed to create backup directory", m)
  | .openMessagesFails => (.error "failed to open messages database", m)
  | .openReadFails =>
    (.error "failed to open read status database",
     { m with opened := m.opened + 1, closedOnError := m.closedOnError ++ [m.opened] })
  | .initFails =>
    (.error "failed to initialize database",
     { m with opened := m.opened + 2,
              closedOnError := m.closedOnError ++ [m.opened, m.opened + 1] })
  | .ok =>
    (.ok { UserID := userID, BasePath := userPath,
           MessagesDB := some m.opened, ReadDB := some (m.opened + 1) },
     { m with opened := m.opened + 2,
              disk := mapSet m.disk userPath
                (ensureDefaultChannel ((mapGet m.disk userPath).getD
                  { messages := [], channels := [] })) })

/-- GetUserWorkspace at clock reading `now`, run without another goroutine
in between: Get, Get again under the manager lock, create, Put. -/
def workspace.Manager.GetUserWorkspace (m : workspace.Manager) (now : Int)
    (outcome : CreateOutcome) (userID : String) :
    Except String (Option Workspace) × workspace.Manager :=
  match m.cache.Get now userID with
  | ((ws, true), wc1, started1) =>
    (.ok ws, { m with cache := wc1, pending := m.pending ++ started1.toList })
  | ((_, false), wc1, started1) =>
    let m1 := { m with cache := wc1, pending := m.pending ++ started1.toList }
    match m1.cache.Get now userID with
    | ((ws, true), wc2, started2) =>
      (.ok ws, { m1 with cache := wc2, pending := m1.pending ++ started2.toList })
    | ((_, false), wc2, started2) =>
      let m2 := { m1 with cache := wc2, pending := m1.pending ++ started2.toList }
      match m2.createUserWorkspace outcome userID with
      | (.error err, m3) => (.error err, m3)
      | (.ok ws, m3) => (.ok (some ws), { m3 with cache := m3.cache.Put now userID (some ws) })

/-- The oldest pending `removeEntry` goroutine runs. -/
def workspace.Manager.runPending (m : workspace.Manager) : workspace.Manager :=
  match m.pending with
  | [] => m
  | userID :: rest => { m with cache := m.cache.removeEntry userID, pending := rest }

/-- Whether `Close()` has been called on a handle. -/
def workspace.Manager.handleClosed (m : workspace.Manager) (h : Handle) : Bool :=
  decide (h ∈ m.cache.closeLog ∨ h ∈ m.closedOnError)

/-- Number of `Close()` calls made on a handle. -/
def workspace.Manager.closeCount (m : workspace.Manager) (h : Handle) : Nat :=
  m.cache.closeLog.count h + m.closedOnError.count h

/-! ## Push broadcaster (`websocket/manager.go`) -/

/-- Client of `websocket/manager.go`: `Send` carries the encoded payloads. -/
structure Client where
  ID : String
  UserID : String
  Send : Chan String
  Active : Bool
deriving DecidableEq, Repr

/-- Manager of `websocket/manager.go`, as far as BroadcastMessage reads it:
the map from a user to the clients registered for that user. -/
structure websocket.Manager where
  userClients : List (String × List Client)
deriving DecidableEq, Repr

/-- One turn of the loop of BroadcastMessage: an active client gets the
payload by a non-blocking send and is made inactive when its buffer is
full. -/
def Client.offer (c : Client) (data : String) : Client :=
  if c.Active then
    match c.Send.trySend data with
    | some ch => { c with Send := ch }
    | none => { c with Active := false }
  else c

/-- BroadcastMessage: the clients looked up are those of `message.UserID`;
`encode` is json.Marshal of the envelope, none being an error. -/
def websocket.Manager.BroadcastMessage (m : websocket.Manager)
    (encode : Message → Option String) (message : Message) : websocket.Manager :=
  match encode message with
  | none => m
  | some data =>
    match mapGet m.userClients message.UserID with
    | some userClients =>
      { m with userClients :=
          mapSet m.userClients message.UserID (userClients.map (fun c => c.offer data)) }
    | none => m

/-- The payloads waiting in the send buffers of the clients of a user. -/
def websocket.Manager.received (m : websocket.Manager) (userID : String) : List (List String) :=
  ((mapGet m.userClients userID).getD []).map (fun c => c.Send.buf)

/-! ## Delivery to one recipient (`worker.go`) -/

/-- How deliverToUser ends. -/
inductive DeliverResult where
  | ok
  | error (msg : String)
  | panicked
deriving DecidableEq, Repr

/-- The parts of the delivery system that deliverToUser uses; `wsManager` may
be nil. -/
structure DeliveryEnv where
  workspaceManager : workspace.Manager
  wsManager : Option websocket.Manager
deriving DecidableEq, Repr

/-- The database that a workspace's `MessagesDB` handle `h` gives access to. -/
def workspace.Manager.database (m : workspace.Manager) (ws : Workspace) (h : Handle) : SqlDB :=
  let file := (mapGet m.disk ws.BasePath).getD { messages := [], channels := [] }
  { closed := m.handleClosed h, messages := file.messages, channels := file.channels }

/-- The method deliverToUser of `worker.go`; isDatabaseAvailable answers
whether the handle is still open. A nil workspace or handle is dereferenced
(panicked). -/
def deliverToUser (env : DeliveryEnv) (now : Int) (outcome : CreateOutcome)
    (codec : JsonCodec) (encode : Message → Option String) (userID : String)
    (task : DeliveryTask) : DeliverResult × DeliveryEnv :=
  match task.Message with
  | none => (.error "message is nil", env)
  | some message =>
    match env.workspaceManager.GetUserWorkspace now outcome userID with
    | (.error err, m1) =>
      (.error ("failed to get user workspace: " ++ err), { env with workspaceManager := m1 })
    | (.ok none, m1) => (.panicked, { env with workspaceManager := m1 })
    | (.ok (some ws), m1) =>
      match ws.MessagesDB with
      | none => (.panicked, { env with workspaceManager := m1 })
      | some h =>
        if m1.handleClosed h then
          (.error ("database not available for user " ++ userID),
           { env with workspaceManager := m1 })
        else
          let (res, db) := CreateMessage codec (m1.database ws h) message
          let m2 := { m1 with
            disk := mapSet m1.disk ws.BasePath { messages := db.messages, channels := db.channels } }
          match res with
          | .error err =>
            (.error ("failed to create message: " ++ err), { env with workspaceManager := m2 })
          | .ok _ =>
            (.ok, { workspaceManager := m2,
                    wsManager := env.wsManager.map
                      (fun wm => wm.BroadcastMessage encode message) })

/-! ## processTask with the effects of its deliveries (`worker.go`) -/

/-- The loop of processTask over the recipients: deliverToUser is called for
each recipient in the order of the list, each call on the state the call
before it left, and the calls that return nil are counted in `successCount`.
`deliverToUser env userID` gives whether the call returned nil and the state
it leaves. -/
def deliverLoop {σ : Type} (deliverToUser : σ → String → Bool × σ) :
    List String → σ → Nat → Nat × σ
  | [], env, successCount => (successCount, env)
  | userID :: rest, env, successCount =>
    match deliverToUser env userID with
    | (true, env1) => deliverLoop deliverToUser rest env1 (successCount + 1)
    | (false, env1) => deliverLoop deliverToUser rest env1 successCount

/-- processTask of `worker.go` together with the state its calls of
deliverToUser act on (workspaces, databases, broadcaster). -/
def processTaskIn {σ : Type} (ds : DeliverySystem) (now : Int)
    (deliverToUser : σ → String → Bool × σ) (task : DeliveryTask) (env : σ) :
    DeliverySystem × σ :=
  if IsExpired task now then (scheduleRetry ds now task "task_expired", env)
  else
    match resolveRecipients task with
    | none => (ds, env)
    | some targetUsers =>
      match deliverLoop deliverToUser targetUsers env 0 with
      | (count, env1) =>
        let ds1 :=
          if count > 0 then
            { ds with stats := { ds.stats with TotalDelivered := ds.stats.TotalDelivered + 1 } }
          else ds
        if count = 0 ∧ targetUsers.length > 0 then
          (scheduleRetry ds1 now task "all_users_failed", env1)
        else (ds1, env1)

/-- The outcomes of the calls of deliverToUser in the loop of processTask, in
order. -/
def callOutcomes {σ : Type} (deliverToUser : σ → String → Bool × σ) :
    List String → σ → List Bool
  | [], _ => []
  | userID :: rest, env =>
    (deliverToUser env userID).1 :: callOutcomes deliverToUser rest (deliverToUser env userID).2

/-- A state that records the recipients deliverToUser is called for; the call
returns nil for the recipients in `succeeds`. -/
def recordCall (succeeds : List String) (log : List String) (userID : String) :
    Bool × List String :=
  (decide (userID ∈ succeeds), log ++ [userID])

/-- The call of deliverToUser that processTask makes for `task`, with what it
returns reduced to nil or not. A call that dereferences a nil workspace or
handle does not return at all; it is shown here as a call that did not return
nil. -/
def deliverCall (now : Int) (outcome : CreateOutcome) (codec : JsonCodec)
    (encode : Message → Option String) (task : DeliveryTask) (env : DeliveryEnv)
    (userID : String) : Bool × DeliveryEnv :=
  match deliverToUser env now outcome codec encode userID task with
  | (.ok, env1) => (true, env1)
  | (_, env1) => (false, env1)

/-! ## Creating a message (`api/api_simple.go`, `models/message.go`, `system.go`) -/

/-- CreateMessageRequest of `models/message.go`, as decoded from the JSON
body. -/
structure CreateMessageRequest where
  UserID : String
  ChannelID : String
  Title : String
  Content : String
  MessageType : String
  Priority : Int
  Sender : String
  Metadata : List (String × String)
deriving DecidableEq, Repr

/-- NewMessage of `models/message.go`; `newID` is `uuid.New().String()` and
`now` the clock reading. -/
def NewMessage (req : CreateMessageRequest) (userID : String) (newID : String) (now : Int) :
    Message :=
  let finalUserID := if req.UserID = "" then userID else req.UserID
  { ID := newID,
    UserID := finalUserID,
    ChannelID := req.ChannelID,
    Title := req.Title,
    Content := req.Content,
    MessageType := req.MessageType,
    Priority := req.Priority,
    Sender := req.Sender,
    CreatedAt := now,
    UpdatedAt := now,
    Metadata := req.Metadata }

/-- The task that SubmitMessage of `system.go` builds from a message. -/
def messageTask (message : Message) (targetUsers : List String) : DeliveryTask :=
  { ID := "", ChannelID := message.ChannelID, Message := some message,
    TargetUsers := targetUsers, Priority := message.Priority, RetryCount := 0,
    CreatedAt := 0, Timeout := 0 }

/-- SubmitMessage of `system.go`. -/
def SubmitMessage (ds : DeliverySystem) (pressure : MemoryPressure) (now : Int)
    (newID : String) (message : Message) (targetUsers : List String) :
    Option SubmitError × DeliverySystem :=
  SubmitTask ds pressure now newID (messageTask message targetUsers)

/-- The handler CreateMessage of `api_simple.go` up to its call of
SubmitMessage: none when the binding of the required fields fails (status
400), else the message built by NewMessage and the target users passed on.
`userID` is the value the middleware has put into the context. -/
def SimpleAPIHandler.CreateMessage (req : CreateMessageRequest) (userID : String)
    (newID : String) (now : Int) : Option (Message × List String) :=
  if req.ChannelID = "" ∨ req.Title = "" ∨ req.Content = "" then none
  else
    let req1 := if req.ChannelID = "" then { req with ChannelID := "default" } else req
    let req2 := if req1.MessageType = "" then { req1 with MessageType := "text" } else req1
    let req3 := if req2.Priority = 0 then { req2 with Priority := 5 } else req2
    some (NewMessage req3 userID newID now, [userID])

/-! ## Configuration (`config/types.go`, `config/config.go`) -/

/-- ServerConfig of `config/types.go`. -/
structure config.ServerConfig where
  Port : String
  UserStorage : String
deriving DecidableEq, Repr

/-- WorkspaceCacheConfig of `config/types.go`. -/
structure config.WorkspaceCacheConfig where
  MaxSize : Int
  TTLMinutes : Int
  CleanupIntervalMinutes : Int
deriving DecidableEq, Repr

/-- WorkersConfig of `config/types.go`. -/
structure config.WorkersConfig where
  Count : Int
  MaxCount : Int
  MinCount : Int
deriving DecidableEq, Repr

/-- QueueConfig of `config/types.go`. -/
structure config.QueueConfig where
  EntrySize : Int
  PrioritySize : Int
  WorkerSize : Int
deriving DecidableEq, Repr

/-- TaskConfig of `config/types.go`. -/
structure config.TaskConfig where
  TimeoutSeconds : Int
  MaxRetries : Int
  RetryBackoffBaseMs : Int
  RetryBackoffMaxMs : Int
deriving DecidableEq, Repr

/-- DeliveryConfig of `config/types.go`. -/
structure config.DeliveryConfig where
  Workers : config.WorkersConfig
  Queue : config.QueueConfig
  Task : config.TaskConfig
deriving DecidableEq, Repr

/-- UserConfig of `config/types.go`, the two fields that are validated. -/
structure config.UserConfig where
  MaxMessagesPerDay : Int
  MessageSizeLimit : Int
deriving DecidableEq, Repr

/-- Config of `config/types.go`, the sections that validateConfig and the
delivery system read. -/
structure config.Config where
  Server : config.ServerConfig
  Cache : config.WorkspaceCacheConfig
  Delivery : config.DeliveryConfig
  User : config.UserConfig
deriving DecidableEq, Repr

/-- The function validateConfig of `config/config.go`: the error, none for
nil. -/
def config.validateConfig (cfg : config.Config) : Option String :=
  if cfg.Server.Port = "" then some "server port cannot be empty"
  else if cfg.Cache.MaxSize ≤ 0 then some "cache max_size must be positive"
  else if cfg.Cache.TTLMinutes ≤ 0 then some "cache ttl_minutes must be positive"
  else if cfg.Delivery.Workers.Count < 0 then some "delivery workers count cannot be negative"
  else if cfg.Delivery.Workers.MaxCount < cfg.Delivery.Workers.MinCount then
    some "delivery workers max_count must be >= min_count"
  else if cfg.Delivery.Task.TimeoutSeconds ≤ 0 then some "delivery task timeout must be positive"
  else if cfg.User.MaxMessagesPerDay ≤ 0 then some "user max_messages_per_day must be positive"
  else if cfg.User.MessageSizeLimit ≤ 0 then some "user message_size_limit must be positive"
  else none

/-- The first part of NewDeliverySystemWithConfig: the DeliveryConfig chosen
for a configuration file (`none` is the nil pointer) on a machine where
`runtime.NumCPU()` is `cpus`. -/
def deliveryConfigOf (cfg : Option config.Config) (cpus : Int) : DeliveryConfig :=
  match cfg with
  | some c =>
    let workerCount := if c.Delivery.Workers.Count = 0 then cpus else c.Delivery.Workers.Count
    { WorkerCount := workerCount,
      QueueLimit := c.Delivery.Queue.EntrySize,
      RateLimit := 1000,
      TaskTimeout := wrap64 (c.Delivery.Task.TimeoutSeconds * 1000000000),
      MaxRetries := c.Delivery.Task.MaxRetries,
      RetryBackoffBase := wrap64 (c.Delivery.Task.RetryBackoffBaseMs * 1000000),
      RetryBackoffMax := wrap64 (c.Delivery.Task.RetryBackoffMaxMs * 1000000) }
  | none => defaultDeliveryConfig cpus

/-! ## The memory pressure probe and the window (`backpressure.go`) -/

/-- GetCurrentMemoryPressure of `backpressure.go`; `alloc` and `sys` are the
fields `Alloc` and `Sys` of `runtime.MemStats` (unsigned 64-bit byte
counts). -/
def GetCurrentMemoryPressure (alloc sys : Nat) : MemoryPressure :=
  let memoryUsageMB := alloc / 1024 / 1024
  let sysMemoryMB := sys / 1024 / 1024
  if sysMemoryMB > 0 then
    let usageRatio := f64Div (f64OfInt memoryUsageMB) (f64OfInt sysMemoryMB)
    if usageRatio > f64Round (9 / 10) then .Critical
    else if usageRatio > f64Round (7 / 10) then .High
    else if usageRatio > f64Round (1 / 2) then .Medium
    else .Low
  else .Low

/-- ResetWindow of `backpressure.go` at clock reading `now`. -/
def ResetWindow (bp : BackpressureCtrl) (now : Int) : BackpressureCtrl :=
  if now - bp.lastWindow > bp.windowSize then
    { bp with rejectionCount := 0, acceptanceCount := 0, lastWindow := now }
  else bp

/-- GetStats of `backpressure.go`: the two counters and the rejection rate. -/
def BackpressureCtrl.GetStats (bp : BackpressureCtrl) : Int × Int × ℚ :=
  let total := bp.rejectionCount + bp.acceptanceCount
  (bp.rejectionCount, bp.acceptanceCount,
   if total > 0 then f64Div (f64OfInt bp.rejectionCount) (f64OfInt total) else 0)

/-- What one call of collectAndLogStats writes to the log. -/
structure StatsReport where
  stats : DeliveryStats
  queueDepth : Nat
  highQueue : Nat
  normalQueue : Nat
  lowQueue : Nat
  workerCount : Int
  retryQueueLength : Nat
  pressure : MemoryPressure
  backpressure : Int × Int × ℚ

/-- The method collectAndLogStats of `main_loops.go`, the body of one tick
of runStatsCollector: every call in it reads, the values go to the log. -/
def collectAndLogStats (ds : DeliverySystem) (alloc sys : Nat) : StatsReport × DeliverySystem :=
  ({ stats := ds.stats,
     queueDepth := ds.inputChan.buf.length,
     highQueue := ds.queueManager.highQueue.buf.length,
     normalQueue := ds.queueManager.normalQueue.buf.length,
     lowQueue := ds.queueManager.lowQueue.buf.length,
     workerCount := ds.queueManager.workerCount,
     retryQueueLength := ds.retryManager.retryQueue.buf.length,
     pressure := GetCurrentMemoryPressure alloc sys,
     backpressure := ds.backpressure.GetStats }, ds)

/-! ## Stopping the system (`system.go`, `workspace/manager.go`) -/

/-- Close of `workspace/manager.go`: closes the cache; none is the panic of a
second close. -/
def workspace.Manager.Close (m : workspace.Manager) : Option workspace.Manager :=
  m.cache.Close.map (fun wc => { m with cache := wc })

/-- The goroutines of the delivery system: the workers, started by
initWorkers; the four loops started by Start; the retry worker, started by
runRetryManager. -/
inductive Goroutine where
  | worker (id : Nat)
  | queueManager
  | retryManager
  | mainLoop
  | statsCollector
  | retryWorker
deriving DecidableEq, Repr

/-- Whether the goroutine calls `ds.wg.Done()` when it returns: a worker and
the retry worker run inside a function that defers the call; the four loops
are started bare by Start and their bodies do not call it. -/
def Goroutine.callsDone : Goroutine → Bool
  | .worker _ => true
  | .retryWorker => true
  | .queueManager => false
  | .retryManager => false
  | .mainLoop => false
  | .statsCollector => false

/-- The delivery system together with its external dependencies (the
workspace manager and the broadcaster given to the constructor), the state of
its context, the counter of its WaitGroup and the goroutines that have been
started and have not returned. -/
structure RunningSystem where
  ds : DeliverySystem
  deps : DeliveryEnv
  cancelled : Bool
  wg : Int
  goroutines : List Goroutine
deriving DecidableEq, Repr

/-- The system as NewDeliverySystemWithConfig returns it: the context is
live, and initWorkers has called `ds.wg.Add(1)` and started a goroutine for
each of the WorkerCount workers. -/
def NewRunningSystem (ds : DeliverySystem) (deps : DeliveryEnv) : RunningSystem :=
  { ds := ds, deps := deps, cancelled := false,
    wg := (ds.config.WorkerCount.toNat : Int),
    goroutines := (List.range ds.config.WorkerCount.toNat).map Goroutine.worker }

/-- Start of `system.go`: four times `ds.wg.Add(1)` and a goroutine. -/
def Start (s : RunningSystem) : RunningSystem :=
  { s with
    wg := s.wg + 4,
    goroutines := s.goroutines ++
      [Goroutine.queueManager, Goroutine.retryManager, Goroutine.mainLoop,
       Goroutine.statsCollector] }

/-- The head of runRetryManager (`main_loops.go`): `ds.wg.Add(1)` and the
goroutine of the retry worker. -/
def startRetryWorker (s : RunningSystem) : RunningSystem :=
  { s with wg := s.wg + 1, goroutines := s.goroutines ++ [Goroutine.retryWorker] }

/-- Stop of `system.go`: `ds.cancel()`, then the wait for `ds.wg.Wait()` or
for 30 s, whichever comes first. `ends g` tells whether the goroutine `g`
returns within the 30 s. No goroutine is started while Stop waits, so the
counter only falls, by one for each goroutine that returns and calls Done,
and Wait returns in time exactly when the counter is 0 after them. In the
states built by NewRunningSystem, Start and startRetryWorker the counter is at
least the number of running goroutines that call Done
(`waitgroup_counter_covers_done`), so it stays above the negative values at
which Done panics. -/
def Stop (s : RunningSystem) (ends : Goroutine → Bool) : Except String Unit × RunningSystem :=
  let ended := s.goroutines.filter ends
  let wg1 := s.wg - ((ended.filter Goroutine.callsDone).length : Int)
  let s1 := { s with
    cancelled := true, wg := wg1, goroutines := s.goroutines.filter (fun g => !ends g) }
  if wg1 = 0 then (.ok (), s1) else (.error "stop timeout", s1)

/-- The `Close()` calls made when every entry of a cache is removed, in the
order of the entries. -/
def closeCallsAll : List (String × CacheEntry) → List Handle
  | [] => []
  | p :: rest => closeCalls p.2.Workspace ++ closeCallsAll rest

/-! ## The decision table of the specification -/

/-- The reject condition of the specification's decision table (section 4.2),
with the rejection rate as the exact quotient `rejected / (accepted + rejected)`:
some decision is on record and either the pressure is Critical and the
priority below 8, or High with a rate above 0.30 and priority below 6, or
Medium with a rate above 0.50 and priority below 4. -/
def specRejects (accepted rejected : Int) (pressure : MemoryPressure) (priority : Int) : Prop :=
  accepted + rejected > 0 ∧
  ((pressure = .Critical ∧ priority < 8) ∨
   (pressure = .High ∧ (rejected : ℚ) / ((accepted + rejected : Int) : ℚ) > 3 / 10 ∧ priority < 6) ∨
   (pressure = .Medium ∧ (rejected : ℚ) / ((accepted + rejected : Int) : ℚ) > 1 / 2 ∧ priority < 4))

/-! ## Concrete inputs -/

/-- A controller with 2100000000000001 rejections among 7000000000000003
decisions: a rate just above three tenths. -/
def bpLarge : BackpressureCtrl :=
  { rejectionCount := 2100000000000001, acceptanceCount := 4900000000000002,
    windowSize := 60 * 1000000000, lastWindow := 0 }

/-- A task of priority `p` with otherwise empty fields. -/
def taskOfPriority (p : Int) : DeliveryTask :=
  { ID := "t", ChannelID := "c", Message := none, TargetUsers := ["u1"], Priority := p,
    RetryCount := 0, CreatedAt := 0, Timeout := 0 }

/-- A controller with two rejections and one acceptance on record. -/
def bpTwoOfThree : BackpressureCtrl :=
  { rejectionCount := 2, acceptanceCount := 1, windowSize := 60 * 1000000000, lastWindow := 0 }

/-- The retry manager of the default configuration: three retries, 100 ms
base, 5 s cap, an empty queue with room for 300 tasks. -/
def rmDefault : RetryManager :=
  { retryQueue := { buf := [], cap := 300 }, maxRetries := 3,
    backoffBase := 100000000, backoffMax := 5000000000 }

/-- A retry task that fires at second 5. -/
def retryAtFive : RetryTask :=
  { OriginalTask := taskOfPriority 5, RetryCount := 1, NextRetry := 5000000000,
    Reason := "all_users_failed" }

/-- The default retry manager holding one task that is not yet due. -/
def rmWaiting : RetryManager :=
  { rmDefault with retryQueue := { buf := [retryAtFive], cap := 300 } }

/-- The configuration of a small system: entry buffer for three tasks (so
each bucket holds one), one worker, the default retry settings. -/
def cfgSmall : DeliveryConfig :=
  { WorkerCount := 1, QueueLimit := 3, RateLimit := 1000,
    TaskTimeout := 30 * 1000000000, MaxRetries := 3,
    RetryBackoffBase := 100000000, RetryBackoffMax := 5000000000 }

/-- The system that NewDeliverySystemWithConfig builds from `cfgSmall` at
time 0. -/
def dsSmall : DeliverySystem :=
  { inputChan := { buf := [], cap := 3 },
    queueManager :=
      { entryQueue := { buf := [], cap := 3 }, highQueue := { buf := [], cap := 1 },
        normalQueue := { buf := [], cap := 1 }, lowQueue := { buf := [], cap := 1 },
        workerQueues := [{ buf := [], cap := 100 }], workerCount := 1,
        config := { EntryQueueSize := 3, PriorityQueueSize := 1, WorkerQueueSize := 100,
                    MaxWorkers := 2, MinWorkers := 2, QueueTimeout := 5 * 1000000000 } },
    retryManager := rmDefault,
    backpressure := NewBackpressureCtrl 0,
    config := cfgSmall,
    stats := { TotalReceived := 0, TotalDelivered := 0, TotalFailed := 0, TotalRetried := 0 } }

/-- The small system with one rejection on record. -/
def dsSmallLoaded : DeliverySystem :=
  { dsSmall with backpressure := { NewBackpressureCtrl 0 with rejectionCount := 1 } }

/-- The default retry manager after scheduling the first retry of a task at
time 0. -/
def rmOneScheduled : RetryManager :=
  (ScheduleRetry rmDefault 0 (taskOfPriority 5) "all_users_failed").2

/-- The small system configured for two retries. -/
def dsTwoRetries : DeliverySystem :=
  { dsSmall with
    retryManager := { retryQueue := { buf := [], cap := 200 }, maxRetries := 2,
                      backoffBase := 100000000, backoffMax := 5000000000 },
    config := { dsSmall.config with MaxRetries := 2 } }

/-- A retry manager configured for 40 retries, with the default backoff of
100 ms capped at 5 s. -/
def rmForty : RetryManager :=
  { retryQueue := { buf := [], cap := 4000 }, maxRetries := 40,
    backoffBase := 100000000, backoffMax := 5000000000 }

/-- The pipeline of the small system after a first submission (accepted:
no decision was on record). -/
def pAfterAccept : Pipeline :=
  { Pipeline.start dsSmall with
    ds := (SubmitTask (Pipeline.start dsSmall).ds .Critical 7 "id1" (taskOfPriority 5)).2,
    refused := (Pipeline.start dsSmall).refused +
      (if (SubmitTask (Pipeline.start dsSmall).ds .Critical 7 "id1" (taskOfPriority 5)).1 = none
        then 0 else 1) }

/-- The same pipeline after a second submission of priority 5 under Critical
pressure (rejected by backpressure). -/
def pAfterRejection : Pipeline :=
  { pAfterAccept with
    ds := (SubmitTask pAfterAccept.ds .Critical 8 "id2" (taskOfPriority 5)).2,
    refused := pAfterAccept.refused +
      (if (SubmitTask pAfterAccept.ds .Critical 8 "id2" (taskOfPriority 5)).1 = none
        then 0 else 1) }

/-- The three tasks of the priority scenario. -/
def tLow : DeliveryTask := { taskOfPriority 9 with ID := "T_low" }

/-- The high-priority task of the scenario (priority 2). -/
def tHigh : DeliveryTask := { taskOfPriority 2 with ID := "T_high" }

/-- The normal-priority task of the scenario (priority 5). -/
def tNormal : DeliveryTask := { taskOfPriority 5 with ID := "T_normal" }

/-- A queue manager with an empty high bucket, T_normal in the normal
bucket and T_low in the low bucket. -/
def qmNormalAndLow : QueueManager :=
  { dsSmall.queueManager with
    normalQueue := { buf := [tNormal], cap := 1 },
    lowQueue := { buf := [tLow], cap := 1 } }

/-- A task for two recipients. -/
def taskTwoUsers : DeliveryTask := { taskOfPriority 5 with TargetUsers := ["u1", "u2"] }

/-- A workspace of user `userID` whose handles are `h` and `h + 1`. -/
def wsOf (userID : String) (h : Nat) : Workspace :=
  { UserID := userID, BasePath := filepathJoin "data" userID,
    MessagesDB := some h, ReadDB := some (h + 1) }

/-- A cache of size 2 and ttl 100 after Put of U1 at time 10 and of U2 at
time 20. -/
def cacheTwoUsers : WorkspaceCache :=
  ((NewWorkspaceCache 2 100).Put 10 "U1" (some (wsOf "U1" 0))).Put 20 "U2" (some (wsOf "U2" 2))

/-- A full cache of size 2 whose least recently used entry has the empty
user id, visited first. -/
def cacheEmptyIdFirst : WorkspaceCache :=
  { entries := [("", { Workspace := some (wsOf "" 0), LastAccess := 1, CreatedAt := 1 }),
                ("b", { Workspace := some (wsOf "b" 2), LastAccess := 5, CreatedAt := 5 })],
    maxSize := 2, ttl := 100, stopped := false, closeLog := [] }

/-- The same cache with the entries visited in the other order. -/
def cacheEmptyIdLast : WorkspaceCache :=
  { cacheEmptyIdFirst with entries := cacheEmptyIdFirst.entries.reverse }

/-- A manager with a cache of size 10 and ttl 100 that has served the user
"u" once, at time 0. -/
def managerServedOnce : workspace.Manager :=
  ((workspace.NewManager "data" 10 100).GetUserWorkspace 0 CreateOutcome.ok "u").2

/-- The same manager after serving "u" again at time 200, past the ttl. -/
def managerServedAfterExpiry : workspace.Manager :=
  (managerServedOnce.GetUserWorkspace 200 CreateOutcome.ok "u").2

/-- A sample of json.Marshal and json.Unmarshal, defined on the nil map and
on the map with the single pair ("k", "v"). -/
def codecSample : JsonCodec :=
  { marshal := fun md =>
      if md = [] then some "null"
      else if md = [("k", "v")] then some "\x7b\"k\":\"v\"\x7d" else none,
    unmarshal := fun text =>
      if text = "null" then some []
      else if text = "\x7b\"k\":\"v\"\x7d" then some [("k", "v")] else none }

/-- A message owned by U1. -/
def msgU1 : Message :=
  { ID := "m1", UserID := "U1", ChannelID := "default", Title := "hello", Content := "world",
    MessageType := "text", Priority := 5, Sender := "alice", CreatedAt := 1000,
    UpdatedAt := 1000, Metadata := [("k", "v")] }

/-- An open database as initDatabase leaves it: no message, the default
channel. -/
def dbFresh : SqlDB :=
  { closed := false, messages := [], channels := [{ id := "default", last_message_at := none }] }

/-- An active client with an empty send buffer of capacity 256. -/
def clientOf (id userID : String) : Client :=
  { ID := id, UserID := userID, Send := { buf := [], cap := 256 }, Active := true }

/-- A broadcaster with one live client for U1 and one for U2. -/
def wsTwoUsers : websocket.Manager :=
  { userClients := [("U1", [clientOf "c1" "U1"]), ("U2", [clientOf "c2" "U2"])] }

/-- A fresh workspace manager together with that broadcaster. -/
def envTwoUsers : DeliveryEnv :=
  { workspaceManager := workspace.NewManager "data" 10 100, wsManager := some wsTwoUsers }

/-- A sample of the envelope encoding. -/
def encodeSample (m : Message) : Option String := some ("message " ++ m.ID)

/-- A task that delivers the message owned by U1 to the recipient U2. -/
def taskForU2 : DeliveryTask :=
  { taskOfPriority 5 with TargetUsers := ["U2"], Message := some msgU1 }

/-- A task that delivers the message owned by U1 to the recipients U1 and
U2. -/
def taskForBoth : DeliveryTask :=
  { taskOfPriority 5 with TargetUsers := ["U1", "U2"], Message := some msgU1 }

/-- A task without target users whose message is owned by U1. -/
def taskFallback : DeliveryTask :=
  { taskOfPriority 5 with TargetUsers := [], Message := some msgU1 }

/-- A task that lists U1 twice among its target users. -/
def taskRepeatedUser : DeliveryTask :=
  { taskOfPriority 5 with TargetUsers := ["U1", "U2", "U1"], Message := some msgU1 }

/-- A task for U1 and U2 created at time 0 with a timeout of 30 s. -/
def taskThirtySeconds : DeliveryTask :=
  { taskOfPriority 5 with
    Timeout := 30 * 1000000000, TargetUsers := ["U1", "U2"], Message := some msgU1 }

/-- The retry task of a third and last retry (the limit of `rmDefault` is
3), due after second 5. -/
def retryLast : RetryTask :=
  { OriginalTask := { taskOfPriority 5 with RetryCount := 2 }, RetryCount := 3,
    NextRetry := 5000000000, Reason := "all_users_failed" }

/-- The default retry manager holding that retry task. -/
def rmLastDue : RetryManager :=
  { rmDefault with retryQueue := { buf := [retryLast], cap := 300 } }

/-- A retry worker whose hand-off channel of capacity 100 is full. -/
def rwFull : RetryWorker :=
  { workerChan := { buf := List.replicate 100 (taskOfPriority 5), cap := 100 } }

/-- A create-message request with priority `p`; the message type is left
empty. -/
def reqPriority (p : Int) : CreateMessageRequest :=
  { UserID := "", ChannelID := "general", Title := "hello", Content := "world",
    MessageType := "", Priority := p, Sender := "alice", Metadata := [] }

/-- The values of the default configuration file written by
createDefaultConfig. -/
def cfgDefaultFile : config.Config :=
  { Server := { Port := "8080", UserStorage := "./data/user" },
    Cache := { MaxSize := 1000, TTLMinutes := 30, CleanupIntervalMinutes := 5 },
    Delivery :=
      { Workers := { Count := 4, MaxCount := 8, MinCount := 2 },
        Queue := { EntrySize := 10000, PrioritySize := 3333, WorkerSize := 100 },
        Task := { TimeoutSeconds := 30, MaxRetries := 3, RetryBackoffBaseMs := 100,
                  RetryBackoffMaxMs := 5000 } },
    User := { MaxMessagesPerDay := 10000, MessageSizeLimit := 1048576 } }

/-- The default configuration with `workers.count` set to `n`. -/
def cfgWorkers (n : Int) : config.Config :=
  { cfgDefaultFile with
    Delivery := { cfgDefaultFile.Delivery with
      Workers := { cfgDefaultFile.Delivery.Workers with Count := n } } }

/-- A controller whose window started at time 0, with two rejections and
three acceptances on record. -/
def bpOldWindow : BackpressureCtrl :=
  { rejectionCount := 2, acceptanceCount := 3, windowSize := 60 * 1000000000, lastWindow := 0 }

/-- The small system as constructed, not started, whose workspace manager has
one workspace cached, with the handles 0 and 1. -/
def runningOneCached : RunningSystem :=
  NewRunningSystem dsSmall { workspaceManager := managerServedOnce, wsManager := none }

/-- The queue manager of the small system with two registered inboxes. -/
def qmTwoWorkers : QueueManager :=
  { dsSmall.queueManager with
    workerQueues := [{ buf := [], cap := 100 }, { buf := [], cap := 100 }],
    workerCount := 2 }

/-- The small system after the accepted task has been moved to its bucket
by the main loop. -/
def dsAfterMainLoop : DeliverySystem := (runMainLoopStep pAfterAccept.ds).getD dsSmall

/-- The small system after the queue manager has handed that task to the
inbox of the worker, at clock reading 0. -/
def dsAfterBacklog : DeliverySystem :=
  ((processQueueBacklogStep dsAfterMainLoop 0).map (fun r => r.1)).getD dsSmall

/-- The small system after the worker has processed that task at clock
reading 8, the delivery to its recipient succeeding. -/
def dsAfterDelivery : DeliverySystem :=
  ((workerStep dsAfterBacklog 0 8 (fun _ _ => true)).map (fun r => r.1)).getD dsSmall

/-- The pipeline after one task has been submitted, dispatched, handed to
the worker and delivered. -/
def pAfterDelivery : Pipeline := { pAfterAccept with ds := dsAfterDelivery }

/-! ## Theorems -/

/-! ### Facts about the binary64 model -/

theorem roundHalfEven_intCast (n : Int) : roundHalfEven (n : ℚ) = n := by
  simp [roundHalfEven]

theorem roundHalfEven_floor_le (x : ℚ) : ⌊x⌋ ≤ roundHalfEven x := by
  unfold roundHalfEven
  split_ifs <;> omega

theorem roundHalfEven_le_floor_succ (x : ℚ) : roundHalfEven x ≤ ⌊x⌋ + 1 := by
  unfold roundHalfEven
  split_ifs <;> omega

theorem roundHalfEven_mono {x y : ℚ} (h : x ≤ y) : roundHalfEven x ≤ roundHalfEven y := by
  have hfl : ⌊x⌋ ≤ ⌊y⌋ := Int.floor_mono h
  rcases lt_or_eq_of_le hfl with hlt | heq
  · calc roundHalfEven x ≤ ⌊x⌋ + 1 := roundHalfEven_le_floor_succ x
      _ ≤ ⌊y⌋ := hlt
      _ ≤ roundHalfEven y := roundHalfEven_floor_le y
  · unfold roundHalfEven
    rw [heq]
    have hd : x - (⌊y⌋ : ℚ) ≤ y - ⌊y⌋ := by linarith
    split_ifs <;> first | omega | linarith

/-- A rational strictly within one half of an integer rounds to it. -/
theorem roundHalfEven_eq_of_near {x : ℚ} {m : Int} (h1 : (m : ℚ) - 1 / 2 < x)
    (h2 : x < m + 1 / 2) : roundHalfEven x = m := by
  have hf1 : (⌊x⌋ : ℚ) ≤ x := Int.floor_le x
  have hf2 : x < ⌊x⌋ + 1 := Int.lt_floor_add_one x
  unfold roundHalfEven
  split_ifs with ha hb hc
  · have : (m : ℚ) - 1 < ⌊x⌋ := by linarith
    have : (⌊x⌋ : ℚ) < m + 1 := by linarith
    have h3 : m - 1 < ⌊x⌋ := by exact_mod_cast ‹(m : ℚ) - 1 < ⌊x⌋›
    have h4 : ⌊x⌋ < m + 1 := by exact_mod_cast ‹(⌊x⌋ : ℚ) < m + 1›
    omega
  · have : (m : ℚ) - 1 < ⌊x⌋ + 1 := by linarith
    have : (⌊x⌋ : ℚ) + 1 < m + 1 := by linarith
    have h3 : m - 1 < ⌊x⌋ + 1 := by exact_mod_cast ‹(m : ℚ) - 1 < ⌊x⌋ + 1›
    have h4 : ⌊x⌋ + 1 < m + 1 := by exact_mod_cast ‹(⌊x⌋ : ℚ) + 1 < m + 1›
    omega
  · have hx : x - ⌊x⌋ = 1 / 2 := le_antisymm (not_lt.mp hb) (not_lt.mp ha)
    have : (m : ℚ) - 1 < ⌊x⌋ := by linarith
    have : (⌊x⌋ : ℚ) < m := by linarith
    have h3 : m - 1 < ⌊x⌋ := by exact_mod_cast ‹(m : ℚ) - 1 < ⌊x⌋›
    have h4 : ⌊x⌋ < m := by exact_mod_cast ‹(⌊x⌋ : ℚ) < m›
    omega
  · have hx : x - ⌊x⌋ = 1 / 2 := le_antisymm (not_lt.mp hb) (not_lt.mp ha)
    have : (m : ℚ) - 1 < ⌊x⌋ := by linarith
    have : (⌊x⌋ : ℚ) < m := by linarith
    have h3 : m - 1 < ⌊x⌋ := by exact_mod_cast ‹(m : ℚ) - 1 < ⌊x⌋›
    have h4 : ⌊x⌋ < m := by exact_mod_cast ‹(⌊x⌋ : ℚ) < m›
    omega


theorem f64Ulp_ge (x : ℚ) : -1074 ≤ f64Ulp x := by
  unfold f64Ulp
  have := le_max_right (Int.log 2 x) (-1022)
  omega

theorem f64Ulp_mono {x y : ℚ} (hx : 0 < x) (h : x ≤ y) : f64Ulp x ≤ f64Ulp y := by
  unfold f64Ulp
  have := Int.log_mono_right (b := 2) hx h
  have := max_le_max_right (-1022) this
  omega

theorem two_zpow_pos (e : Int) : (0 : ℚ) < 2 ^ e := zpow_pos (by norm_num) e

/-- The scaled value of a positive rational lies below `2^53`. -/
theorem scaled_lt (x : ℚ) : x / 2 ^ f64Ulp x < 2 ^ (53 : ℕ) := by
  have h1 : x < (2 : ℚ) ^ (Int.log 2 x + 1) := by
    have := Int.lt_zpow_succ_log_self (b := 2) (by norm_num) x
    simpa using this
  have h2 : (2 : ℚ) ^ (Int.log 2 x + 1) ≤ 2 ^ (f64Ulp x + 53) := by
    apply zpow_le_zpow_right₀ (by norm_num)
    unfold f64Ulp
    have := le_max_left (Int.log 2 x) (-1022)
    omega
  rw [div_lt_iff₀ (two_zpow_pos _)]
  calc x < 2 ^ (f64Ulp x + 53) := lt_of_lt_of_le h1 h2
    _ = 2 ^ (53 : ℕ) * 2 ^ f64Ulp x := by
      rw [zpow_add₀ (by norm_num), mul_comm]
      norm_cast

theorem f64RoundPos_nonneg {x : ℚ} (hx : 0 ≤ x) : 0 ≤ f64RoundPos x := by
  unfold f64RoundPos
  apply mul_nonneg _ (two_zpow_pos _).le
  have h0 : (0 : ℚ) ≤ x / 2 ^ f64Ulp x := div_nonneg hx (two_zpow_pos _).le
  have := roundHalfEven_mono h0
  rw [show ((0 : ℚ)) = ((0 : Int) : ℚ) by simp, roundHalfEven_intCast] at this
  exact_mod_cast this

/-- A positive value `m * 2^k` with `m < 2^53` and `k ≥ -1074` is a binary64
number: rounding leaves it unchanged. -/
theorem f64RoundPos_representable (m : ℕ) (k : Int) (hm : 0 < m) (hm53 : m < 2 ^ 53)
    (hk : -1074 ≤ k) : f64RoundPos ((m : ℚ) * 2 ^ k) = (m : ℚ) * 2 ^ k := by
  set x : ℚ := (m : ℚ) * 2 ^ k with hx
  have hxpos : 0 < x := mul_pos (by exact_mod_cast hm) (two_zpow_pos k)
  have hlog : Int.log 2 x < 53 + k := by
    rw [← Int.lt_zpow_iff_log_lt (by norm_num) hxpos]
    rw [hx, zpow_add₀ (by norm_num)]
    apply mul_lt_mul_of_pos_right _ (two_zpow_pos k)
    push_cast
    exact_mod_cast hm53
  have he : f64Ulp x ≤ k := by
    unfold f64Ulp
    rcases max_cases (Int.log 2 x) (-1022) with ⟨h, _⟩ | ⟨h, _⟩ <;> omega
  unfold f64RoundPos
  generalize f64Ulp x = e at he ⊢
  obtain ⟨d, hd⟩ : ∃ d : ℕ, k = e + d := ⟨(k - e).toNat, by omega⟩
  have hscaled : x / 2 ^ e = ((m * 2 ^ d : Int) : ℚ) := by
    rw [div_eq_iff (two_zpow_pos _).ne', hx, hd, zpow_add₀ (by norm_num), zpow_natCast]
    push_cast
    ring
  rw [hscaled, roundHalfEven_intCast, ← hscaled]
  exact div_mul_cancel₀ _ (two_zpow_pos _).ne'

theorem f64RoundPos_mono {x y : ℚ} (hx : 0 < x) (h : x ≤ y) :
    f64RoundPos x ≤ f64RoundPos y := by
  have hy : 0 < y := lt_of_lt_of_le hx h
  have hue := f64Ulp_mono hx h
  rcases lt_or_eq_of_le hue with hlt | heq
  · -- different binades: a power of two separates the two results
    have hLy : -1022 < Int.log 2 y := by
      unfold f64Ulp at hlt
      rcases max_cases (Int.log 2 y) (-1022) with ⟨h1, _⟩ | ⟨h1, _⟩
      · have := le_max_right (Int.log 2 x) (-1022)
        omega
      · have := le_max_right (Int.log 2 x) (-1022)
        omega
    have hey : f64Ulp y = Int.log 2 y - 52 := by
      unfold f64Ulp
      rw [max_eq_left hLy.le]
    have hLx : Int.log 2 x + 1 ≤ Int.log 2 y := by
      unfold f64Ulp at hlt
      have := le_max_left (Int.log 2 x) (-1022)
      rw [max_eq_left hLy.le] at hlt
      omega
    have hxlt : x ≤ (2 : ℚ) ^ (Int.log 2 y) := by
      have h1 : x < (2 : ℚ) ^ (Int.log 2 x + 1) := by
        have := Int.lt_zpow_succ_log_self (b := 2) (by norm_num) x
        simpa using this
      exact le_trans h1.le (zpow_le_zpow_right₀ (by norm_num) hLx)
    have hyge : (2 : ℚ) ^ (Int.log 2 y) ≤ y := by
      have := Int.zpow_log_le_self (b := 2) (r := y) (by norm_num) hy
      simpa using this
    obtain ⟨d, hd⟩ : ∃ d : ℕ, Int.log 2 y = f64Ulp x + d :=
      ⟨(Int.log 2 y - f64Ulp x).toNat, by omega⟩
    have hsx : x / 2 ^ f64Ulp x ≤ ((2 ^ d : Int) : ℚ) := by
      rw [div_le_iff₀ (two_zpow_pos _)]
      calc x ≤ 2 ^ (Int.log 2 y) := hxlt
        _ = ((2 ^ d : Int) : ℚ) * 2 ^ f64Ulp x := by
          rw [hd, zpow_add₀ (by norm_num), mul_comm]
          norm_cast
    have hrx : f64RoundPos x ≤ 2 ^ (Int.log 2 y) := by
      unfold f64RoundPos
      have := roundHalfEven_mono hsx
      rw [roundHalfEven_intCast] at this
      calc (roundHalfEven (x / 2 ^ f64Ulp x) : ℚ) * 2 ^ f64Ulp x
          ≤ ((2 ^ d : Int) : ℚ) * 2 ^ f64Ulp x :=
            mul_le_mul_of_nonneg_right (by exact_mod_cast this) (two_zpow_pos _).le
        _ = 2 ^ (Int.log 2 y) := by
          rw [hd, zpow_add₀ (by norm_num), mul_comm]
          norm_cast
    have hsy : (((2 : Int) ^ (52 : ℕ) : Int) : ℚ) ≤ y / 2 ^ f64Ulp y := by
      rw [le_div_iff₀ (two_zpow_pos _)]
      calc (((2 : Int) ^ (52 : ℕ) : Int) : ℚ) * 2 ^ f64Ulp y = 2 ^ (Int.log 2 y) := by
            rw [hey, show Int.log 2 y = (52 : ℕ) + (Int.log 2 y - 52) by omega,
              zpow_add₀ (by norm_num)]
            norm_cast
            simp
        _ ≤ y := hyge
    have hry : (2 : ℚ) ^ (Int.log 2 y) ≤ f64RoundPos y := by
      unfold f64RoundPos
      have := roundHalfEven_mono hsy
      rw [roundHalfEven_intCast] at this
      calc (2 : ℚ) ^ (Int.log 2 y) = (((2 : Int) ^ (52 : ℕ) : Int) : ℚ) * 2 ^ f64Ulp y := by
            rw [hey, show Int.log 2 y = (52 : ℕ) + (Int.log 2 y - 52) by omega,
              zpow_add₀ (by norm_num)]
            norm_cast
            simp
        _ ≤ (roundHalfEven (y / 2 ^ f64Ulp y) : ℚ) * 2 ^ f64Ulp y :=
            mul_le_mul_of_nonneg_right (by exact_mod_cast this) (two_zpow_pos _).le
    exact le_trans hrx hry
  · unfold f64RoundPos
    rw [heq]
    apply mul_le_mul_of_nonneg_right _ (two_zpow_pos _).le
    have : x / 2 ^ f64Ulp y ≤ y / 2 ^ f64Ulp y :=
      div_le_div_of_nonneg_right h (two_zpow_pos _).le
    exact_mod_cast roundHalfEven_mono this


theorem f64Round_nonneg {x : ℚ} (hx : 0 ≤ x) : 0 ≤ f64Round x := by
  unfold f64Round
  split_ifs with h0 hneg
  · exact le_refl _
  · exact absurd hneg (not_lt.mpr hx)
  · exact f64RoundPos_nonneg hx

theorem f64Round_nonpos {x : ℚ} (hx : x ≤ 0) : f64Round x ≤ 0 := by
  unfold f64Round
  split_ifs with h0 hneg
  · exact le_refl _
  · have := f64RoundPos_nonneg (x := -x) (by linarith)
    linarith
  · exact absurd (lt_of_le_of_ne hx h0) hneg

/-- Rounding to binary64 is monotone. -/
theorem f64Round_mono {x y : ℚ} (h : x ≤ y) : f64Round x ≤ f64Round y := by
  rcases lt_trichotomy x 0 with hx | hx | hx
  · rcases lt_or_le y 0 with hy | hy
    · have := f64RoundPos_mono (x := -y) (y := -x) (by linarith) (by linarith)
      simp only [f64Round, hx.ne, hy.ne, hx, hy, if_true, if_false]
      linarith
    · exact le_trans (f64Round_nonpos hx.le) (f64Round_nonneg hy)
  · rw [hx] at h ⊢
    have : f64Round 0 = 0 := by simp [f64Round]
    rw [this]
    exact f64Round_nonneg h
  · have hy : 0 < y := lt_of_lt_of_le hx h
    have := f64RoundPos_mono hx h
    simp only [f64Round, hx.ne', hy.ne', not_lt.mpr hx.le, not_lt.mpr hy.le, if_false]
    exact this

/-- Every `m * 2^k` with `|m| < 2^53` and `k ≥ -1074` is a binary64 number. -/
theorem f64Round_representable (m : Int) (k : Int) (hm : |m| < 2 ^ 53) (hk : -1074 ≤ k) :
    f64Round ((m : ℚ) * 2 ^ k) = (m : ℚ) * 2 ^ k := by
  rcases lt_trichotomy m 0 with h | h | h
  · have hx : (m : ℚ) * 2 ^ k < 0 := mul_neg_of_neg_of_pos (by exact_mod_cast h) (two_zpow_pos k)
    have hrep := f64RoundPos_representable (-m).toNat k (by omega)
      (by rw [abs_of_neg h] at hm; omega) hk
    have hcast : (((-m).toNat : ℕ) : ℚ) = -(m : ℚ) := by
      have : (((-m).toNat : ℕ) : Int) = -m := Int.toNat_of_nonneg (by omega)
      exact_mod_cast this
    rw [hcast] at hrep
    simp only [f64Round, hx.ne, hx, if_true, if_false]
    rw [show -((m : ℚ) * 2 ^ k) = -(m : ℚ) * 2 ^ k by ring, hrep]
    ring
  · simp [h, f64Round]
  · have hx : 0 < (m : ℚ) * 2 ^ k := mul_pos (by exact_mod_cast h) (two_zpow_pos k)
    have hrep := f64RoundPos_representable m.toNat k (by omega)
      (by rw [abs_of_pos h] at hm; omega) hk
    have hcast : ((m.toNat : ℕ) : ℚ) = (m : ℚ) := by
      have : ((m.toNat : ℕ) : Int) = m := Int.toNat_of_nonneg (by omega)
      exact_mod_cast this
    rw [hcast] at hrep
    simp only [f64Round, hx.ne', not_lt.mpr hx.le, if_false]
    exact hrep

/-- Integers below `2^53` in magnitude convert to binary64 without rounding. -/
theorem f64Round_intCast (n : Int) (hn : |n| < 2 ^ 53) : f64Round (n : ℚ) = n := by
  have := f64Round_representable n 0 hn (by norm_num)
  simpa using this

/-- Evaluation of a rounding in the normal range: `x` lies in the binade of
`2^L` and strictly within half a unit in the last place of `m * 2^(L-52)`. -/
theorem f64RoundPos_eval (x : ℚ) (L m : Int) (hL : -1022 ≤ L) (h1 : (2 : ℚ) ^ L ≤ x)
    (h2 : x < 2 ^ (L + 1)) (hm1 : ((m : ℚ) - 1 / 2) * 2 ^ (L - 52) < x)
    (hm2 : x < ((m : ℚ) + 1 / 2) * 2 ^ (L - 52)) :
    f64RoundPos x = (m : ℚ) * 2 ^ (L - 52) := by
  have hx : 0 < x := lt_of_lt_of_le (two_zpow_pos L) h1
  have hlog : Int.log 2 x = L := by
    apply le_antisymm
    · have := (Int.lt_zpow_iff_log_lt (b := 2) (by norm_num) hx (x := L + 1)).mp
        (by simpa using h2)
      omega
    · exact (Int.zpow_le_iff_le_log (b := 2) (by norm_num) hx).mp (by simpa using h1)
  have hu : f64Ulp x = L - 52 := by
    unfold f64Ulp
    rw [hlog, max_eq_left hL]
  unfold f64RoundPos
  rw [hu]
  congr 1
  have := roundHalfEven_eq_of_near (x := x / 2 ^ (L - 52)) (m := m)
    (by rw [lt_div_iff₀ (two_zpow_pos _)]; exact hm1)
    (by rw [div_lt_iff₀ (two_zpow_pos _)]; exact hm2)
  exact_mod_cast this

theorem f64Round_three_tenths : f64Round (3 / 10) = 5404319552844595 * 2 ^ (-54 : Int) := by
  have := f64RoundPos_eval (3 / 10) (-2) 5404319552844595 (by norm_num) (by norm_num)
    (by norm_num) (by norm_num) (by norm_num)
  simp only [f64Round]
  norm_num
  rw [this]
  norm_num

/-! ### Backpressure under Critical pressure -/

/-- C1, as stated, fails: a freshly created controller (both counters zero)
admits a priority-5 task although the probe reads Critical, and counts it as
accepted. -/
theorem critical_fresh_controller_admits_low_priority :
    ¬ (∀ (bp : BackpressureCtrl) (task : DeliveryTask),
        (ShouldAccept bp .Critical task).1 = true → 8 ≤ task.Priority) ∧
    ShouldAccept (NewBackpressureCtrl 0) .Critical (taskOfPriority 5)
      = (true, { NewBackpressureCtrl 0 with acceptanceCount := 1 }) := by
  refine ⟨fun h => ?_, by decide⟩
  have h5 := h (NewBackpressureCtrl 0) (taskOfPriority 5) (by decide)
  exact absurd h5 (by decide)

/-- C1 (amended): once the window has a recorded decision (the counters do
not sum to zero), under Critical pressure an admitted task has priority at
least 8; a task of priority below 8 is rejected and only the rejected counter
grows by one, a task of priority 8 or more is accepted and only the accepted
counter grows by one. -/
theorem critical_admits_only_priority_ge_8 (bp : BackpressureCtrl) (task : DeliveryTask)
    (h : bp.rejectionCount + bp.acceptanceCount ≠ 0) :
    ((ShouldAccept bp .Critical task).1 = true → 8 ≤ task.Priority) ∧
    (task.Priority < 8 → ShouldAccept bp .Critical task
      = (false, { bp with rejectionCount := bp.rejectionCount + 1 })) ∧
    (8 ≤ task.Priority → ShouldAccept bp .Critical task
      = (true, { bp with acceptanceCount := bp.acceptanceCount + 1 })) := by
  by_cases hp : task.Priority < 8
  · simp [ShouldAccept, h, hp]
  · simp [ShouldAccept, h, hp]
    omega

/-- Witness for C1: one rejection on record, probe Critical; priority 5 is
rejected, priority 9 accepted. -/
theorem critical_admits_only_priority_ge_8_witness :
    ({ NewBackpressureCtrl 0 with rejectionCount := 1 } : BackpressureCtrl).rejectionCount
      + ({ NewBackpressureCtrl 0 with rejectionCount := 1 } : BackpressureCtrl).acceptanceCount ≠ 0 ∧
    ShouldAccept { NewBackpressureCtrl 0 with rejectionCount := 1 } .Critical (taskOfPriority 5)
      = (false, { NewBackpressureCtrl 0 with rejectionCount := 2 }) ∧
    ShouldAccept { NewBackpressureCtrl 0 with rejectionCount := 1 } .Critical (taskOfPriority 9)
      = (true, { NewBackpressureCtrl 0 with rejectionCount := 1, acceptanceCount := 1 }) :=
  ⟨by decide,
   (critical_admits_only_priority_ge_8 { NewBackpressureCtrl 0 with rejectionCount := 1 }
      (taskOfPriority 5) (by decide)).2.1 (by decide),
   (critical_admits_only_priority_ge_8 { NewBackpressureCtrl 0 with rejectionCount := 1 }
      (taskOfPriority 9) (by decide)).2.2 (by decide)⟩

/-! ### The decision table of ShouldAccept -/

theorem f64Round_half : f64Round (1 / 2) = 1 / 2 := by
  have := f64Round_representable 1 (-1) (by norm_num) (by norm_num)
  norm_num at this ⊢
  exact this

/-- For counters up to `2^51` the binary64 rejection rate exceeds the
constant `0.3` exactly when the exact quotient exceeds three tenths. -/
theorem rate_gt_three_tenths (r t : Int) (hr : 0 ≤ r) (hrt : r ≤ t) (ht0 : 0 < t)
    (ht : t ≤ 2 ^ 51) :
    f64Div (f64OfInt r) (f64OfInt t) > f64Round (3 / 10) ↔ (r : ℚ) / t > 3 / 10 := by
  have hr1 : f64OfInt r = r := f64Round_intCast r (by rw [abs_of_nonneg hr]; omega)
  have ht1 : f64OfInt t = t := f64Round_intCast t (by rw [abs_of_pos ht0]; omega)
  have htq : (0 : ℚ) < t := by exact_mod_cast ht0
  unfold f64Div
  rw [hr1, ht1]
  constructor
  · intro h
    by_contra hle
    have := f64Round_mono (not_lt.mp hle)
    exact absurd h (not_lt.mpr this)
  · intro h
    have h10 : 3 * t + 1 ≤ 10 * r := by
      have h1 : (3 : ℚ) * t < 10 * r := by
        have := (lt_div_iff₀ htq).mp h
        linarith
      have h2 : 3 * t < 10 * r := by exact_mod_cast h1
      omega
    have hint : 5404319552844596 * t ≤ r * 18014398509481984 := by omega
    have hq : (5404319552844596 : ℚ) * t ≤ r * 18014398509481984 := by exact_mod_cast hint
    have hc : (5404319552844596 : ℚ) * 2 ^ (-54 : Int) ≤ (r : ℚ) / t := by
      rw [le_div_iff₀ htq]
      norm_num
      linarith
    have hrep := f64Round_representable 5404319552844596 (-54) (by norm_num) (by norm_num)
    have hmono := f64Round_mono hc
    rw [f64Round_three_tenths]
    push_cast at hrep
    rw [hrep] at hmono
    refine lt_of_lt_of_le ?_ hmono
    norm_num

/-- For counters up to `2^51` the binary64 rejection rate exceeds `0.5`
exactly when the exact quotient exceeds one half. -/
theorem rate_gt_half (r t : Int) (hr : 0 ≤ r) (hrt : r ≤ t) (ht0 : 0 < t)
    (ht : t ≤ 2 ^ 51) :
    f64Div (f64OfInt r) (f64OfInt t) > f64Round (1 / 2) ↔ (r : ℚ) / t > 1 / 2 := by
  have hr1 : f64OfInt r = r := f64Round_intCast r (by rw [abs_of_nonneg hr]; omega)
  have ht1 : f64OfInt t = t := f64Round_intCast t (by rw [abs_of_pos ht0]; omega)
  have htq : (0 : ℚ) < t := by exact_mod_cast ht0
  unfold f64Div
  rw [hr1, ht1, f64Round_half]
  constructor
  · intro h
    by_contra hle
    have := f64Round_mono (not_lt.mp hle)
    rw [f64Round_half] at this
    exact absurd h (not_lt.mpr this)
  · intro h
    have h10 : t + 1 ≤ 2 * r := by
      have h1 : (t : ℚ) < 2 * r := by
        have := (lt_div_iff₀ htq).mp h
        linarith
      have h2 : t < 2 * r := by exact_mod_cast h1
      omega
    have hint : 4503599627370497 * t ≤ r * 9007199254740992 := by omega
    have hq : (4503599627370497 : ℚ) * t ≤ r * 9007199254740992 := by exact_mod_cast hint
    have hc : (4503599627370497 : ℚ) * 2 ^ (-53 : Int) ≤ (r : ℚ) / t := by
      rw [le_div_iff₀ htq]
      norm_num
      linarith
    have hrep := f64Round_representable 4503599627370497 (-53) (by norm_num) (by norm_num)
    have hmono := f64Round_mono hc
    push_cast at hrep
    rw [hrep] at hmono
    refine lt_of_lt_of_le ?_ hmono
    norm_num

/-- C2, as stated, fails: with 2100000000000001 rejections among
7000000000000003 decisions the exact rate exceeds 0.30, so the table rejects a
priority-5 task under High pressure, but the binary64 quotient rounds to the
constant `0.3` itself and ShouldAccept accepts. -/
theorem should_accept_differs_from_table_at_large_counts :
    specRejects bpLarge.acceptanceCount bpLarge.rejectionCount .High (taskOfPriority 5).Priority ∧
    (ShouldAccept bpLarge .High (taskOfPriority 5)).1 = true := by
  constructor
  · refine ⟨by decide, Or.inr (Or.inl ⟨rfl, ?_, by decide⟩)⟩
    simp only [bpLarge]
    norm_num
  · have hr : f64OfInt bpLarge.rejectionCount = 2100000000000001 := by
      have := f64Round_intCast 2100000000000001 (by norm_num)
      simpa [f64OfInt, bpLarge] using this
    have ht : f64OfInt (bpLarge.rejectionCount + bpLarge.acceptanceCount) = 7000000000000003 := by
      have := f64Round_intCast 7000000000000003 (by norm_num)
      simpa [f64OfInt, bpLarge] using this
    have hq : f64Div 2100000000000001 7000000000000003
        = 5404319552844595 * 2 ^ (-54 : Int) := by
      have := f64RoundPos_eval (2100000000000001 / 7000000000000003) (-2) 5404319552844595
        (by norm_num) (by norm_num) (by norm_num) (by norm_num) (by norm_num)
      simp only [f64Div, f64Round]
      norm_num
      rw [this]
      norm_num
    have htot : bpLarge.rejectionCount + bpLarge.acceptanceCount ≠ 0 := by decide
    simp only [ShouldAccept, htot, if_false, hr, ht, hq, f64Round_three_tenths]
    simp

/-- C2 (amended): for non-negative counters with at most `2^51` decisions on
record, ShouldAccept returns false exactly when the decision table of the
specification rejects; it returns true when no decision is on record and
always under Low pressure; a false result adds one to the rejected counter
only and a true result adds one to the accepted counter only. -/
theorem should_accept_matches_table (bp : BackpressureCtrl) (pressure : MemoryPressure)
    (task : DeliveryTask) (ha : 0 ≤ bp.acceptanceCount) (hr : 0 ≤ bp.rejectionCount)
    (hsum : bp.acceptanceCount + bp.rejectionCount ≤ 2 ^ 51) :
    ((ShouldAccept bp pressure task).1 = false ↔
      specRejects bp.acceptanceCount bp.rejectionCount pressure task.Priority) ∧
    (bp.acceptanceCount + bp.rejectionCount = 0 → (ShouldAccept bp pressure task).1 = true) ∧
    (pressure = .Low → (ShouldAccept bp pressure task).1 = true) ∧
    ((ShouldAccept bp pressure task).1 = false → (ShouldAccept bp pressure task).2
      = { bp with rejectionCount := bp.rejectionCount + 1 }) ∧
    ((ShouldAccept bp pressure task).1 = true → (ShouldAccept bp pressure task).2
      = { bp with acceptanceCount := bp.acceptanceCount + 1 }) := by
  by_cases h0 : bp.rejectionCount + bp.acceptanceCount = 0
  · have h0' : bp.acceptanceCount + bp.rejectionCount = 0 := by omega
    simp [ShouldAccept, h0, specRejects, h0']
  · have hpos : 0 < bp.rejectionCount + bp.acceptanceCount := by omega
    have hcomm : bp.acceptanceCount + bp.rejectionCount
        = bp.rejectionCount + bp.acceptanceCount := by omega
    have h3 := rate_gt_three_tenths bp.rejectionCount (bp.rejectionCount + bp.acceptanceCount)
      hr (by omega) hpos (by omega)
    have h5 := rate_gt_half bp.rejectionCount (bp.rejectionCount + bp.acceptanceCount)
      hr (by omega) hpos (by omega)
    have hne : ¬ bp.acceptanceCount + bp.rejectionCount = 0 := by omega
    cases pressure
    · simp [ShouldAccept, h0, specRejects, hne]
    · simp only [one_div] at h5
      by_cases hc : f64Div (f64OfInt bp.rejectionCount)
          (f64OfInt (bp.rejectionCount + bp.acceptanceCount)) > f64Round 2⁻¹
          ∧ task.Priority < 4
      · have hs := h5.mp hc.1
        simp [ShouldAccept, h0, specRejects, hne, hc, hcomm, hpos]
        simpa using hs
      · have hs : ¬ ((bp.rejectionCount : ℚ) / ((bp.rejectionCount + bp.acceptanceCount : Int) : ℚ)
            > 2⁻¹ ∧ task.Priority < 4) := fun hh => hc ⟨h5.mpr hh.1, hh.2⟩
        simp [ShouldAccept, h0, specRejects, hne, hc, hcomm, hpos]
        intro hgt
        by_contra hp
        exact hs ⟨by simpa using hgt, by omega⟩
    · by_cases hc : f64Div (f64OfInt bp.rejectionCount)
          (f64OfInt (bp.rejectionCount + bp.acceptanceCount)) > f64Round (3 / 10)
          ∧ task.Priority < 6
      · have hs := h3.mp hc.1
        simp [ShouldAccept, h0, specRejects, hne, hc, hcomm, hpos]
        simpa using hs
      · have hs : ¬ ((bp.rejectionCount : ℚ) / ((bp.rejectionCount + bp.acceptanceCount : Int) : ℚ)
            > 3 / 10 ∧ task.Priority < 6) := fun hh => hc ⟨h3.mpr hh.1, hh.2⟩
        simp [ShouldAccept, h0, specRejects, hne, hc, hcomm, hpos]
        intro hgt
        by_contra hp
        exact hs ⟨by simpa using hgt, by omega⟩
    · by_cases hp : task.Priority < 8
      · simp [ShouldAccept, h0, specRejects, hne, hp, hcomm, hpos]
      · simp [ShouldAccept, h0, specRejects, hne, hp, hcomm, hpos]


/-- Witness for C2: two rejections and one acceptance on record, Medium
pressure, priority 3. -/
theorem should_accept_matches_table_witness :
    0 ≤ bpTwoOfThree.acceptanceCount ∧ 0 ≤ bpTwoOfThree.rejectionCount ∧
    bpTwoOfThree.acceptanceCount + bpTwoOfThree.rejectionCount ≤ 2 ^ 51 ∧
    ((ShouldAccept bpTwoOfThree .Medium (taskOfPriority 3)).1 = false ↔
      specRejects bpTwoOfThree.acceptanceCount bpTwoOfThree.rejectionCount .Medium
        (taskOfPriority 3).Priority) :=
  ⟨by decide, by decide, by decide,
   (should_accept_matches_table bpTwoOfThree .Medium (taskOfPriority 3)
      (by decide) (by decide) (by decide)).1⟩

/-! ### ScheduleRetry and GetNextRetry -/

/-- C5: a task whose retry count has reached the maximum is refused by
ScheduleRetry, whatever the reason, and the manager (queue included) is left
as it was. -/
theorem schedule_retry_refuses_exhausted (rm : RetryManager) (now : Int) (task : DeliveryTask)
    (reason : String) (h : task.RetryCount ≥ rm.maxRetries) :
    ScheduleRetry rm now task reason = (false, rm) := by
  simp [ScheduleRetry, h]

/-- Witness for C5: the default manager refuses a task already retried three
times. -/
theorem schedule_retry_refuses_exhausted_witness :
    ({ taskOfPriority 5 with RetryCount := 3 } : DeliveryTask).RetryCount ≥ rmDefault.maxRetries ∧
    ScheduleRetry rmDefault 0 { taskOfPriority 5 with RetryCount := 3 } "all_users_failed"
      = (false, rmDefault) :=
  ⟨by decide, schedule_retry_refuses_exhausted rmDefault 0 _ "all_users_failed" (by decide)⟩

/-- C7: for a task below the retry limit, ScheduleRetry with a free place in
the queue returns true and appends one RetryTask at the tail, carrying the
task unchanged, the retry count plus one and the fire time `now + delay`;
with a full queue it returns false and changes nothing. A manager made by
NewRetryManager starts empty with room for `maxRetries * 100` tasks. -/
theorem schedule_retry_enqueues (rm : RetryManager) (now : Int) (task : DeliveryTask)
    (reason : String) (h : task.RetryCount < rm.maxRetries) :
    (rm.retryQueue.buf.length < rm.retryQueue.cap →
      ScheduleRetry rm now task reason =
        (true, { rm with retryQueue := { rm.retryQueue with buf := rm.retryQueue.buf ++
          [{ OriginalTask := task, RetryCount := task.RetryCount + 1,
             NextRetry := now + backoffDelay rm task.RetryCount, Reason := reason }] } })) ∧
    (¬ rm.retryQueue.buf.length < rm.retryQueue.cap →
      ScheduleRetry rm now task reason = (false, rm)) ∧
    (∀ base bmax : Int, ∀ rm0 : RetryManager,
      NewRetryManager rm.maxRetries base bmax = some rm0 →
        rm0.retryQueue.buf = [] ∧ (rm0.retryQueue.cap : Int) = wrap64 (rm.maxRetries * 100)) := by
  have hnot : ¬ task.RetryCount ≥ rm.maxRetries := by omega
  refine ⟨fun hroom => ?_, fun hfull => ?_, fun base bmax rm0 hnew => ?_⟩
  · simp [ScheduleRetry, hnot, Chan.trySend, hroom]
  · simp [ScheduleRetry, hnot, Chan.trySend, hfull]
  · unfold NewRetryManager at hnew
    split_ifs at hnew with hc
    cases hnew
    exact ⟨rfl, Int.toNat_of_nonneg hc⟩

/-- Witness for C7: the default manager, empty, takes a first retry. -/
theorem schedule_retry_enqueues_witness :
    (taskOfPriority 5).RetryCount < rmDefault.maxRetries ∧
    rmDefault.retryQueue.buf.length < rmDefault.retryQueue.cap ∧
    ScheduleRetry rmDefault 0 (taskOfPriority 5) "all_users_failed" =
      (true, { rmDefault with retryQueue := { rmDefault.retryQueue with
        buf := rmDefault.retryQueue.buf ++
          [{ OriginalTask := taskOfPriority 5, RetryCount := (taskOfPriority 5).RetryCount + 1,
             NextRetry := 0 + backoffDelay rmDefault (taskOfPriority 5).RetryCount,
             Reason := "all_users_failed" }] } }) :=
  ⟨by decide, by decide,
   (schedule_retry_enqueues rmDefault 0 (taskOfPriority 5) "all_users_failed" (by decide)).1
     (by decide)⟩

/-- While the queue is non-empty, within capacity and holds no due task, the
loop of GetNextRetry only rotates the queue: it is still running after any
number of passes. -/
theorem GetNextRetry_spins (now : Int) : ∀ (fuel : Nat) (rm : RetryManager),
    rm.retryQueue.buf ≠ [] → (∀ t ∈ rm.retryQueue.buf, ¬ now > t.NextRetry) →
    rm.retryQueue.buf.length ≤ rm.retryQueue.cap → GetNextRetry fuel now rm = none := by
  intro fuel
  induction fuel with
  | zero => intro rm _ _ _; rfl
  | succ n ih =>
    intro rm hne hnd hcap
    obtain ⟨⟨buf, cap⟩, m, b, x⟩ := rm
    cases buf with
    | nil => exact absurd rfl hne
    | cons t rest =>
      have ht : ¬ now > t.NextRetry := hnd t (by simp)
      have hroom : rest.length < cap := by
        simp at hcap
        omega
      simp only [GetNextRetry, Chan.tryRecv, Chan.trySend, ht, if_false, hroom, if_true]
      apply ih
      · simp
      · intro u hu
        simp at hu
        rcases hu with hu | hu
        · exact hnd u (by simp [hu])
        · rw [hu]; exact ht
      · simp
        simp at hcap
        omega

/-- C8 (failing input): with one queued task due at second 5 and the clock
fixed at second 1, GetNextRetry has not returned after any number of loop
passes; it never reaches the answer "none" that the claim promises. The
same holds with the clock fixed at second 5 exactly: the test is
`time.Now().After(task.NextRetry)`, so a task is not yet due at its fire time. -/
theorem get_next_retry_never_returns_while_task_waits :
    (∀ fuel : Nat, GetNextRetry fuel 1000000000 rmWaiting = none) ∧
    (∀ fuel : Nat, GetNextRetry fuel 5000000000 rmWaiting = none) := by
  constructor
  · intro fuel
    apply GetNextRetry_spins
    · decide
    · intro t ht
      have : t = retryAtFive := by simpa [rmWaiting] using ht
      rw [this]
      decide
    · decide
  · intro fuel
    apply GetNextRetry_spins
    · decide
    · intro t ht
      have : t = retryAtFive := by simpa [rmWaiting] using ht
      rw [this]
      decide
    · decide


/-! ### SubmitTask -/

/-- C3: when ShouldAccept returns false, SubmitTask fails with the overload
error, which is not the queue-full error, the entry buffer is untouched and
TotalReceived is unchanged; when the task is accepted and the entry buffer has
room, SubmitTask returns no error, the task (with id, creation time and
timeout filled in where empty) is appended to the entry buffer and
TotalReceived grows by exactly one. A task that carries all three fields is
appended unchanged. -/
theorem submit_task_outcomes (ds : DeliverySystem) (pressure : MemoryPressure) (now : Int)
    (newID : String) (task : DeliveryTask) :
    ((ShouldAccept ds.backpressure pressure task).1 = false →
      (SubmitTask ds pressure now newID task).1 = some SubmitError.RejectedOverload ∧
      SubmitError.RejectedOverload ≠ SubmitError.QueueFull ∧
      (SubmitTask ds pressure now newID task).2.inputChan = ds.inputChan ∧
      (SubmitTask ds pressure now newID task).2.stats.TotalReceived = ds.stats.TotalReceived) ∧
    ((ShouldAccept ds.backpressure pressure task).1 = true →
      ds.inputChan.buf.length < ds.inputChan.cap →
      (SubmitTask ds pressure now newID task).1 = none ∧
      (SubmitTask ds pressure now newID task).2.inputChan.buf
        = ds.inputChan.buf ++ [withDefaults ds now newID task] ∧
      (SubmitTask ds pressure now newID task).2.inputChan.cap = ds.inputChan.cap ∧
      (SubmitTask ds pressure now newID task).2.stats.TotalReceived
        = ds.stats.TotalReceived + 1) ∧
    (task.ID ≠ "" → task.CreatedAt ≠ 0 → task.Timeout ≠ 0 →
      withDefaults ds now newID task = task) := by
  refine ⟨fun hrej => ?_, fun hacc hroom => ?_, fun h1 h2 h3 => ?_⟩
  · unfold SubmitTask
    rcases hsa : ShouldAccept ds.backpressure pressure task with ⟨b, bp⟩
    rw [hsa] at hrej
    simp only at hrej
    subst hrej
    simp
  · unfold SubmitTask
    rcases hsa : ShouldAccept ds.backpressure pressure task with ⟨b, bp⟩
    rw [hsa] at hacc
    simp only at hacc
    subst hacc
    simp [Chan.trySend, hroom]
  · simp [withDefaults, h1, h2, h3]

/-- Witness for C3: the small system with one rejection on record refuses a
priority-5 task under Critical pressure; the fresh small system takes it. -/
theorem submit_task_outcomes_witness :
    ((SubmitTask dsSmallLoaded .Critical 7 "id" (taskOfPriority 5)).1
        = some SubmitError.RejectedOverload ∧
      SubmitError.RejectedOverload ≠ SubmitError.QueueFull ∧
      (SubmitTask dsSmallLoaded .Critical 7 "id" (taskOfPriority 5)).2.inputChan
        = dsSmallLoaded.inputChan ∧
      (SubmitTask dsSmallLoaded .Critical 7 "id" (taskOfPriority 5)).2.stats.TotalReceived
        = dsSmallLoaded.stats.TotalReceived) ∧
    ((SubmitTask dsSmall .Critical 7 "id" (taskOfPriority 5)).1 = none ∧
      (SubmitTask dsSmall .Critical 7 "id" (taskOfPriority 5)).2.inputChan.buf
        = dsSmall.inputChan.buf ++ [withDefaults dsSmall 7 "id" (taskOfPriority 5)] ∧
      (SubmitTask dsSmall .Critical 7 "id" (taskOfPriority 5)).2.inputChan.cap
        = dsSmall.inputChan.cap ∧
      (SubmitTask dsSmall .Critical 7 "id" (taskOfPriority 5)).2.stats.TotalReceived
        = dsSmall.stats.TotalReceived + 1) :=
  ⟨(submit_task_outcomes dsSmallLoaded .Critical 7 "id" (taskOfPriority 5)).1 (by decide),
   (submit_task_outcomes dsSmall .Critical 7 "id" (taskOfPriority 5)).2.1 (by decide)
     (by decide)⟩


/-! ### Bounded retries -/

theorem ScheduleRetry_maxRetries (rm : RetryManager) (now : Int) (task : DeliveryTask)
    (reason : String) : (ScheduleRetry rm now task reason).2.maxRetries = rm.maxRetries := by
  unfold ScheduleRetry
  split_ifs
  · rfl
  · simp only [Chan.trySend]
    split_ifs <;> rfl

theorem ScheduleRetry_bounded (rm : RetryManager) (now : Int) (task : DeliveryTask)
    (reason : String) (h : RetryBounded rm) :
    RetryBounded (ScheduleRetry rm now task reason).2 := by
  unfold ScheduleRetry
  split_ifs with hmax
  · exact h
  · simp only [Chan.trySend]
    split_ifs with hroom
    · intro rt hrt
      simp at hrt
      rcases hrt with hrt | hrt
      · exact h rt hrt
      · subst hrt
        simp
        omega
    · exact h

theorem GetNextRetry_bounded (now : Int) : ∀ (fuel : Nat) (rm : RetryManager) (r : NextRetry),
    RetryBounded rm → GetNextRetry fuel now rm = some r →
    RetryBounded r.rm ∧ r.rm.maxRetries = rm.maxRetries ∧
    ∀ t, r.task = some t → t.RetryCount ≤ rm.maxRetries := by
  intro fuel
  induction fuel with
  | zero => intro rm r _ h; simp [GetNextRetry] at h
  | succ n ih =>
    intro rm r hb h
    obtain ⟨⟨buf, cap⟩, m, b, x⟩ := rm
    cases buf with
    | nil =>
      simp [GetNextRetry, Chan.tryRecv] at h
      subst h
      exact ⟨hb, rfl, by simp⟩
    | cons t rest =>
      simp only [GetNextRetry, Chan.tryRecv] at h
      split_ifs at h with hdue
      · simp at h
        subst h
        refine ⟨fun rt hrt => hb rt (by simp at hrt ⊢; exact Or.inr hrt), rfl, ?_⟩
        intro u hu
        simp at hu
        subst hu
        exact hb t (by simp)
      · simp only [Chan.trySend] at h
        split_ifs at h with hroom
        · have hb1 : RetryBounded
              { retryQueue := { buf := rest ++ [t], cap := cap }, maxRetries := m,
                backoffBase := b, backoffMax := x } := by
            intro rt hrt
            simp at hrt
            rcases hrt with hrt | hrt
            · exact hb rt (by simp; exact Or.inr hrt)
            · subst hrt
              exact hb rt (by simp)
          exact ih { retryQueue := { buf := rest ++ [t], cap := cap }, maxRetries := m,
                     backoffBase := b, backoffMax := x } r hb1 h
        · have hb1 : RetryBounded
              { retryQueue := { buf := rest, cap := cap }, maxRetries := m,
                backoffBase := b, backoffMax := x } :=
            fun rt hrt => hb rt (by simp at hrt ⊢; exact Or.inr hrt)
          rw [Option.map_eq_some'] at h
          obtain ⟨r0, hr0, hr⟩ := h
          subst hr
          exact ih { retryQueue := { buf := rest, cap := cap }, maxRetries := m,
                     backoffBase := b, backoffMax := x } r0 hb1 hr0

theorem processRetries_bounded (now : Int) :
    ∀ (fuel : Nat) (rm : RetryManager) (rw : RetryWorker) (p : RetryPass),
    RetryBounded rm → processRetries fuel now rm rw = some p →
    RetryBounded p.rm ∧ p.rm.maxRetries = rm.maxRetries ∧
    (∃ handed, p.rw.workerChan.buf = rw.workerChan.buf ++ handed ∧
      ∀ t ∈ handed, t.RetryCount ≤ rm.maxRetries) ∧
    ∀ rt ∈ p.requeue, rt.OriginalTask.RetryCount ≤ rm.maxRetries := by
  intro fuel
  induction fuel with
  | zero => intro rm rw p _ h; simp [processRetries] at h
  | succ n ih =>
    intro rm rw p hb h
    simp only [processRetries] at h
    rcases hg : GetNextRetry (n + 1) now rm with _ | r
    · simp [hg] at h
    · obtain ⟨hb1, hm1, ht1⟩ := GetNextRetry_bounded now _ rm r hb hg
      rw [hg] at h
      simp only at h
      rcases hrt : r.task with _ | retryTask
      · simp [hrt] at h
        subst h
        exact ⟨hb1, hm1, ⟨[], by simp⟩, by simp⟩
      · have hcount := ht1 retryTask hrt
        simp only [hrt, Chan.trySend] at h
        split_ifs at h with hroom
        · rw [Option.map_eq_some'] at h
          obtain ⟨p0, hp0, hp⟩ := h
          subst hp
          obtain ⟨hb2, hm2, ⟨handed, hh, hhb⟩, hq⟩ := ih _ _ p0 hb1 hp0
          refine ⟨hb2, hm2.trans hm1,
            ⟨{ retryTask.OriginalTask with RetryCount := retryTask.RetryCount } :: handed,
              ?_, ?_⟩, ?_⟩
          · simpa using hh
          · intro t ht
            simp at ht
            rcases ht with ht | ht
            · subst ht
              exact hcount
            · rw [← hm1]
              exact hhb t ht
          · intro rt hrt2
            rw [← hm1]
            exact hq rt hrt2
        · rw [Option.map_eq_some'] at h
          obtain ⟨p0, hp0, hp⟩ := h
          subst hp
          obtain ⟨hb2, hm2, ⟨handed, hh, hhb⟩, hq⟩ := ih _ _ p0 hb1 hp0
          refine ⟨hb2, hm2.trans hm1, ⟨handed, hh, ?_⟩, ?_⟩
          · intro t ht
            rw [← hm1]
            exact hhb t ht
          · intro rt hrt2
            simp at hrt2
            rcases hrt2 with hrt2 | hrt2
            · subst hrt2
              exact hcount
            · rw [← hm1]
              exact hq rt hrt2

theorem ProcessBatchLoop_bounded (fuel : Nat) (now : Int) :
    ∀ (room : Nat) (rm : RetryManager) (b : RetryBatch),
    RetryBounded rm → ProcessBatchLoop fuel now room rm = some b →
    RetryBounded b.rm ∧ b.rm.maxRetries = rm.maxRetries ∧
    ∀ t ∈ b.tasks, t.RetryCount ≤ rm.maxRetries := by
  intro room
  induction room with
  | zero =>
    intro rm b hb h
    simp [ProcessBatchLoop] at h
    subst h
    exact ⟨hb, rfl, by simp⟩
  | succ n ih =>
    intro rm b hb h
    simp only [ProcessBatchLoop] at h
    rcases hg : GetNextRetry fuel now rm with _ | r
    · simp [hg] at h
    · obtain ⟨hb1, hm1, ht1⟩ := GetNextRetry_bounded now _ rm r hb hg
      rw [hg] at h
      simp only at h
      rcases hrt : r.task with _ | retryTask
      · simp [hrt] at h
        subst h
        exact ⟨hb1, hm1, by simp⟩
      · have hcount := ht1 retryTask hrt
        simp only [hrt] at h
        rw [Option.map_eq_some'] at h
        obtain ⟨b0, hb0, hbe⟩ := h
        subst hbe
        obtain ⟨hb2, hm2, htasks⟩ := ih _ b0 hb1 hb0
        refine ⟨hb2, hm2.trans hm1, ?_⟩
        intro t ht
        simp at ht
        rcases ht with ht | ht
        · subst ht
          exact hcount
        · rw [← hm1]
          exact htasks t ht

theorem RetryReachable_bounded (rm : RetryManager) (h : RetryReachable rm) : RetryBounded rm := by
  induction h with
  | fresh m b x rm hnew =>
    unfold NewRetryManager at hnew
    split_ifs at hnew
    cases hnew
    intro rt hrt
    simp at hrt
  | schedule rm now task reason _ ih => exact ScheduleRetry_bounded rm now task reason ih
  | next rm fuel now r _ hr ih => exact (GetNextRetry_bounded now fuel rm r ih hr).1
  | pass rm fuel now rw p _ hp ih => exact (processRetries_bounded now fuel rm rw p ih hp).1
  | batch rm fuel now b _ hb ih => exact (ProcessBatchLoop_bounded fuel now 10 rm b ih hb).1

/-- C9: in every state of the retry manager reachable from NewRetryManager
through ScheduleRetry (of any task), GetNextRetry, processRetries and
ProcessBatch, every queued retry carries a count within `maxRetries`, every
task that processRetries appends to the worker channel or hands to a
re-scheduling goroutine, and every task that ProcessBatch returns, has
`RetryCount ≤ maxRetries`. -/
theorem retry_path_keeps_count_within_limit (rm : RetryManager) (h : RetryReachable rm) :
    (∀ rt ∈ rm.retryQueue.buf, rt.RetryCount ≤ rm.maxRetries) ∧
    (∀ (fuel : Nat) (now : Int) (rw : RetryWorker) (p : RetryPass),
      processRetries fuel now rm rw = some p →
      (∃ handed, p.rw.workerChan.buf = rw.workerChan.buf ++ handed ∧
        ∀ t ∈ handed, t.RetryCount ≤ rm.maxRetries) ∧
      ∀ rt ∈ p.requeue, rt.OriginalTask.RetryCount ≤ rm.maxRetries) ∧
    (∀ (fuel : Nat) (now : Int) (b : RetryBatch),
      ProcessBatch fuel now rm = some b → ∀ t ∈ b.tasks, t.RetryCount ≤ rm.maxRetries) := by
  have hb := RetryReachable_bounded rm h
  refine ⟨hb, fun fuel now rw p hp => ?_, fun fuel now b hbatch => ?_⟩
  · exact (processRetries_bounded now fuel rm rw p hb hp).2.2
  · exact (ProcessBatchLoop_bounded fuel now 10 rm b hb hbatch).2.2


theorem rmOneScheduled_eq : rmOneScheduled =
    { rmDefault with
      retryQueue :=
        { buf := [{ OriginalTask := taskOfPriority 5, RetryCount := 1,
                    NextRetry := 0 + backoffDelay rmDefault 0, Reason := "all_users_failed" }],
          cap := 300 } } := by
  simp [rmOneScheduled, ScheduleRetry, rmDefault, taskOfPriority, Chan.trySend]

/-- The tick of the retry worker right after a single queued retry falls
due hands that task, with its new retry count, to the worker channel. -/
theorem processRetries_single_due (d : Int) :
    processRetries 2 (0 + d + 1)
      { rmDefault with
        retryQueue :=
          { buf := [{ OriginalTask := taskOfPriority 5, RetryCount := 1,
                      NextRetry := 0 + d, Reason := "all_users_failed" }],
            cap := 300 } } NewRetryWorker =
      some { rm := rmDefault,
             rw := { workerChan := { buf := [{ taskOfPriority 5 with RetryCount := 1 }],
                                     cap := 100 } },
             requeue := [], lost := [] } := by
  have hdue : 0 + d + 1 > 0 + d := by omega
  simp only [processRetries, GetNextRetry, Chan.tryRecv, Chan.trySend, NewRetryWorker, hdue,
    if_true, List.length_nil, List.nil_append, Option.map_some']
  rfl

theorem rmOneScheduled_pass :
    processRetries 2 (0 + backoffDelay rmDefault 0 + 1) rmOneScheduled NewRetryWorker =
      some { rm := rmDefault,
             rw := { workerChan := { buf := [{ taskOfPriority 5 with RetryCount := 1 }],
                                     cap := 100 } },
             requeue := [], lost := [] } := by
  rw [rmOneScheduled_eq]
  exact processRetries_single_due _

/-- Witness for C9: the default manager with one scheduled retry is
reachable, and the tick right after the retry falls due hands back exactly
that task, with retry count 1 of at most 3. -/
theorem retry_path_keeps_count_within_limit_witness :
    RetryReachable rmOneScheduled ∧
    processRetries 2 (0 + backoffDelay rmDefault 0 + 1) rmOneScheduled NewRetryWorker =
      some { rm := rmDefault,
             rw := { workerChan := { buf := [{ taskOfPriority 5 with RetryCount := 1 }],
                                     cap := 100 } },
             requeue := [], lost := [] } ∧
    ((∃ handed, [({ taskOfPriority 5 with RetryCount := 1 } : DeliveryTask)]
        = NewRetryWorker.workerChan.buf ++ handed ∧
        ∀ t ∈ handed, t.RetryCount ≤ rmOneScheduled.maxRetries) ∧
      ∀ rt ∈ ([] : List RetryTask), rt.OriginalTask.RetryCount ≤ rmOneScheduled.maxRetries) :=
  ⟨RetryReachable.schedule rmDefault 0 (taskOfPriority 5) "all_users_failed"
      (RetryReachable.fresh 3 100000000 5000000000 rmDefault (by decide)),
   rmOneScheduled_pass,
   (retry_path_keeps_count_within_limit rmOneScheduled
      (RetryReachable.schedule rmDefault 0 (taskOfPriority 5) "all_users_failed"
        (RetryReachable.fresh 3 100000000 5000000000 rmDefault (by decide)))).2.1
      2 (0 + backoffDelay rmDefault 0 + 1) NewRetryWorker _ rmOneScheduled_pass⟩


/-! ### Retry exhaustion -/

theorem successCount_all_fail (users : List String) :
    successCount (fun _ _ => false) users = 0 := by
  simp [successCount]

theorem resolveRecipients_retryCount (task : DeliveryTask) (k : Int) :
    resolveRecipients { task with RetryCount := k } = resolveRecipients task := rfl

/-- When every delivery fails, processTask of a task with recipients ends in
scheduleRetry. -/
theorem processTask_all_fail (ds : DeliverySystem) (now : Int) (task : DeliveryTask)
    (users : List String) (hrec : resolveRecipients task = some users) :
    ∃ reason, processTask ds now (fun _ _ => false) task = scheduleRetry ds now task reason := by
  unfold processTask
  by_cases hexp : IsExpired task now = true
  · exact ⟨"task_expired", by simp [hexp]⟩
  · have hlen : users.length > 0 := by
      unfold resolveRecipients at hrec
      split_ifs at hrec with h
      · cases hrec
        exact h
      · cases hm : task.Message with
        | none => simp [hm] at hrec
        | some m =>
          simp [hm] at hrec
          subst hrec
          simp
    refine ⟨"all_users_failed", ?_⟩
    simp [hexp, hrec, successCount_all_fail, hlen]

theorem scheduleRetry_exhausted (ds : DeliverySystem) (now : Int) (task : DeliveryTask)
    (reason : String) (h : task.RetryCount ≥ ds.retryManager.maxRetries) :
    scheduleRetry ds now task reason =
      { ds with stats := { ds.stats with TotalFailed := ds.stats.TotalFailed + 1 } } := by
  simp [scheduleRetry, ScheduleRetry, h]

theorem scheduleRetry_room (ds : DeliverySystem) (now : Int) (task : DeliveryTask)
    (reason : String) (h : task.RetryCount < ds.retryManager.maxRetries)
    (hq : ds.retryManager.retryQueue.buf = []) (hcap : 0 < ds.retryManager.retryQueue.cap) :
    scheduleRetry ds now task reason =
      { ds with
        retryManager := { ds.retryManager with retryQueue := { ds.retryManager.retryQueue with
          buf := [{ OriginalTask := task, RetryCount := task.RetryCount + 1,
                    NextRetry := now + backoffDelay ds.retryManager task.RetryCount,
                    Reason := reason }] } },
        stats := { ds.stats with TotalRetried := ds.stats.TotalRetried + 1 } } := by
  have hnot : ¬ task.RetryCount ≥ ds.retryManager.maxRetries := by omega
  simp [scheduleRetry, ScheduleRetry, hnot, Chan.trySend, hq, hcap]

/-- The tick of the retry worker right after the only queued retry falls due
empties the queue and hands the task over with its new retry count. -/
theorem processRetries_one_due (rm : RetryManager) (rt : RetryTask)
    (hq : rm.retryQueue.buf = [rt]) :
    processRetries 2 (rt.NextRetry + 1) rm NewRetryWorker =
      some { rm := { rm with retryQueue := { rm.retryQueue with buf := [] } },
             rw := { workerChan :=
               { buf := [{ rt.OriginalTask with RetryCount := rt.RetryCount }], cap := 100 } },
             requeue := [], lost := [] } := by
  obtain ⟨⟨buf, cap⟩, m, b, x⟩ := rm
  simp only at hq
  subst hq
  have hdue : rt.NextRetry + 1 > rt.NextRetry := by omega
  simp only [processRetries, GetNextRetry, Chan.tryRecv, Chan.trySend, NewRetryWorker, hdue,
    if_true, List.length_nil, List.nil_append, Option.map_some']
  rfl

/-- One failing attempt below the retry limit: a retry is counted and the
task comes back with its retry count raised by one. -/
theorem failingAttempts_retry (j : Nat) (ds : DeliverySystem) (now : Int) (task : DeliveryTask)
    (users : List String) (hrec : resolveRecipients task = some users)
    (h : task.RetryCount < ds.retryManager.maxRetries)
    (hq : ds.retryManager.retryQueue.buf = []) (hcap : 0 < ds.retryManager.retryQueue.cap) :
    ∃ now1, failingAttempts (j + 1) ds now task =
      failingAttempts j
        { ds with stats := { ds.stats with TotalRetried := ds.stats.TotalRetried + 1 } }
        now1 { task with RetryCount := task.RetryCount + 1 } := by
  obtain ⟨reason, hpt⟩ := processTask_all_fail ds now task users hrec
  refine ⟨now + backoffDelay ds.retryManager task.RetryCount + 1, ?_⟩
  have hp := processRetries_one_due
    { ds.retryManager with retryQueue := { ds.retryManager.retryQueue with
        buf := [{ OriginalTask := task, RetryCount := task.RetryCount + 1,
                  NextRetry := now + backoffDelay ds.retryManager task.RetryCount,
                  Reason := reason }] } }
    { OriginalTask := task, RetryCount := task.RetryCount + 1,
      NextRetry := now + backoffDelay ds.retryManager task.RetryCount, Reason := reason } rfl
  simp only at hp
  rw [failingAttempts, hpt, scheduleRetry_room ds now task reason h hq hcap]
  simp only
  rw [hp]
  simp only
  congr 1
  obtain ⟨i, q, ⟨⟨buf, cap⟩, m, b, x⟩, bp, c, st⟩ := ds
  simp only at hq
  subst hq
  rfl

/-- One failing attempt at the retry limit: the task is counted as failed
and nothing is queued. -/
theorem failingAttempts_exhausted (j : Nat) (ds : DeliverySystem) (now : Int)
    (task : DeliveryTask) (users : List String) (hrec : resolveRecipients task = some users)
    (h : task.RetryCount ≥ ds.retryManager.maxRetries)
    (hq : ds.retryManager.retryQueue.buf = []) :
    failingAttempts (j + 1) ds now task =
      some ({ ds with stats := { ds.stats with TotalFailed := ds.stats.TotalFailed + 1 } },
            none) := by
  obtain ⟨reason, hpt⟩ := processTask_all_fail ds now task users hrec
  rw [failingAttempts, hpt, scheduleRetry_exhausted ds now task reason h]
  simp only [hq]


/-- The run of failing attempts from a task that still has `m` retries left. -/
theorem failingAttempts_remaining (n : Nat) (users : List String) :
    ∀ (m : Nat) (ds : DeliverySystem) (now : Int) (task : DeliveryTask),
    ds.retryManager.maxRetries = n → ds.retryManager.retryQueue.buf = [] →
    (0 < n → 0 < ds.retryManager.retryQueue.cap) →
    0 ≤ task.RetryCount → task.RetryCount + m = n → resolveRecipients task = some users →
    (∀ k : Nat, k ≤ m → ∃ ds1 t, failingAttempts k ds now task = some (ds1, some t) ∧
      t.RetryCount = task.RetryCount + k ∧
      ds1.stats.TotalRetried = ds.stats.TotalRetried + k ∧
      ds1.stats.TotalFailed = ds.stats.TotalFailed ∧
      ds1.stats.TotalDelivered = ds.stats.TotalDelivered ∧
      ds1.retryManager.retryQueue.buf = []) ∧
    (∀ extra : Nat, ∃ ds1, failingAttempts (m + 1 + extra) ds now task = some (ds1, none) ∧
      ds1.stats.TotalRetried = ds.stats.TotalRetried + m ∧
      ds1.stats.TotalFailed = ds.stats.TotalFailed + 1 ∧
      ds1.stats.TotalDelivered = ds.stats.TotalDelivered ∧
      ds1.retryManager.retryQueue.buf = []) := by
  intro m
  induction m with
  | zero =>
    intro ds now task hmax hq _ _ hrc hrec
    constructor
    · intro k hk
      have hk0 : k = 0 := by omega
      subst hk0
      exact ⟨ds, task, rfl, by simp, by simp, rfl, rfl, hq⟩
    · intro extra
      have hge : task.RetryCount ≥ ds.retryManager.maxRetries := by
        rw [hmax]
        simp at hrc
        omega
      refine ⟨{ ds with stats := { ds.stats with TotalFailed := ds.stats.TotalFailed + 1 } },
        ?_, ?_, ?_, ?_, ?_⟩
      · rw [show 0 + 1 + extra = extra + 1 by omega]
        exact failingAttempts_exhausted extra ds now task users hrec hge hq
      · simp
      · rfl
      · rfl
      · exact hq
  | succ m ih =>
    intro ds now task hmax hq hcap hnn hrc hrec
    push_cast at hrc
    have hlt : task.RetryCount < ds.retryManager.maxRetries := by
      rw [hmax]
      omega
    have hnpos : 0 < n := by omega
    have hroom := hcap hnpos
    have hstep := fun j => failingAttempts_retry j ds now task users hrec hlt hq hroom
    have hih := fun now1 => ih
      { ds with stats := { ds.stats with TotalRetried := ds.stats.TotalRetried + 1 } } now1
      { task with RetryCount := task.RetryCount + 1 } hmax hq hcap
      (by simp only; omega) (by simp only; omega)
      (by rw [resolveRecipients_retryCount]; exact hrec)
    constructor
    · intro k hk
      cases k with
      | zero => exact ⟨ds, task, rfl, by simp, by simp, rfl, rfl, hq⟩
      | succ k =>
        obtain ⟨now1, hnow1⟩ := hstep k
        obtain ⟨ds1, t, h1, h2, h3, h4, h5, h6⟩ := (hih now1).1 k (by omega)
        refine ⟨ds1, t, by rw [hnow1]; exact h1, ?_, ?_, h4, h5, h6⟩
        · simp only at h2
          push_cast
          omega
        · simp only at h3
          push_cast
          omega
    · intro extra
      obtain ⟨now1, hnow1⟩ := hstep (m + 1 + extra)
      obtain ⟨ds1, h1, h2, h3, h4, h5⟩ := (hih now1).2 extra
      refine ⟨ds1, ?_, ?_, h3, h4, h5⟩
      · rw [show m + 1 + 1 + extra = m + 1 + extra + 1 by omega, hnow1]
        exact h1
      · simp only at h2
        push_cast
        omega

/-- C10: with `maxRetries = n`, an empty retry queue that has room, and a
task of retry count 0 whose every delivery attempt fails for all recipients,
the first `n` attempts each schedule a retry (after `k ≤ n` attempts
TotalRetried has grown by `k`, TotalFailed not at all, and the task waits with
retry count `k`); attempt `n + 1` raises TotalFailed by exactly one, leaves
TotalRetried at `n` more than at the start, queues nothing, and no further
attempt follows however long the scenario runs. -/
theorem retry_exhaustion (n : Nat) (ds : DeliverySystem) (now : Int) (task : DeliveryTask)
    (users : List String) (hmax : ds.retryManager.maxRetries = n)
    (hq : ds.retryManager.retryQueue.buf = [])
    (hcap : 0 < n → 0 < ds.retryManager.retryQueue.cap)
    (hrc : task.RetryCount = 0) (hrec : resolveRecipients task = some users) :
    (∀ k : Nat, k ≤ n → ∃ ds1 t, failingAttempts k ds now task = some (ds1, some t) ∧
      t.RetryCount = k ∧
      ds1.stats.TotalRetried = ds.stats.TotalRetried + k ∧
      ds1.stats.TotalFailed = ds.stats.TotalFailed ∧
      ds1.stats.TotalDelivered = ds.stats.TotalDelivered ∧
      ds1.retryManager.retryQueue.buf = []) ∧
    (∀ extra : Nat, ∃ ds1, failingAttempts (n + 1 + extra) ds now task = some (ds1, none) ∧
      ds1.stats.TotalRetried = ds.stats.TotalRetried + n ∧
      ds1.stats.TotalFailed = ds.stats.TotalFailed + 1 ∧
      ds1.stats.TotalDelivered = ds.stats.TotalDelivered ∧
      ds1.retryManager.retryQueue.buf = []) := by
  have h := failingAttempts_remaining n users n ds now task hmax hq hcap (by omega)
    (by rw [hrc]; simp) hrec
  refine ⟨fun k hk => ?_, h.2⟩
  obtain ⟨ds1, t, h1, h2, h3⟩ := h.1 k hk
  exact ⟨ds1, t, h1, by rw [h2, hrc]; simp, h3⟩

/-- Witness for C10: the small system with `maxRetries = 2`; two retries,
then one failure. -/
theorem retry_exhaustion_witness :
    dsTwoRetries.retryManager.maxRetries = (2 : Nat) ∧
    dsTwoRetries.retryManager.retryQueue.buf = [] ∧
    (taskOfPriority 5).RetryCount = 0 ∧
    resolveRecipients (taskOfPriority 5) = some ["u1"] ∧
    (∃ ds1 t, failingAttempts 2 dsTwoRetries 0 (taskOfPriority 5) = some (ds1, some t) ∧
      t.RetryCount = (2 : Nat) ∧
      ds1.stats.TotalRetried = dsTwoRetries.stats.TotalRetried + (2 : Nat) ∧
      ds1.stats.TotalFailed = dsTwoRetries.stats.TotalFailed ∧
      ds1.stats.TotalDelivered = dsTwoRetries.stats.TotalDelivered ∧
      ds1.retryManager.retryQueue.buf = []) ∧
    (∃ ds1, failingAttempts (2 + 1 + 0) dsTwoRetries 0 (taskOfPriority 5) = some (ds1, none) ∧
      ds1.stats.TotalRetried = dsTwoRetries.stats.TotalRetried + (2 : Nat) ∧
      ds1.stats.TotalFailed = dsTwoRetries.stats.TotalFailed + 1 ∧
      ds1.stats.TotalDelivered = dsTwoRetries.stats.TotalDelivered ∧
      ds1.retryManager.retryQueue.buf = []) :=
  ⟨by decide, by decide, by decide, by decide,
   (retry_exhaustion 2 dsTwoRetries 0 (taskOfPriority 5) ["u1"] (by decide) (by decide)
      (fun _ => by decide) (by decide) (by decide)).1 2 (by decide),
   (retry_exhaustion 2 dsTwoRetries 0 (taskOfPriority 5) ["u1"] (by decide) (by decide)
      (fun _ => by decide) (by decide) (by decide)).2 0⟩


/-! ### Retry timing -/

theorem f64Round_of_pos {x : ℚ} (hx : 0 < x) : f64Round x = f64RoundPos x := by
  simp [f64Round, hx.ne', not_lt.mpr hx.le]

theorem f64Round_of_neg {x : ℚ} (hx : x < 0) : f64Round x = -f64RoundPos (-x) := by
  simp [f64Round, hx.ne, hx]

theorem f64ToInt64_intCast (n : Int) (h1 : -(2 ^ 63) ≤ n) (h2 : n < 2 ^ 63) :
    f64ToInt64 (n : ℚ) = n := by
  unfold f64ToInt64
  by_cases hn : (n : ℚ) < 0
  · have : ⌊-(n : ℚ)⌋ = -n := by
      rw [← Int.cast_neg, Int.floor_intCast]
    simp only [hn, if_true, this, neg_neg]
    rw [if_pos ⟨h1, h2⟩]
  · simp only [hn, if_false, Int.floor_intCast]
    rw [if_pos ⟨h1, h2⟩]

theorem pow2Duration_37 : pow2Duration 37 = 137438953472 := by
  have h := f64Round_representable 1 37 (by norm_num) (by norm_num)
  have h2 : f64Round ((2 : ℚ) ^ (37 : Int)) = ((137438953472 : Int) : ℚ) := by
    rw [show ((2 : ℚ) ^ (37 : Int)) = ((1 : Int) : ℚ) * 2 ^ (37 : Int) by simp, h]
    norm_num
  simp only [pow2Duration, mathPow2, show ¬ ((1023 : Int) < 37) by decide, if_false, h2]
  exact f64ToInt64_intCast _ (by norm_num) (by norm_num)

theorem f64Round_tenth : f64Round (1 / 10) = 7205759403792794 * 2 ^ (-56 : Int) := by
  rw [f64Round_of_pos (by norm_num)]
  have := f64RoundPos_eval (1 / 10) (-4) 7205759403792794 (by norm_num) (by norm_num)
    (by norm_num) (by norm_num) (by norm_num)
  rw [this]
  norm_num

theorem jitterFactor_37 : jitterFactor 37 = 1801439850948198 * 2 ^ (-52 : Int) := by
  have h7 : f64OfInt ((37 : Int).tmod 10) = 7 := by
    have := f64Round_intCast 7 (by norm_num)
    simpa [f64OfInt] using this
  have h14 : f64Mul 2 7 = 14 := by
    have := f64Round_intCast 14 (by norm_num)
    simp only [f64Mul]
    norm_num at this ⊢
    exact this
  have hdiv : f64Div 14 10 = 6305039478318694 * 2 ^ (-52 : Int) := by
    simp only [f64Div]
    rw [f64Round_of_pos (by norm_num)]
    have := f64RoundPos_eval (14 / 10) 0 6305039478318694 (by norm_num) (by norm_num)
      (by norm_num) (by norm_num) (by norm_num)
    rw [this]
    norm_num
  have hsub : f64Sub (6305039478318694 * 2 ^ (-52 : Int)) 1
      = 1801439850948198 * 2 ^ (-52 : Int) := by
    have := f64Round_representable 1801439850948198 (-52) (by norm_num) (by norm_num)
    simp only [f64Sub]
    rw [show (6305039478318694 : ℚ) * 2 ^ (-52 : Int) - 1
      = ((1801439850948198 : Int) : ℚ) * 2 ^ (-52 : Int) by norm_num, this]
    norm_num
  simp only [jitterFactor, h7, h14, hdiv, hsub]

/-- C6 (failing input): with 40 retries allowed, a base of 100 ms and a cap
of 5 s, the delay computed for retry count 37 is negative: `2^37 * 10^8 ns`
overflows `int64`, the wrapped product is below the cap and is kept. The
claimed interval is `[4.5 s, 5.5 s]`; ScheduleRetry places the retry before
the current time. -/
theorem backoff_delay_overflows_at_37 :
    backoffDelay rmForty 37 = -4890962675569933664 ∧
    ¬ ((9 / 10 : ℚ) * min ((100000000 : ℚ) * 2 ^ 37) 5000000000
        ≤ ((backoffDelay rmForty 37 : Int) : ℚ)) ∧
    ScheduleRetry rmForty 1000 { taskOfPriority 5 with RetryCount := 37 } "all_users_failed" =
      (true, { rmForty with
        retryQueue :=
          { buf := [{ OriginalTask := { taskOfPriority 5 with RetryCount := 37 },
                      RetryCount := 38, NextRetry := 1000 + -4890962675569933664,
                      Reason := "all_users_failed" }],
            cap := 4000 } }) := by
  have hd0 : wrap64 (137438953472 * 100000000) = -4702848726509551616 := by
    norm_num [wrap64]
  have hx1 : f64OfInt (-4702848726509551616) = -4702848726509551616 := by
    have := f64Round_representable (-133663) 45 (by norm_num) (by norm_num)
    simp only [f64OfInt]
    rw [show (((-4702848726509551616 : Int)) : ℚ) = ((-133663 : Int) : ℚ) * 2 ^ (45 : Int) by
      norm_num, this]
    norm_num
  have hp1 : f64Mul (-4702848726509551616) (7205759403792794 * 2 ^ (-56 : Int))
      = -470284872650955200 := by
    simp only [f64Mul]
    rw [f64Round_of_neg (by norm_num)]
    have := f64RoundPos_eval
      (-((-4702848726509551616 : ℚ) * (7205759403792794 * 2 ^ (-56 : Int)))) 58
      7348201135171175 (by norm_num) (by norm_num) (by norm_num) (by norm_num) (by norm_num)
    rw [this]
    norm_num
  have hp2 : f64Mul (-470284872650955200) (1801439850948198 * 2 ^ (-52 : Int))
      = ((-188113949060382048 : Int) : ℚ) := by
    simp only [f64Mul]
    rw [f64Round_of_neg (by norm_num)]
    have := f64RoundPos_eval
      (-((-470284872650955200 : ℚ) * (1801439850948198 * 2 ^ (-52 : Int)))) 57
      5878560908136939 (by norm_num) (by norm_num) (by norm_num) (by norm_num) (by norm_num)
    rw [this]
    norm_num
  have hj : f64ToInt64 ((-188113949060382048 : Int) : ℚ) = -188113949060382048 :=
    f64ToInt64_intCast _ (by norm_num) (by norm_num)
  have hdelay : backoffDelay rmForty 37 = -4890962675569933664 := by
    simp only [backoffDelay, rmForty, pow2Duration_37, hd0, f64Round_tenth, jitterFactor_37]
    rw [if_neg (by norm_num), hx1, hp1, hp2, hj]
    norm_num [wrap64]
  refine ⟨hdelay, ?_, ?_⟩
  · rw [hdelay]
    norm_num
  · have hnot : ¬ ((37 : Int) ≥ 40) := by decide
    simp only [ScheduleRetry, hnot, if_false, hdelay, Chan.trySend]
    rfl


/-! ### Counter accounting -/

theorem inboxLoad_nil : inboxLoad [] = 0 := rfl

theorem inboxLoad_cons (c : Chan DeliveryTask) (qs : List (Chan DeliveryTask)) :
    inboxLoad (c :: qs) = c.buf.length + inboxLoad qs := by
  simp [inboxLoad]

theorem inboxLoad_append (qs rs : List (Chan DeliveryTask)) :
    inboxLoad (qs ++ rs) = inboxLoad qs + inboxLoad rs := by
  simp [inboxLoad]

theorem inboxLoad_set (qs : List (Chan DeliveryTask)) (i : Nat) (c d : Chan DeliveryTask)
    (h : qs[i]? = some c) :
    inboxLoad (qs.set i d) = inboxLoad qs - c.buf.length + d.buf.length := by
  induction qs generalizing i with
  | nil => simp at h
  | cons q rest ih =>
    cases i with
    | zero =>
      simp at h
      subst h
      simp [inboxLoad_cons]
      omega
    | succ j =>
      simp at h
      have := ih j h
      simp only [List.set_cons_succ, inboxLoad_cons, this]
      omega

theorem trySend_length {α : Type} (c d : Chan α) (x : α) (h : c.trySend x = some d) :
    d.buf.length = c.buf.length + 1 := by
  unfold Chan.trySend at h
  split_ifs at h
  cases h
  simp

theorem tryRecv_length {α : Type} (c d : Chan α) (x : α) (h : c.tryRecv = some (x, d)) :
    c.buf.length = d.buf.length + 1 := by
  unfold Chan.tryRecv at h
  cases hb : c.buf with
  | nil => simp [hb] at h
  | cons y rest =>
    simp [hb] at h
    obtain ⟨_, h2⟩ := h
    subst h2
    simp

theorem offerToOthers_load (task : DeliveryTask) (skip : Nat) :
    ∀ (qs : List (Chan DeliveryTask)) (i : Nat) (rs : List (Chan DeliveryTask)),
    offerToOthers task skip i qs = some rs → inboxLoad rs = inboxLoad qs + 1 := by
  intro qs
  induction qs with
  | nil => intro i rs h; simp [offerToOthers] at h
  | cons c rest ih =>
    intro i rs h
    simp only [offerToOthers] at h
    split_ifs at h with hs
    · rw [Option.map_eq_some'] at h
      obtain ⟨r, hr, hrs⟩ := h
      subst hrs
      simp [inboxLoad_cons, ih _ _ hr]
      omega
    · cases hc : c.trySend task with
      | some c1 =>
        simp [hc] at h
        subst h
        have := trySend_length c c1 task hc
        simp [inboxLoad_cons, this]
        omega
      | none =>
        simp only [hc] at h
        rw [Option.map_eq_some'] at h
        obtain ⟨r, hr, hrs⟩ := h
        subst hrs
        simp [inboxLoad_cons, ih _ _ hr]
        omega

theorem DispatchTask_load (qm qm1 : QueueManager) (task : DeliveryTask) (b : Bool)
    (h : DispatchTask qm task = (b, qm1)) :
    (qm1.highQueue.buf.length : Int) + qm1.normalQueue.buf.length + qm1.lowQueue.buf.length
      = qm.highQueue.buf.length + qm.normalQueue.buf.length + qm.lowQueue.buf.length
        + (if b then 1 else 0) ∧
    qm1.workerQueues = qm.workerQueues := by
  unfold DispatchTask at h
  split_ifs at h with h3 h7
  · cases hc : qm.highQueue.trySend task with
    | some c =>
      simp [hc] at h
      obtain ⟨hb, hq⟩ := h
      subst hb hq
      simp [trySend_length _ _ _ hc]
      omega
    | none =>
      simp [hc] at h
      obtain ⟨hb, hq⟩ := h
      subst hb hq
      simp
  · cases hc : qm.normalQueue.trySend task with
    | some c =>
      simp [hc] at h
      obtain ⟨hb, hq⟩ := h
      subst hb hq
      simp [trySend_length _ _ _ hc]
      omega
    | none =>
      simp [hc] at h
      obtain ⟨hb, hq⟩ := h
      subst hb hq
      simp
  · cases hc : qm.lowQueue.trySend task with
    | some c =>
      simp [hc] at h
      obtain ⟨hb, hq⟩ := h
      subst hb hq
      simp [trySend_length _ _ _ hc]
      omega
    | none =>
      simp [hc] at h
      obtain ⟨hb, hq⟩ := h
      subst hb hq
      simp

theorem GetNextTask_load (qm qm1 : QueueManager) (task : DeliveryTask)
    (h : GetNextTask qm = (some task, qm1)) :
    (qm.highQueue.buf.length : Int) + qm.normalQueue.buf.length + qm.lowQueue.buf.length
      = qm1.highQueue.buf.length + qm1.normalQueue.buf.length + qm1.lowQueue.buf.length + 1 ∧
    qm1.workerQueues = qm.workerQueues := by
  unfold GetNextTask at h
  cases hh : qm.highQueue.tryRecv with
  | some p =>
    obtain ⟨t, q⟩ := p
    simp [hh] at h
    obtain ⟨_, h2⟩ := h
    subst h2
    simp [tryRecv_length _ _ _ hh]
    omega
  | none =>
    simp only [hh] at h
    cases hn : qm.normalQueue.tryRecv with
    | some p =>
      obtain ⟨t, q⟩ := p
      simp [hn] at h
      obtain ⟨_, h2⟩ := h
      subst h2
      simp [tryRecv_length _ _ _ hn]
      omega
    | none =>
      simp only [hn] at h
      cases hl : qm.lowQueue.tryRecv with
      | some p =>
        obtain ⟨t, q⟩ := p
        simp [hl] at h
        obtain ⟨_, h2⟩ := h
        subst h2
        simp [tryRecv_length _ _ _ hl]
        omega
      | none => simp [hl] at h

theorem DistributeToWorkers_load (qm qm1 : QueueManager) (now : Int) (task : DeliveryTask)
    (b : Bool) (h : DistributeToWorkers qm now task = some (b, qm1)) :
    qm1.highQueue = qm.highQueue ∧ qm1.normalQueue = qm.normalQueue ∧
    qm1.lowQueue = qm.lowQueue ∧
    inboxLoad qm1.workerQueues = inboxLoad qm.workerQueues + (if b then 1 else 0) := by
  unfold DistributeToWorkers at h
  by_cases h0 : qm.workerCount = 0
  · rw [if_pos h0] at h
    cases h
    simp
  · rw [if_neg h0] at h
    simp only at h
    by_cases hneg : now.tmod qm.workerCount < 0
    · rw [if_pos hneg] at h
      cases h
    · rw [if_neg hneg] at h
      cases hget : qm.workerQueues.get? (now.tmod qm.workerCount).toNat with
      | none =>
        rw [hget] at h
        cases h
      | some target =>
        rw [hget] at h
        simp only at h
        cases hsend : target.trySend task with
        | some c =>
          rw [hsend] at h
          cases h
          have hlen := trySend_length _ _ _ hsend
          have hset := inboxLoad_set qm.workerQueues _ target c
            (by rw [← List.get?_eq_getElem?]; exact hget)
          simp [hset, hlen]
          omega
        | none =>
          rw [hsend] at h
          simp only at h
          by_cases hshort : (qm.workerQueues.length : Int) < qm.workerCount
          · rw [if_pos hshort] at h
            cases hoff : offerToOthers task (now.tmod qm.workerCount).toNat 0
                qm.workerQueues with
            | none =>
              rw [hoff] at h
              cases h
            | some qs =>
              rw [hoff] at h
              cases h
              simp [offerToOthers_load _ _ _ _ _ hoff]
          · rw [if_neg hshort] at h
            cases hoff : offerToOthers task (now.tmod qm.workerCount).toNat 0
                (qm.workerQueues.take qm.workerCount.toNat) with
            | none =>
              rw [hoff] at h
              cases h
              simp
            | some qs =>
              rw [hoff] at h
              cases h
              have h1 := offerToOthers_load _ _ _ _ _ hoff
              have h2 : inboxLoad qm.workerQueues
                  = inboxLoad (qm.workerQueues.take qm.workerCount.toNat)
                    + inboxLoad (qm.workerQueues.drop qm.workerCount.toNat) := by
                rw [← inboxLoad_append, List.take_append_drop]
              simp [inboxLoad_append, h1, h2]
              omega

theorem dispatchToWorker_load (ds : DeliverySystem) (now : Int) (task : DeliveryTask)
    (d : WorkerDispatch) (h : dispatchToWorker ds now task = some d) :
    d.ds.inputChan = ds.inputChan ∧ d.ds.stats = ds.stats ∧
    d.ds.retryManager = ds.retryManager ∧
    d.ds.queueManager.highQueue = ds.queueManager.highQueue ∧
    d.ds.queueManager.normalQueue = ds.queueManager.normalQueue ∧
    d.ds.queueManager.lowQueue = ds.queueManager.lowQueue ∧
    inboxLoad d.ds.queueManager.workerQueues + d.held.toList.length
      = inboxLoad ds.queueManager.workerQueues + 1 := by
  unfold dispatchToWorker at h
  simp only at h
  by_cases h0 : ds.queueManager.workerQueues.length = 0
  · rw [if_pos h0] at h
    cases h
  · rw [if_neg h0] at h
    by_cases hneg : now.tmod ds.queueManager.workerQueues.length < 0
    · rw [if_pos hneg] at h
      cases h
    · rw [if_neg hneg] at h
      cases hget : ds.queueManager.workerQueues.get?
          (now.tmod ds.queueManager.workerQueues.length).toNat with
      | none =>
        rw [hget] at h
        cases h
      | some target =>
        rw [hget] at h
        simp only at h
        cases hsend : target.trySend task with
        | some c =>
          rw [hsend] at h
          cases h
          have hlen := trySend_length _ _ _ hsend
          have hset := inboxLoad_set ds.queueManager.workerQueues _ target c
            (by rw [← List.get?_eq_getElem?]; exact hget)
          simp [hset, hlen]
          omega
        | none =>
          rw [hsend] at h
          simp only at h
          cases hoff : offerToOthers task
              (now.tmod ds.queueManager.workerQueues.length).toNat 0
              ds.queueManager.workerQueues with
          | none =>
            rw [hoff] at h
            cases h
            simp
          | some qs =>
            rw [hoff] at h
            cases h
            simp [offerToOthers_load _ _ _ _ _ hoff]

theorem ScheduleRetry_load (rm rm1 : RetryManager) (now : Int) (task : DeliveryTask)
    (reason : String) (ok : Bool) (h : ScheduleRetry rm now task reason = (ok, rm1)) :
    (rm1.retryQueue.buf.length : Int)
      = rm.retryQueue.buf.length + (if ok then 1 else 0) := by
  unfold ScheduleRetry at h
  by_cases hmax : task.RetryCount ≥ rm.maxRetries
  · rw [if_pos hmax] at h
    cases h
    simp
  · rw [if_neg hmax] at h
    simp only at h
    cases hsend : rm.retryQueue.trySend
        { OriginalTask := task, RetryCount := task.RetryCount + 1,
          NextRetry := now + backoffDelay rm task.RetryCount, Reason := reason } with
    | some q =>
      rw [hsend] at h
      cases h
      simp [trySend_length _ _ _ hsend]
    | none =>
      rw [hsend] at h
      cases h
      simp

theorem scheduleRetry_load (ds : DeliverySystem) (now : Int) (task : DeliveryTask)
    (reason : String) :
    (scheduleRetry ds now task reason).inputChan = ds.inputChan ∧
    (scheduleRetry ds now task reason).queueManager = ds.queueManager ∧
    (scheduleRetry ds now task reason).stats.TotalReceived = ds.stats.TotalReceived ∧
    (scheduleRetry ds now task reason).stats.TotalDelivered = ds.stats.TotalDelivered ∧
    (scheduleRetry ds now task reason).stats.TotalFailed
      + (scheduleRetry ds now task reason).retryManager.retryQueue.buf.length
      = ds.stats.TotalFailed + ds.retryManager.retryQueue.buf.length + 1 := by
  unfold scheduleRetry
  rcases hS : ScheduleRetry ds.retryManager now task reason with ⟨ok, rm1⟩
  have hl := ScheduleRetry_load _ _ _ _ _ _ hS
  cases ok
  · simp at hl ⊢
    omega
  · simp at hl ⊢
    omega

theorem processTask_load (ds : DeliverySystem) (now : Int) (deliver : Nat → String → Bool)
    (task : DeliveryTask) :
    (processTask ds now deliver task).inputChan = ds.inputChan ∧
    (processTask ds now deliver task).queueManager = ds.queueManager ∧
    (processTask ds now deliver task).stats.TotalReceived = ds.stats.TotalReceived ∧
    (processTask ds now deliver task).stats.TotalDelivered
      + (processTask ds now deliver task).stats.TotalFailed
      + (processTask ds now deliver task).retryManager.retryQueue.buf.length
      + (if taskOutcome now deliver task = .noRecipients then 1 else 0)
      = ds.stats.TotalDelivered + ds.stats.TotalFailed
        + ds.retryManager.retryQueue.buf.length + 1 := by
  unfold processTask taskOutcome
  by_cases hexp : IsExpired task now = true
  · have := scheduleRetry_load ds now task "task_expired"
    simp only [hexp, if_true]
    obtain ⟨h1, h2, h3, h4, h5⟩ := this
    refine ⟨h1, h2, h3, ?_⟩
    simp
    omega
  · simp only [hexp]
    cases hrec : resolveRecipients task with
    | none => simp
    | some users =>
      by_cases hcount : successCount deliver users > 0
      · have hne : ¬ successCount deliver users = 0 := by omega
        simp [hcount, hne]
        omega
      · have hz : successCount deliver users = 0 := by omega
        by_cases hlen : users.length > 0
        · have := scheduleRetry_load ds now task "all_users_failed"
          obtain ⟨h1, h2, h3, h4, h5⟩ := this
          simp [hz, hlen]
          refine ⟨h1, h2, h3, ?_⟩
          omega
        · exfalso
          apply hlen
          unfold resolveRecipients at hrec
          split_ifs at hrec with h
          · cases hrec
            exact h
          · cases hm : task.Message with
            | none => simp [hm] at hrec
            | some m =>
              simp [hm] at hrec
              subst hrec
              simp

theorem GetNextRetry_load (now : Int) : ∀ (fuel : Nat) (rm : RetryManager) (r : NextRetry),
    GetNextRetry fuel now rm = some r →
    (rm.retryQueue.buf.length : Int)
      = r.rm.retryQueue.buf.length + r.task.toList.length + r.lost.length := by
  intro fuel
  induction fuel with
  | zero => intro rm r h; simp [GetNextRetry] at h
  | succ n ih =>
    intro rm r h
    simp only [GetNextRetry] at h
    cases hrecv : rm.retryQueue.tryRecv with
    | none =>
      rw [hrecv] at h
      cases h
      simp
    | some p =>
      obtain ⟨task, q⟩ := p
      rw [hrecv] at h
      simp only at h
      have hlen := tryRecv_length _ _ _ hrecv
      by_cases hdue : now > task.NextRetry
      · rw [if_pos hdue] at h
        cases h
        simp [hlen]
      · rw [if_neg hdue] at h
        cases hsend : q.trySend task with
        | some q1 =>
          rw [hsend] at h
          have := ih _ r h
          have hl2 := trySend_length _ _ _ hsend
          simp only at this
          omega
        | none =>
          rw [hsend] at h
          simp only at h
          rw [Option.map_eq_some'] at h
          obtain ⟨r0, hr0, hr⟩ := h
          subst hr
          have := ih _ r0 hr0
          simp only at this
          simp
          omega

theorem processRetries_load (now : Int) :
    ∀ (fuel : Nat) (rm : RetryManager) (rw : RetryWorker) (p : RetryPass),
    processRetries fuel now rm rw = some p →
    (rm.retryQueue.buf.length : Int) + rw.workerChan.buf.length
      = p.rm.retryQueue.buf.length + p.rw.workerChan.buf.length + p.requeue.length
        + p.lost.length := by
  intro fuel
  induction fuel with
  | zero => intro rm rw p h; simp [processRetries] at h
  | succ n ih =>
    intro rm rw p h
    simp only [processRetries] at h
    rcases hg : GetNextRetry (n + 1) now rm with _ | r
    · simp [hg] at h
    · have hl := GetNextRetry_load now _ rm r hg
      rw [hg] at h
      simp only at h
      rcases hrt : r.task with _ | retryTask
      · simp [hrt] at h
        subst h
        simp [hrt] at hl ⊢
        omega
      · simp only [hrt] at h
        simp [hrt] at hl
        cases hsend : rw.workerChan.trySend
            { retryTask.OriginalTask with RetryCount := retryTask.RetryCount } with
        | some ch =>
          rw [hsend] at h
          simp only at h
          rw [Option.map_eq_some'] at h
          obtain ⟨p0, hp0, hp⟩ := h
          subst hp
          have := ih _ _ p0 hp0
          have hl2 := trySend_length _ _ _ hsend
          simp only at this
          simp
          omega
        | none =>
          rw [hsend] at h
          simp only at h
          rw [Option.map_eq_some'] at h
          obtain ⟨p0, hp0, hp⟩ := h
          subst hp
          have := ih _ _ p0 hp0
          simp
          omega

theorem rescheduleAll_load (now : Int) : ∀ (l : List RetryTask) (rm : RetryManager),
    ((rescheduleAll now l rm).1.retryQueue.buf.length : Int) + (rescheduleAll now l rm).2
      = rm.retryQueue.buf.length + l.length := by
  intro l
  induction l with
  | nil => intro rm; simp [rescheduleAll]
  | cons t rest ih =>
    intro rm
    simp only [rescheduleAll]
    rcases hS : rescheduleAfterTimeout rm now t with ⟨ok, rm1⟩
    have hl := ScheduleRetry_load _ _ _ _ _ _ hS
    have := ih rm1
    cases ok
    · simp at hl ⊢
      omega
    · simp at hl ⊢
      omega

theorem initWorkers_load : ∀ (n : Nat) (qm : QueueManager),
    (initWorkers n qm).highQueue = qm.highQueue ∧
    (initWorkers n qm).normalQueue = qm.normalQueue ∧
    (initWorkers n qm).lowQueue = qm.lowQueue ∧
    inboxLoad (initWorkers n qm).workerQueues = inboxLoad qm.workerQueues := by
  intro n
  induction n with
  | zero => intro qm; simp [initWorkers]
  | succ k ih =>
    intro qm
    obtain ⟨h1, h2, h3, h4⟩ := ih (AddWorker qm { buf := [], cap := 100 })
    simp only [initWorkers]
    refine ⟨h1, h2, h3, ?_⟩
    rw [h4]
    simp [AddWorker, inboxLoad_append, inboxLoad_cons, inboxLoad_nil]

theorem makeChan_buf {α : Type} (n : Int) (c : Chan α) (h : makeChan α n = some c) :
    c.buf = [] := by
  unfold makeChan at h
  split_ifs at h
  cases h
  rfl

theorem NewDeliverySystemWithConfig_accounted (config : DeliveryConfig) (now : Int)
    (ds : DeliverySystem) (h : NewDeliverySystemWithConfig config now = some ds) :
    Accounted (Pipeline.start ds) := by
  unfold NewDeliverySystemWithConfig at h
  simp only [Option.bind_eq_bind, Option.bind_eq_some, Option.pure_def] at h
  obtain ⟨input, hinput, qm, hqm, rm, hrm, h⟩ := h
  unfold NewQueueManager at hqm
  simp only [Option.bind_eq_bind, Option.bind_eq_some, Option.pure_def, Option.some.injEq] at hqm
  obtain ⟨e, he, hi, hhi, no, hno, lo, hlo, hqm⟩ := hqm
  unfold NewRetryManager at hrm
  split_ifs at hrm with hcap
  cases hrm
  split_ifs at h with hw
  cases h
  subst hqm
  obtain ⟨h1, h2, h3, h4⟩ := initWorkers_load config.WorkerCount.toNat
    { entryQueue := e, highQueue := hi, normalQueue := no, lowQueue := lo,
      workerQueues := [], workerCount := 0,
      config := { EntryQueueSize := config.QueueLimit,
                  PriorityQueueSize := config.QueueLimit.tdiv 3, WorkerQueueSize := 100,
                  MaxWorkers := wrap64 (config.WorkerCount * 2), MinWorkers := 2,
                  QueueTimeout := 5 * 1000000000 } }
  simp only [Accounted, inFlight, Pipeline.start, NewRetryWorker, h1, h2, h3, h4,
    makeChan_buf _ _ hinput, makeChan_buf _ _ hhi, makeChan_buf _ _ hno, makeChan_buf _ _ hlo,
    inboxLoad_nil]
  simp

theorem SubmitTask_accounted (p : Pipeline) (pressure : MemoryPressure) (now : Int)
    (newID : String) (task : DeliveryTask) (h : Accounted p) :
    Accounted { p with
      ds := (SubmitTask p.ds pressure now newID task).2,
      refused := p.refused
        + (if (SubmitTask p.ds pressure now newID task).1 = none then 0 else 1) } := by
  unfold Accounted inFlight at h ⊢
  unfold SubmitTask
  rcases hsa : ShouldAccept p.ds.backpressure pressure task with ⟨ok, bp⟩
  cases ok
  · simp
    omega
  · simp only
    cases hsend : p.ds.inputChan.trySend (withDefaults p.ds now newID task) with
    | some ch =>
      have := trySend_length _ _ _ hsend
      simp [this]
      omega
    | none =>
      simp
      omega

theorem runMainLoopStep_accounted (p : Pipeline) (ds1 : DeliverySystem)
    (hs : runMainLoopStep p.ds = some ds1) (h : Accounted p) :
    Accounted { p with ds := ds1 } := by
  unfold Accounted inFlight at h ⊢
  unfold runMainLoopStep at hs
  cases hrecv : p.ds.inputChan.tryRecv with
  | none =>
    rw [hrecv] at hs
    cases hs
  | some x =>
    obtain ⟨task, ch⟩ := x
    rw [hrecv] at hs
    simp only at hs
    have hlen := tryRecv_length _ _ _ hrecv
    rcases hd : DispatchTask p.ds.queueManager task with ⟨ok, qm⟩
    obtain ⟨hl, hw⟩ := DispatchTask_load _ _ _ _ hd
    rw [hd] at hs
    cases ok
    · simp only at hs
      cases hs
      simp at hl ⊢
      rw [hw]
      omega
    · simp only at hs
      cases hs
      simp at hl ⊢
      rw [hw]
      omega

theorem processQueueBacklogStep_accounted (p : Pipeline) (now : Int) (ds1 : DeliverySystem)
    (hs : processQueueBacklogStep p.ds now = some (ds1, false))
    (h : Accounted p) :
    Accounted { p with ds := ds1 } := by
  unfold Accounted inFlight at h ⊢
  unfold processQueueBacklogStep at hs
  rcases hg : GetNextTask p.ds.queueManager with ⟨t, qm⟩
  rw [hg] at hs
  cases t with
  | none => cases hs
  | some task =>
    simp only at hs
    obtain ⟨hl, hw⟩ := GetNextTask_load _ _ _ hg
    cases hdist : DistributeToWorkers qm now task with
    | none =>
      rw [hdist] at hs
      cases hs
    | some x =>
      obtain ⟨ok, qm1⟩ := x
      rw [hdist] at hs
      obtain ⟨d1, d2, d3, d4⟩ := DistributeToWorkers_load _ _ _ _ _ hdist
      cases ok
      · simp only at hs
        rcases hd : DispatchTask qm1 task with ⟨ok2, qm2⟩
        obtain ⟨hl2, hw2⟩ := DispatchTask_load _ _ _ _ hd
        rw [hd] at hs
        cases ok2
        · simp only [Option.some.injEq, Prod.mk.injEq, Bool.true_eq_false, and_false] at hs
        · simp only at hs
          cases hs
          simp at hl2 d4 ⊢
          rw [hw2, d4, hw]
          rw [d1, d2, d3] at hl2
          omega
      · simp only at hs
        cases hs
        simp at d4 ⊢
        rw [d1, d2, d3, d4, hw]
        omega

theorem workerStep_accounted (p : Pipeline) (i : Nat) (now : Int)
    (deliver : Nat → String → Bool) (ds1 : DeliverySystem) (task : DeliveryTask)
    (hs : workerStep p.ds i now deliver = some (ds1, task))
    (hrec : taskOutcome now deliver task ≠ .noRecipients) (h : Accounted p) :
    Accounted { p with ds := ds1 } := by
  unfold Accounted inFlight at h ⊢
  unfold workerStep at hs
  cases hget : p.ds.queueManager.workerQueues.get? i with
  | none =>
    rw [hget] at hs
    cases hs
  | some inbox =>
    rw [hget] at hs
    simp only at hs
    cases hrecv : inbox.tryRecv with
    | none =>
      rw [hrecv] at hs
      cases hs
    | some x =>
      obtain ⟨t, inbox1⟩ := x
      rw [hrecv] at hs
      simp only [Option.some.injEq, Prod.mk.injEq] at hs
      obtain ⟨hds, ht⟩ := hs
      subst ht
      have hlen := tryRecv_length _ _ _ hrecv
      have hset := inboxLoad_set p.ds.queueManager.workerQueues i inbox inbox1
        (by rw [← List.get?_eq_getElem?]; exact hget)
      obtain ⟨p1, p2, p3, p4⟩ := processTask_load
        { p.ds with queueManager :=
            { p.ds.queueManager with
              workerQueues := p.ds.queueManager.workerQueues.set i inbox1 } }
        now deliver t
      rw [hds] at p1 p2 p3 p4
      simp only [hrec, if_false] at p1 p2 p3 p4
      simp only [p1, p2, p3, hset]
      omega

theorem retryTick_accounted (p : Pipeline) (fuel : Nat) (now : Int) (r : RetryPass)
    (hs : processRetries fuel now p.ds.retryManager p.rw = some r)
    (hlost : r.lost = []) (hre : (rescheduleAll now r.requeue r.rm).2 = 0)
    (h : Accounted p) :
    Accounted { p with
      ds := { p.ds with retryManager := (rescheduleAll now r.requeue r.rm).1 },
      rw := r.rw } := by
  unfold Accounted inFlight at h ⊢
  have h1 := processRetries_load now fuel _ _ r hs
  have h2 := rescheduleAll_load now r.requeue r.rm
  rw [hlost] at h1
  rw [hre] at h2
  simp only [List.length_nil, Nat.cast_zero, add_zero] at h1 h2
  simp only
  omega

theorem retryDispatch_accounted (p : Pipeline) (now : Int) (task : DeliveryTask)
    (ch : Chan DeliveryTask) (d : WorkerDispatch)
    (hrecv : p.rw.workerChan.tryRecv = some (task, ch))
    (hd : dispatchToWorker p.ds now task = some d) (h : Accounted p) :
    Accounted { p with ds := d.ds, rw := { p.rw with workerChan := ch },
                       held := p.held ++ d.held.toList } := by
  unfold Accounted inFlight at h ⊢
  have hlen := tryRecv_length _ _ _ hrecv
  obtain ⟨d1, d2, d3, d4, d5, d6, d7⟩ := dispatchToWorker_load _ _ _ _ hd
  simp only [d1, d2, d3, d4, d5, d6, List.length_append]
  push_cast
  omega

theorem release_accounted (p : Pipeline) (task : DeliveryTask) (rest : List DeliveryTask)
    (ch : Chan DeliveryTask) (hheld : p.held = task :: rest)
    (hsend : p.ds.inputChan.trySend task = some ch) (h : Accounted p) :
    Accounted { p with ds := { p.ds with inputChan := ch }, held := rest } := by
  unfold Accounted inFlight at h ⊢
  have hlen := trySend_length _ _ _ hsend
  simp only [hheld, List.length_cons] at h
  simp only [hlen]
  push_cast at h ⊢
  omega

theorem Step_accounted (p q : Pipeline) (hs : Step p q) (h : Accounted p) : Accounted q := by
  cases hs with
  | submit pressure now newID task => exact SubmitTask_accounted p pressure now newID task h
  | mainLoop ds1 hs => exact runMainLoopStep_accounted p ds1 hs h
  | backlog now ds1 hs => exact processQueueBacklogStep_accounted p now ds1 hs h
  | worker i now deliver ds1 task hs hrec =>
    exact workerStep_accounted p i now deliver ds1 task hs hrec h
  | retryTick fuel now r hs hlost hre => exact retryTick_accounted p fuel now r hs hlost hre h
  | retryDispatch now task ch d hrecv hd => exact retryDispatch_accounted p now task ch d hrecv hd h
  | release task rest ch hheld hsend => exact release_accounted p task rest ch hheld hsend h

theorem dsSmall_constructed : NewDeliverySystemWithConfig cfgSmall 0 = some dsSmall := by
  decide

theorem pAfterRejection_reachable : Reachable pAfterRejection :=
  Reachable.step pAfterAccept pAfterRejection
    (Reachable.step (Pipeline.start dsSmall) pAfterAccept
      (Reachable.start cfgSmall 0 dsSmall dsSmall_constructed)
      (Step.submit (Pipeline.start dsSmall) .Critical 7 "id1" (taskOfPriority 5)))
    (Step.submit pAfterAccept .Critical 8 "id2" (taskOfPriority 5))

theorem pAfterDelivery_reachable : Reachable pAfterDelivery :=
  Reachable.step { pAfterAccept with ds := dsAfterBacklog } pAfterDelivery
    (Reachable.step { pAfterAccept with ds := dsAfterMainLoop }
      { pAfterAccept with ds := dsAfterBacklog }
      (Reachable.step pAfterAccept { pAfterAccept with ds := dsAfterMainLoop }
        (Reachable.step (Pipeline.start dsSmall) pAfterAccept
          (Reachable.start cfgSmall 0 dsSmall dsSmall_constructed)
          (Step.submit (Pipeline.start dsSmall) .Critical 7 "id1" (taskOfPriority 5)))
        (Step.mainLoop pAfterAccept dsAfterMainLoop (by decide)))
      (Step.backlog { pAfterAccept with ds := dsAfterMainLoop } 0 dsAfterBacklog (by decide)))
    (Step.worker { pAfterAccept with ds := dsAfterBacklog } 0 8 (fun _ _ => true)
      dsAfterDelivery
      { taskOfPriority 5 with ID := "t", CreatedAt := 7, Timeout := 30 * 1000000000 }
      (by decide) (by decide))

/-- C4, as stated, fails: after one accepted and one rejected submission the
small system has TotalReceived = 1, TotalDelivered = 0, TotalFailed = 1 and
one task in flight, so `1 ≠ 0 + 1 + 1`: SubmitTask counts a refused
submission in TotalFailed but not in TotalReceived. -/
theorem accounting_fails_after_rejected_submission :
    Reachable pAfterRejection ∧
    pAfterRejection.ds.stats.TotalReceived = 1 ∧
    pAfterRejection.ds.stats.TotalDelivered = 0 ∧
    pAfterRejection.ds.stats.TotalFailed = 1 ∧
    inFlight pAfterRejection = 1 ∧
    ¬ (pAfterRejection.ds.stats.TotalReceived
        = pAfterRejection.ds.stats.TotalDelivered + pAfterRejection.ds.stats.TotalFailed
          + inFlight pAfterRejection) := by
  refine ⟨pAfterRejection_reachable, by decide, by decide, by decide, by decide, by decide⟩

/-- C4 (amended): in every state reachable from a newly constructed system by
the steps of the pipeline (SubmitTask with any outcome, the main loop's
dispatch, the queue manager's hand-off to an inbox, a worker's processTask,
the retry worker's tick, dispatchToWorker, a waiting goroutine's send) in
which no task is let go without a counter being touched,
`TotalReceived + refused = TotalDelivered + TotalFailed + in_flight`, where
`refused` counts the submissions that SubmitTask refused (each of them is
counted in TotalFailed and not in TotalReceived). -/
theorem accounting_invariant (p : Pipeline) (h : Reachable p) :
    p.ds.stats.TotalReceived + p.refused
      = p.ds.stats.TotalDelivered + p.ds.stats.TotalFailed + inFlight p := by
  have hacc : Accounted p := by
    induction h with
    | start config now ds hnew => exact NewDeliverySystemWithConfig_accounted config now ds hnew
    | step p q _ hs ih => exact Step_accounted p q hs ih
  exact hacc

/-- Witness for C4: the state after one accepted and one rejected
submission satisfies the amended equation, `1 + 1 = 0 + 1 + 1`, and so does
the state after a task has been submitted, dispatched, handed to the worker
and delivered, `1 + 0 = 1 + 0 + 0`. -/
theorem accounting_invariant_witness :
    Reachable pAfterRejection ∧
    pAfterRejection.refused = 1 ∧
    pAfterRejection.ds.stats.TotalReceived + pAfterRejection.refused
      = pAfterRejection.ds.stats.TotalDelivered + pAfterRejection.ds.stats.TotalFailed
        + inFlight pAfterRejection ∧
    Reachable pAfterDelivery ∧
    pAfterDelivery.ds.stats.TotalDelivered = 1 ∧ inFlight pAfterDelivery = 0 ∧
    pAfterDelivery.ds.stats.TotalReceived + pAfterDelivery.refused
      = pAfterDelivery.ds.stats.TotalDelivered + pAfterDelivery.ds.stats.TotalFailed
        + inFlight pAfterDelivery :=
  ⟨pAfterRejection_reachable, by decide,
   accounting_invariant pAfterRejection pAfterRejection_reachable,
   pAfterDelivery_reachable, by decide, by decide,
   accounting_invariant pAfterDelivery pAfterDelivery_reachable⟩


/-! ### The priority buckets -/

/-- C11: DispatchTask chooses the bucket by priority. With a free place in
the chosen bucket it returns true and appends the task at the tail of the high
bucket for priority at most 3, of the normal bucket for priority 4 to 7, of
the low bucket for priority above 7 (8 to 10 included), and changes nothing
else; with the chosen bucket full it returns false and the manager is
unchanged. -/
theorem dispatch_task_selects_bucket (qm : QueueManager) (task : DeliveryTask) :
    (task.Priority ≤ 3 →
      (qm.highQueue.buf.length < qm.highQueue.cap →
        DispatchTask qm task = (true, { qm with highQueue :=
          { qm.highQueue with buf := qm.highQueue.buf ++ [task] } })) ∧
      (¬ qm.highQueue.buf.length < qm.highQueue.cap → DispatchTask qm task = (false, qm))) ∧
    (4 ≤ task.Priority → task.Priority ≤ 7 →
      (qm.normalQueue.buf.length < qm.normalQueue.cap →
        DispatchTask qm task = (true, { qm with normalQueue :=
          { qm.normalQueue with buf := qm.normalQueue.buf ++ [task] } })) ∧
      (¬ qm.normalQueue.buf.length < qm.normalQueue.cap →
        DispatchTask qm task = (false, qm))) ∧
    (8 ≤ task.Priority →
      (qm.lowQueue.buf.length < qm.lowQueue.cap →
        DispatchTask qm task = (true, { qm with lowQueue :=
          { qm.lowQueue with buf := qm.lowQueue.buf ++ [task] } })) ∧
      (¬ qm.lowQueue.buf.length < qm.lowQueue.cap → DispatchTask qm task = (false, qm))) := by
  refine ⟨fun h3 => ⟨fun hroom => ?_, fun hfull => ?_⟩,
    fun h4 h7 => ⟨fun hroom => ?_, fun hfull => ?_⟩,
    fun h8 => ⟨fun hroom => ?_, fun hfull => ?_⟩⟩
  · simp [DispatchTask, h3, Chan.trySend, hroom]
  · simp [DispatchTask, h3, Chan.trySend, hfull]
  · have hn3 : ¬ task.Priority ≤ 3 := by omega
    simp [DispatchTask, hn3, h7, Chan.trySend, hroom]
  · have hn3 : ¬ task.Priority ≤ 3 := by omega
    simp [DispatchTask, hn3, h7, Chan.trySend, hfull]
  · have hn3 : ¬ task.Priority ≤ 3 := by omega
    have hn7 : ¬ task.Priority ≤ 7 := by omega
    simp [DispatchTask, hn3, hn7, Chan.trySend, hroom]
  · have hn3 : ¬ task.Priority ≤ 3 := by omega
    have hn7 : ¬ task.Priority ≤ 7 := by omega
    simp [DispatchTask, hn3, hn7, Chan.trySend, hfull]

/-- Witness for C11: the empty buckets of the small system take the
priority-2 task into the high bucket; a second one finds it full. -/
theorem dispatch_task_selects_bucket_witness :
    tHigh.Priority ≤ 3 ∧
    dsSmall.queueManager.highQueue.buf.length < dsSmall.queueManager.highQueue.cap ∧
    DispatchTask dsSmall.queueManager tHigh = (true, { dsSmall.queueManager with highQueue :=
      { dsSmall.queueManager.highQueue with
        buf := dsSmall.queueManager.highQueue.buf ++ [tHigh] } }) :=
  ⟨by decide, by decide,
   ((dispatch_task_selects_bucket dsSmall.queueManager tHigh).1 (by decide)).1 (by decide)⟩

/-- C12: GetNextTask returns the head of the high bucket when it is
non-empty, else the head of the normal bucket, else the head of the low
bucket, removing exactly that task and changing nothing else; it returns none,
with the manager unchanged, exactly when all three buckets are empty. -/
theorem get_next_task_strict_priority (qm : QueueManager) :
    (∀ t rest, qm.highQueue.buf = t :: rest →
      GetNextTask qm = (some t, { qm with highQueue := { qm.highQueue with buf := rest } })) ∧
    (∀ t rest, qm.highQueue.buf = [] → qm.normalQueue.buf = t :: rest →
      GetNextTask qm
        = (some t, { qm with normalQueue := { qm.normalQueue with buf := rest } })) ∧
    (∀ t rest, qm.highQueue.buf = [] → qm.normalQueue.buf = [] → qm.lowQueue.buf = t :: rest →
      GetNextTask qm = (some t, { qm with lowQueue := { qm.lowQueue with buf := rest } })) ∧
    ((GetNextTask qm).1 = none ↔
      qm.highQueue.buf = [] ∧ qm.normalQueue.buf = [] ∧ qm.lowQueue.buf = []) ∧
    ((GetNextTask qm).1 = none → (GetNextTask qm).2 = qm) := by
  refine ⟨fun t rest hh => ?_, fun t rest hh hn => ?_, fun t rest hh hn hl => ?_, ?_, ?_⟩
  · simp [GetNextTask, Chan.tryRecv, hh]
  · simp [GetNextTask, Chan.tryRecv, hh, hn]
  · simp [GetNextTask, Chan.tryRecv, hh, hn, hl]
  · cases hh : qm.highQueue.buf with
    | cons t rest => simp [GetNextTask, Chan.tryRecv, hh]
    | nil =>
      cases hn : qm.normalQueue.buf with
      | cons t rest => simp [GetNextTask, Chan.tryRecv, hh, hn]
      | nil =>
        cases hl : qm.lowQueue.buf with
        | cons t rest => simp [GetNextTask, Chan.tryRecv, hh, hn, hl]
        | nil => simp [GetNextTask, Chan.tryRecv, hh, hn, hl]
  · cases hh : qm.highQueue.buf with
    | cons t rest => simp [GetNextTask, Chan.tryRecv, hh]
    | nil =>
      cases hn : qm.normalQueue.buf with
      | cons t rest => simp [GetNextTask, Chan.tryRecv, hh, hn]
      | nil =>
        cases hl : qm.lowQueue.buf with
        | cons t rest => simp [GetNextTask, Chan.tryRecv, hh, hn, hl]
        | nil => simp [GetNextTask, Chan.tryRecv, hh, hn, hl]
/-- Bucket of a task as DispatchTask chooses it. -/
theorem DispatchTask_high (qm : QueueManager) (t : DeliveryTask) (hp : t.Priority ≤ 3)
    (hroom : qm.highQueue.buf.length < qm.highQueue.cap) :
    DispatchTask qm t = (true, { qm with highQueue :=
      { qm.highQueue with buf := qm.highQueue.buf ++ [t] } }) := by
  simp [DispatchTask, hp, Chan.trySend, hroom]

theorem DispatchTask_normal (qm : QueueManager) (t : DeliveryTask) (hp3 : 3 < t.Priority)
    (hp7 : t.Priority ≤ 7) (hroom : qm.normalQueue.buf.length < qm.normalQueue.cap) :
    DispatchTask qm t = (true, { qm with normalQueue :=
      { qm.normalQueue with buf := qm.normalQueue.buf ++ [t] } }) := by
  have hn3 : ¬ t.Priority ≤ 3 := by omega
  simp [DispatchTask, hn3, hp7, Chan.trySend, hroom]

theorem DispatchTask_low (qm : QueueManager) (t : DeliveryTask) (hp7 : 7 < t.Priority)
    (hroom : qm.lowQueue.buf.length < qm.lowQueue.cap) :
    DispatchTask qm t = (true, { qm with lowQueue :=
      { qm.lowQueue with buf := qm.lowQueue.buf ++ [t] } }) := by
  have hn3 : ¬ t.Priority ≤ 3 := by omega
  have hn7 : ¬ t.Priority ≤ 7 := by omega
  simp [DispatchTask, hn3, hn7, Chan.trySend, hroom]

/-- Dispatching a sequence of tasks that fits appends to each bucket the
tasks of its priority class, in dispatch order. -/
theorem dispatchAll_buckets : ∀ (ts : List DeliveryTask) (qm : QueueManager),
    qm.highQueue.buf.length + (ts.filter inHigh).length ≤ qm.highQueue.cap →
    qm.normalQueue.buf.length + (ts.filter inNormal).length ≤ qm.normalQueue.cap →
    qm.lowQueue.buf.length + (ts.filter inLow).length ≤ qm.lowQueue.cap →
    dispatchAll ts qm =
      { qm with
        highQueue := { qm.highQueue with buf := qm.highQueue.buf ++ ts.filter inHigh },
        normalQueue := { qm.normalQueue with buf := qm.normalQueue.buf ++ ts.filter inNormal },
        lowQueue := { qm.lowQueue with buf := qm.lowQueue.buf ++ ts.filter inLow } } := by
  intro ts
  induction ts with
  | nil => intro qm _ _ _; simp [dispatchAll]
  | cons t rest ih =>
    intro qm hH hN hL
    by_cases h3 : t.Priority ≤ 3
    · have e1 : inHigh t = true := by simp [inHigh, h3]
      have e2 : inNormal t = false := by simp [inNormal]; omega
      have e3 : inLow t = false := by simp [inLow]; omega
      simp only [List.filter_cons, e1, e2, e3, if_true, List.length_cons,
        Bool.false_eq_true, if_false] at hH hN hL ⊢
      rw [dispatchAll, DispatchTask_high qm t h3 (by omega)]
      simp only
      rw [ih { qm with highQueue := { qm.highQueue with buf := qm.highQueue.buf ++ [t] } }
        (by simp; omega) hN hL]
      simp
    · by_cases h7 : t.Priority ≤ 7
      · have e1 : inHigh t = false := by simp [inHigh]; omega
        have e2 : inNormal t = true := by simp [inNormal]; omega
        have e3 : inLow t = false := by simp [inLow]; omega
        simp only [List.filter_cons, e1, e2, e3, if_true, List.length_cons,
          Bool.false_eq_true, if_false] at hH hN hL ⊢
        rw [dispatchAll, DispatchTask_normal qm t (by omega) h7 (by omega)]
        simp only
        rw [ih { qm with normalQueue := { qm.normalQueue with buf := qm.normalQueue.buf ++ [t] } }
          hH (by simp; omega) hL]
        simp
      · have e1 : inHigh t = false := by simp [inHigh]; omega
        have e2 : inNormal t = false := by simp [inNormal]; omega
        have e3 : inLow t = true := by simp [inLow]; omega
        simp only [List.filter_cons, e1, e2, e3, if_true, List.length_cons,
          Bool.false_eq_true, if_false] at hH hN hL ⊢
        rw [dispatchAll, DispatchTask_low qm t (by omega) (by omega)]
        simp only
        rw [ih { qm with lowQueue := { qm.lowQueue with buf := qm.lowQueue.buf ++ [t] } }
          hH hN (by simp; omega)]
        simp

/-- Draining buckets that hold `H`, `N` and `L` yields `H ++ N ++ L` and
leaves the three buckets empty. -/
theorem drain_buckets (extra : Nat) : ∀ (H N L : List DeliveryTask) (qm : QueueManager),
    qm.highQueue.buf = H → qm.normalQueue.buf = N → qm.lowQueue.buf = L →
    drain (H.length + N.length + L.length + 1 + extra) qm =
      some (H ++ N ++ L,
        { qm with highQueue := { qm.highQueue with buf := [] },
                  normalQueue := { qm.normalQueue with buf := [] },
                  lowQueue := { qm.lowQueue with buf := [] } }) := by
  intro H
  induction H with
  | cons t rest ih =>
    intro N L qm hH hN hL
    have hfuel : (t :: rest).length + N.length + L.length + 1 + extra
        = (rest.length + N.length + L.length + 1 + extra) + 1 := by simp; omega
    rw [hfuel, drain]
    have hg : GetNextTask qm
        = (some t, { qm with highQueue := { qm.highQueue with buf := rest } }) := by
      simp [GetNextTask, Chan.tryRecv, hH]
    rw [hg]
    simp only
    rw [ih N L { qm with highQueue := { qm.highQueue with buf := rest } } rfl hN hL]
    simp
  | nil =>
    intro N
    induction N with
    | cons t rest ih =>
      intro L qm hH hN hL
      have hfuel : ([] : List DeliveryTask).length + (t :: rest).length + L.length + 1 + extra
          = (([] : List DeliveryTask).length + rest.length + L.length + 1 + extra) + 1 := by
        simp; omega
      rw [hfuel, drain]
      have hg : GetNextTask qm
          = (some t, { qm with normalQueue := { qm.normalQueue with buf := rest } }) := by
        simp [GetNextTask, Chan.tryRecv, hH, hN]
      rw [hg]
      simp only
      rw [ih L { qm with normalQueue := { qm.normalQueue with buf := rest } } hH rfl hL]
      simp
    | nil =>
      intro L
      induction L with
      | cons t rest ih =>
        intro qm hH hN hL
        have hfuel : ([] : List DeliveryTask).length + ([] : List DeliveryTask).length
            + (t :: rest).length + 1 + extra
            = (([] : List DeliveryTask).length + ([] : List DeliveryTask).length
              + rest.length + 1 + extra) + 1 := by simp; omega
        rw [hfuel, drain]
        have hg : GetNextTask qm
            = (some t, { qm with lowQueue := { qm.lowQueue with buf := rest } }) := by
          simp [GetNextTask, Chan.tryRecv, hH, hN, hL]
        rw [hg]
        simp only
        rw [ih { qm with lowQueue := { qm.lowQueue with buf := rest } } hH hN rfl]
        simp
      | nil =>
        intro qm hH hN hL
        have hg : GetNextTask qm = (none, qm) := by
          simp [GetNextTask, Chan.tryRecv, hH, hN, hL]
        simp only [List.length_nil, Nat.zero_add, List.append_nil]
        rw [show 0 + 1 + extra = extra + 1 by omega, drain, hg]
        simp only
        obtain ⟨e, ⟨hb, hc⟩, ⟨nb, nc⟩, ⟨lb, lc⟩, w, c, cfg⟩ := qm
        simp only at hH hN hL
        subst hH hN hL
        rfl

theorem partition_length (ts : List DeliveryTask) :
    (ts.filter inHigh).length + (ts.filter inNormal).length + (ts.filter inLow).length
      = ts.length := by
  induction ts with
  | nil => rfl
  | cons t rest ih =>
    by_cases h3 : t.Priority ≤ 3
    · have e1 : inHigh t = true := by simp [inHigh, h3]
      have e2 : inNormal t = false := by simp [inNormal]; omega
      have e3 : inLow t = false := by simp [inLow]; omega
      simp only [List.filter_cons, e1, e2, e3, if_true, List.length_cons,
        Bool.false_eq_true, if_false]
      omega
    · by_cases h7 : t.Priority ≤ 7
      · have e1 : inHigh t = false := by simp [inHigh]; omega
        have e2 : inNormal t = true := by simp [inNormal]; omega
        have e3 : inLow t = false := by simp [inLow]; omega
        simp only [List.filter_cons, e1, e2, e3, if_true, List.length_cons,
          Bool.false_eq_true, if_false]
        omega
      · have e1 : inHigh t = false := by simp [inHigh]; omega
        have e2 : inNormal t = false := by simp [inNormal]; omega
        have e3 : inLow t = true := by simp [inLow]; omega
        simp only [List.filter_cons, e1, e2, e3, if_true, List.length_cons,
          Bool.false_eq_true, if_false]
        omega

theorem partition_perm (ts : List DeliveryTask) :
    (ts.filter inHigh ++ ts.filter inNormal ++ ts.filter inLow).Perm ts := by
  induction ts with
  | nil => simp
  | cons t rest ih =>
    by_cases h3 : t.Priority ≤ 3
    · have e1 : inHigh t = true := by simp [inHigh, h3]
      have e2 : inNormal t = false := by simp [inNormal]; omega
      have e3 : inLow t = false := by simp [inLow]; omega
      simp only [List.filter_cons, e1, e2, e3, if_true, Bool.false_eq_true, if_false,
        List.cons_append]
      exact List.Perm.cons t ih
    · by_cases h7 : t.Priority ≤ 7
      · have e1 : inHigh t = false := by simp [inHigh]; omega
        have e2 : inNormal t = true := by simp [inNormal]; omega
        have e3 : inLow t = false := by simp [inLow]; omega
        simp only [List.filter_cons, e1, e2, e3, if_true, Bool.false_eq_true, if_false]
        rw [List.append_assoc, List.cons_append]
        refine List.Perm.trans List.perm_middle ?_
        rw [← List.append_assoc]
        exact List.Perm.cons t ih
      · have e1 : inHigh t = false := by simp [inHigh]; omega
        have e2 : inNormal t = false := by simp [inNormal]; omega
        have e3 : inLow t = true := by simp [inLow]; omega
        simp only [List.filter_cons, e1, e2, e3, if_true, Bool.false_eq_true, if_false]
        refine List.Perm.trans List.perm_middle ?_
        exact List.Perm.cons t ih

/-- Witness for C12: with the high bucket empty and tasks in the normal and
low buckets, the head of the normal bucket comes out. -/
theorem get_next_task_strict_priority_witness :
    qmNormalAndLow.highQueue.buf = [] ∧ qmNormalAndLow.normalQueue.buf = tNormal :: [] ∧
    GetNextTask qmNormalAndLow = (some tNormal,
      { qmNormalAndLow with normalQueue := { qmNormalAndLow.normalQueue with buf := [] } }) :=
  ⟨by decide, by decide,
   (get_next_task_strict_priority qmNormalAndLow).2.1 tNormal [] (by decide) (by decide)⟩

/-- C13: tasks dispatched in the order `ts` into empty buckets that are
large enough all come out again, each exactly once, when GetNextTask is called
until it returns none: first the tasks of priority at most 3 in dispatch
order, then those of priority 4 to 7 in dispatch order, then the others in
dispatch order; the buckets are empty afterwards. -/
theorem drain_order_is_stable_partition (qm : QueueManager) (ts : List DeliveryTask)
    (hH : qm.highQueue.buf = []) (hN : qm.normalQueue.buf = []) (hL : qm.lowQueue.buf = [])
    (cH : (ts.filter inHigh).length ≤ qm.highQueue.cap)
    (cN : (ts.filter inNormal).length ≤ qm.normalQueue.cap)
    (cL : (ts.filter inLow).length ≤ qm.lowQueue.cap) :
    (∀ fuel, ts.length + 1 ≤ fuel →
      drain fuel (dispatchAll ts qm)
        = some (ts.filter inHigh ++ ts.filter inNormal ++ ts.filter inLow, qm)) ∧
    (ts.filter inHigh ++ ts.filter inNormal ++ ts.filter inLow).Perm ts ∧
    (∀ t ∈ ts.filter inHigh, t.Priority ≤ 3) ∧
    (∀ t ∈ ts.filter inNormal, 4 ≤ t.Priority ∧ t.Priority ≤ 7) ∧
    (∀ t ∈ ts.filter inLow, 8 ≤ t.Priority) := by
  refine ⟨fun fuel hfuel => ?_, partition_perm ts, ?_, ?_, ?_⟩
  · have hd := dispatchAll_buckets ts qm (by rw [hH]; simpa using cH)
      (by rw [hN]; simpa using cN) (by rw [hL]; simpa using cL)
    obtain ⟨extra, hextra⟩ : ∃ extra, fuel = (ts.filter inHigh).length
        + (ts.filter inNormal).length + (ts.filter inLow).length + 1 + extra :=
      ⟨fuel - (ts.length + 1), by have := partition_length ts; omega⟩
    rw [hd, hextra, drain_buckets extra (ts.filter inHigh) (ts.filter inNormal)
      (ts.filter inLow) _ (by simp [hH]) (by simp [hN]) (by simp [hL])]
    obtain ⟨e, ⟨hb, hc⟩, ⟨nb, nc⟩, ⟨lb, lc⟩, w, c, cfg⟩ := qm
    simp only at hH hN hL
    subst hH hN hL
    rfl
  · intro t ht
    have := (List.mem_filter.mp ht).2
    simpa [inHigh] using this
  · intro t ht
    have := (List.mem_filter.mp ht).2
    simp [inNormal] at this
    omega
  · intro t ht
    have := (List.mem_filter.mp ht).2
    simp [inLow] at this
    omega

/-- Witness for C13: dispatched in the order T_low(9), T_high(2),
T_normal(5), the tasks come out as T_high, T_normal, T_low. -/
theorem drain_order_is_stable_partition_witness :
    dsSmall.queueManager.highQueue.buf = [] ∧
    ([tLow, tHigh, tNormal].filter inHigh ++ [tLow, tHigh, tNormal].filter inNormal
      ++ [tLow, tHigh, tNormal].filter inLow) = [tHigh, tNormal, tLow] ∧
    drain 4 (dispatchAll [tLow, tHigh, tNormal] dsSmall.queueManager)
      = some ([tLow, tHigh, tNormal].filter inHigh ++ [tLow, tHigh, tNormal].filter inNormal
          ++ [tLow, tHigh, tNormal].filter inLow, dsSmall.queueManager) :=
  ⟨by decide, by decide,
   (drain_order_is_stable_partition dsSmall.queueManager [tLow, tHigh, tNormal]
      (by decide) (by decide) (by decide) (by decide) (by decide) (by decide)).1 4
      (by decide)⟩

/-! ### Outcome of a task in processTask -/

theorem deliverLoop_snd {σ : Type} (d : σ → String → Bool × σ) (users : List String)
    (env : σ) (k : Nat) :
    (deliverLoop d users env k).2 = users.foldl (fun e u => (d e u).2) env := by
  induction users generalizing env k with
  | nil => rfl
  | cons u rest ih =>
    unfold deliverLoop
    rcases hd : d env u with ⟨b, e1⟩
    cases b
    · simp only [List.foldl_cons, hd]
      exact ih e1 k
    · simp only [List.foldl_cons, hd]
      exact ih e1 (k + 1)

theorem deliverLoop_fst {σ : Type} (d : σ → String → Bool × σ) (users : List String)
    (env : σ) (k : Nat) :
    (deliverLoop d users env k).1 = k + (callOutcomes d users env).count true := by
  induction users generalizing env k with
  | nil => simp [deliverLoop, callOutcomes]
  | cons u rest ih =>
    unfold deliverLoop callOutcomes
    rcases hd : d env u with ⟨b, e1⟩
    cases b
    · simp only [ih e1 k]
      simp
    · simp only [ih e1 (k + 1)]
      simp
      omega

theorem callOutcomes_length {σ : Type} (d : σ → String → Bool × σ) (users : List String)
    (env : σ) : (callOutcomes d users env).length = users.length := by
  induction users generalizing env with
  | nil => rfl
  | cons u rest ih => simp [callOutcomes, ih]

theorem successCount_pos_iff (deliver : Nat → String → Bool) (users : List String) :
    successCount deliver users > 0 ↔ ∃ i u, users[i]? = some u ∧ deliver i u = true := by
  unfold successCount
  rw [gt_iff_lt, List.length_pos]
  constructor
  · intro hne
    obtain ⟨p, hp⟩ := List.exists_mem_of_ne_nil _ hne
    rw [List.mem_filter] at hp
    exact ⟨p.1, p.2, List.mem_enum_iff_getElem?.mp hp.1, hp.2⟩
  · rintro ⟨i, u, hi, hd⟩ hnil
    have hmem : (i, u) ∈ users.enum.filter (fun p => deliver p.1 p.2) := by
      rw [List.mem_filter]
      exact ⟨List.mk_mem_enum_iff_getElem?.mpr hi, hd⟩
    rw [hnil] at hmem
    exact List.not_mem_nil _ hmem

theorem successCount_zero_iff (deliver : Nat → String → Bool) (users : List String) :
    successCount deliver users = 0 ↔ ∀ i u, users[i]? = some u → deliver i u = false := by
  constructor
  · intro hz i u hi
    cases hd : deliver i u with
    | false => rfl
    | true =>
      have : successCount deliver users > 0 := (successCount_pos_iff deliver users).mpr ⟨i, u, hi, hd⟩
      omega
  · intro hall
    by_contra hne
    have hpos : successCount deliver users > 0 := by omega
    obtain ⟨i, u, hi, hd⟩ := (successCount_pos_iff deliver users).mp hpos
    rw [hall i u hi] at hd
    exact Bool.false_ne_true hd

theorem filter_enumFrom_outcomes (l : List Bool) (users : List String) (k : Nat)
    (hlen : l.length = users.length) :
    ((users.enumFrom k).filter (fun p => l.getD (p.1 - k) false)).length = l.count true := by
  induction users generalizing l k with
  | nil =>
    cases l with
    | nil => rfl
    | cons b l1 => simp at hlen
  | cons u rest ih =>
    cases l with
    | nil => simp at hlen
    | cons b l1 =>
      have hl : l1.length = rest.length := by simpa using hlen
      have hrest : (rest.enumFrom (k + 1)).filter (fun p => (b :: l1).getD (p.1 - k) false)
          = (rest.enumFrom (k + 1)).filter (fun p => l1.getD (p.1 - (k + 1)) false) := by
        apply List.filter_congr
        intro p hp
        have hle : k + 1 ≤ p.1 := List.le_fst_of_mem_enumFrom hp
        have hsub : p.1 - k = (p.1 - (k + 1)) + 1 := by omega
        rw [hsub]
        rfl
      rw [List.enumFrom_cons, List.filter_cons]
      simp only [Nat.sub_self, List.getD_cons_zero]
      rw [hrest]
      cases b
      · simp only [Bool.false_eq_true, if_false]
        rw [ih l1 (k + 1) hl]
        simp
      · simp only [if_true, List.length_cons]
        rw [ih l1 (k + 1) hl]
        simp

theorem successCount_outcomes (l : List Bool) (users : List String)
    (hlen : l.length = users.length) :
    successCount (fun i _ => l.getD i false) users = l.count true := by
  have h := filter_enumFrom_outcomes l users 0 hlen
  simpa [successCount, List.enum] using h

/-- The counters and queues processTask leaves are those of processTask fed
with the outcomes of the calls it makes. -/
theorem processTaskIn_fst {σ : Type} (ds : DeliverySystem) (now : Int)
    (d : σ → String → Bool × σ) (task : DeliveryTask) (env : σ) :
    (processTaskIn ds now d task env).1
      = processTask ds now
          (fun i _ => (callOutcomes d ((resolveRecipients task).getD []) env).getD i false)
          task := by
  unfold processTaskIn processTask
  by_cases hexp : IsExpired task now = true
  · simp only [hexp, if_true]
  · simp only [hexp, Bool.false_eq_true, if_false]
    cases hr : resolveRecipients task with
    | none => rfl
    | some users =>
      simp only [Option.getD_some]
      have h1 := deliverLoop_fst d users env 0
      simp only [Nat.zero_add] at h1
      simp only [successCount_outcomes _ users (callOutcomes_length d users env), h1]
      split_ifs <;> rfl

/-- C15: for a task that is not expired and has recipients, processTask adds
exactly one to TotalDelivered and touches nothing else (no retry, whatever
the number of recipients that succeeded or failed) when the delivery to at
least one recipient succeeds; when the delivery to every recipient fails it
leaves TotalDelivered as it is and asks for one retry with reason
"all_users_failed". -/
theorem process_task_outcome_accounting (ds : DeliverySystem) (now : Int)
    (deliver : Nat → String → Bool) (task : DeliveryTask) (users : List String)
    (hexp : IsExpired task now = false) (hrec : resolveRecipients task = some users) :
    ((∃ i u, users[i]? = some u ∧ deliver i u = true) →
      processTask ds now deliver task =
        { ds with stats := { ds.stats with TotalDelivered := ds.stats.TotalDelivered + 1 } }) ∧
    ((∀ i u, users[i]? = some u → deliver i u = false) →
      processTask ds now deliver task = scheduleRetry ds now task "all_users_failed" ∧
      (processTask ds now deliver task).stats.TotalDelivered = ds.stats.TotalDelivered ∧
      (processTask ds now deliver task).retryManager
        = (ScheduleRetry ds.retryManager now task "all_users_failed").2) := by
  have hlen : users.length > 0 := by
    unfold resolveRecipients at hrec
    split_ifs at hrec with h
    · cases hrec
      exact h
    · cases hm : task.Message with
      | none => simp [hm] at hrec
      | some m =>
        simp [hm] at hrec
        subst hrec
        simp
  constructor
  · intro hsome
    have hpos : successCount deliver users > 0 := (successCount_pos_iff deliver users).mpr hsome
    have hne : ¬ successCount deliver users = 0 := by omega
    simp [processTask, hexp, hrec, hpos, hne]
  · intro hnone
    have hzero : successCount deliver users = 0 := (successCount_zero_iff deliver users).mpr hnone
    have hp : processTask ds now deliver task = scheduleRetry ds now task "all_users_failed" := by
      simp [processTask, hexp, hrec, hzero, hlen]
    refine ⟨hp, ?_, ?_⟩
    · rw [hp]
      exact (scheduleRetry_load ds now task "all_users_failed").2.2.2.1
    · rw [hp]
      unfold scheduleRetry
      rcases ScheduleRetry ds.retryManager now task "all_users_failed" with ⟨ok, rm⟩
      cases ok <;> rfl

/-- Witness for C15: two recipients. When the first delivery fails and the
second succeeds, TotalDelivered goes up by one and nothing else changes; when
both fail, the task is handed to scheduleRetry and TotalDelivered stays. -/
theorem process_task_outcome_accounting_witness :
    IsExpired taskTwoUsers 0 = false ∧
    resolveRecipients taskTwoUsers = some ["u1", "u2"] ∧
    processTask dsSmall 0 (fun i _ => i == 1) taskTwoUsers =
      { dsSmall with
        stats := { dsSmall.stats with TotalDelivered := dsSmall.stats.TotalDelivered + 1 } } ∧
    processTask dsSmall 0 (fun _ _ => false) taskTwoUsers
      = scheduleRetry dsSmall 0 taskTwoUsers "all_users_failed" ∧
    (processTask dsSmall 0 (fun _ _ => false) taskTwoUsers).stats.TotalDelivered
      = dsSmall.stats.TotalDelivered ∧
    (processTask dsSmall 0 (fun _ _ => false) taskTwoUsers).stats.TotalRetried
      = dsSmall.stats.TotalRetried + 1 :=
  ⟨by decide, by decide,
   (process_task_outcome_accounting dsSmall 0 (fun i _ => i == 1) taskTwoUsers ["u1", "u2"]
      (by decide) (by decide)).1 ⟨1, "u2", by decide, by decide⟩,
   ((process_task_outcome_accounting dsSmall 0 (fun _ _ => false) taskTwoUsers ["u1", "u2"]
      (by decide) (by decide)).2 (fun _ _ _ => rfl)).1,
   ((process_task_outcome_accounting dsSmall 0 (fun _ _ => false) taskTwoUsers ["u1", "u2"]
      (by decide) (by decide)).2 (fun _ _ _ => rfl)).2.1,
   by decide⟩

/-! ### Go maps as association lists -/

theorem mapGet_mapSet_self {α : Type} (m : List (String × α)) (k : String) (v : α) :
    mapGet (mapSet m k v) k = some v := by
  induction m with
  | nil => simp [mapSet, mapGet]
  | cons p rest ih =>
    obtain ⟨k1, v1⟩ := p
    by_cases h : k1 = k
    · simp [mapSet, mapGet, h]
    · simp [mapSet, mapGet, h, ih]

theorem mapGet_mapSet_other {α : Type} (m : List (String × α)) (k other : String) (v : α)
    (h : other ≠ k) : mapGet (mapSet m k v) other = mapGet m other := by
  induction m with
  | nil => simp [mapSet, mapGet, Ne.symm h]
  | cons p rest ih =>
    obtain ⟨k1, v1⟩ := p
    by_cases h1 : k1 = k
    · subst h1
      simp [mapSet, mapGet, Ne.symm h]
    · by_cases h2 : k1 = other
      · subst h2
        simp [mapSet, mapGet, h1]
      · simp [mapSet, mapGet, h1, h2, ih]

theorem mapSet_keys_of_present {α : Type} (m : List (String × α)) (k : String) (v w : α)
    (h : mapGet m k = some w) : (mapSet m k v).map Prod.fst = m.map Prod.fst := by
  induction m with
  | nil => simp [mapGet] at h
  | cons p rest ih =>
    obtain ⟨k1, v1⟩ := p
    by_cases h1 : k1 = k
    · simp [mapSet, h1]
    · simp only [mapGet, h1, if_false] at h
      simp [mapSet, h1, ih h]

/-! ### The workspace cache -/

/-- C16: Get returns the workspace of a present entry whose age is at most
the ttl as a hit, sets that entry's LastAccess to now and leaves every other
entry, the set of keys and the close log as they were; it returns a miss and
leaves the cache as it was when no entry is present, and also when the entry
is older than the ttl, in which case the removal goroutine is started. -/
theorem cache_get_contract (wc : WorkspaceCache) (now : Int) (userID : String) :
    (∀ entry, mapGet wc.entries userID = some entry → now - entry.LastAccess ≤ wc.ttl →
      (wc.Get now userID).1 = (entry.Workspace, true) ∧
      mapGet (wc.Get now userID).2.1.entries userID = some { entry with LastAccess := now } ∧
      (∀ other, other ≠ userID →
        mapGet (wc.Get now userID).2.1.entries other = mapGet wc.entries other) ∧
      (wc.Get now userID).2.1.entries.map Prod.fst = wc.entries.map Prod.fst ∧
      (wc.Get now userID).2.1.closeLog = wc.closeLog ∧
      (wc.Get now userID).2.2 = none) ∧
    (mapGet wc.entries userID = none → wc.Get now userID = ((none, false), wc, none)) ∧
    (∀ entry, mapGet wc.entries userID = some entry → wc.ttl < now - entry.LastAccess →
      wc.Get now userID = ((none, false), wc, some userID)) := by
  refine ⟨fun entry hget hfresh => ?_, fun hget => ?_, fun entry hget hold => ?_⟩
  · have hnot : ¬ now - entry.LastAccess > wc.ttl := by omega
    have hG : wc.Get now userID = ((entry.Workspace, true),
        { wc with entries := mapSet wc.entries userID { entry with LastAccess := now } },
        none) := by
      simp only [WorkspaceCache.Get, hget, if_neg hnot]
    rw [hG]
    refine ⟨rfl, mapGet_mapSet_self _ _ _, fun other ho => mapGet_mapSet_other _ _ _ _ ho,
      mapSet_keys_of_present _ _ _ _ hget, rfl, rfl⟩
  · simp only [WorkspaceCache.Get, hget]
  · have hgt : now - entry.LastAccess > wc.ttl := by omega
    simp only [WorkspaceCache.Get, hget, if_pos hgt]

/-- Witness for C16: U1 was last used at time 10; a Get at time 50 with ttl
100 is a hit. -/
theorem cache_get_contract_witness :
    mapGet cacheTwoUsers.entries "U1"
      = some { Workspace := some (wsOf "U1" 0), LastAccess := 10, CreatedAt := 10 } ∧
    (50 : Int) - 10 ≤ cacheTwoUsers.ttl ∧
    (cacheTwoUsers.Get 50 "U1").1 = (some (wsOf "U1" 0), true) :=
  ⟨by decide, by decide,
   ((cache_get_contract cacheTwoUsers 50 "U1").1
      { Workspace := some (wsOf "U1" 0), LastAccess := 10, CreatedAt := 10 }
      (by decide) (by decide)).1⟩

/-- C17: a full cache of size 2 holds the entries "" (last access 1) and "b"
(last access 5), as left by Put of "" and then of "b"; Put of the new user
"c" does not remove the least recently
used entry "". When the loop visits "" first, Put removes "b" and closes
the handles of its workspace; when it visits "b" first, Put removes nothing,
closes nothing and leaves three entries. -/
theorem put_keeps_lru_entry_with_empty_user_id :
    cacheEmptyIdFirst
      = ((NewWorkspaceCache 2 100).Put 1 "" (some (wsOf "" 0))).Put 5 "b" (some (wsOf "b" 2)) ∧
    (cacheEmptyIdFirst.entries.length : Int) = cacheEmptyIdFirst.maxSize ∧
    mapGet cacheEmptyIdFirst.entries "c" = none ∧
    ((cacheEmptyIdFirst.Put 9 "c" (some (wsOf "c" 4))).entries.map Prod.fst = ["", "c"] ∧
     (cacheEmptyIdFirst.Put 9 "c" (some (wsOf "c" 4))).closeLog = [2, 3]) ∧
    ((cacheEmptyIdLast.Put 9 "c" (some (wsOf "c" 4))).entries.map Prod.fst = ["b", "", "c"] ∧
     (cacheEmptyIdLast.Put 9 "c" (some (wsOf "c" 4))).closeLog = []) := by
  decide

/-- C18: from the empty cache of size 1, Put for the user id "" followed by
Put for the user id "a" leaves two entries, whatever the ttl, the times and
the workspaces are. -/
theorem cache_exceeds_max_size_after_empty_user_id (ttl t0 t1 : Int)
    (w0 w1 : Option Workspace) :
    ∃ wc, (NewWorkspaceCache 1 ttl).run [CacheOp.Put t0 "" w0, CacheOp.Put t1 "a" w1] = some wc ∧
      wc.Size = 2 ∧ wc.maxSize = 1 := by
  refine ⟨_, rfl, ?_, ?_⟩ <;>
  simp [WorkspaceCache.Size, WorkspaceCache.Put, NewWorkspaceCache, WorkspaceCache.evictLRU,
    evictLRUScan, mapSet]

/-- C19: Put over an entry that is already present drops the old workspace
without closing its handles. At the cache: after Put of w1 and then of w2 for
the same user, w2 is the only entry and no handle has been closed. Through
the manager: serving "u" at time 0 opens the handles 0 and 1; serving "u"
again after the ttl misses twice, opens the handles 2 and 3 and puts the new
workspace over the old entry, so the handles 0 and 1 are out of the cache
and never closed; the removal goroutine started by the expired Get then
closes the handles 2 and 3 of the workspace that was just returned. -/
theorem put_over_present_entry_leaves_handles_open :
    (∀ (ttl t1 t2 : Int) (w1 w2 : Workspace),
      (NewWorkspaceCache 2 ttl).run
          [CacheOp.Put t1 "u" (some w1), CacheOp.Put t2 "u" (some w2)]
        = some { entries := [("u", { Workspace := some w2, LastAccess := t2, CreatedAt := t2 })],
                 maxSize := 2, ttl := ttl, stopped := false, closeLog := [] }) ∧
    (managerServedOnce.cache.entries.map (fun p => (p.1, p.2.Workspace))
        = [("u", some { UserID := "u", BasePath := "data/u",
                        MessagesDB := some 0, ReadDB := some 1 })] ∧
     (managerServedOnce.GetUserWorkspace 200 CreateOutcome.ok "u").1
        = Except.ok (some { UserID := "u", BasePath := "data/u",
                            MessagesDB := some 2, ReadDB := some 3 }) ∧
     managerServedAfterExpiry.cache.entries.map (fun p => (p.1, p.2.Workspace))
        = [("u", some { UserID := "u", BasePath := "data/u",
                        MessagesDB := some 2, ReadDB := some 3 })] ∧
     managerServedAfterExpiry.closeCount 0 = 0 ∧
     managerServedAfterExpiry.closeCount 1 = 0 ∧
     managerServedAfterExpiry.pending = ["u", "u"] ∧
     managerServedAfterExpiry.runPending.cache.entries = [] ∧
     managerServedAfterExpiry.runPending.cache.closeLog = [2, 3] ∧
     managerServedAfterExpiry.runPending.runPending.cache.closeLog = [2, 3] ∧
     managerServedAfterExpiry.runPending.runPending.closeCount 0 = 0 ∧
     managerServedAfterExpiry.runPending.runPending.closeCount 1 = 0) := by
  refine ⟨fun ttl t1 t2 w1 w2 => ?_, by decide, rfl, by decide⟩
  simp [WorkspaceCache.run, WorkspaceCache.step, WorkspaceCache.Put, NewWorkspaceCache,
    mapSet]

/-! ### Storage round trip -/

theorem find_append_new (rows : List MessageRow) (row : MessageRow)
    (hnew : ∀ r ∈ rows, r.id ≠ row.id) :
    (rows ++ [row]).find? (fun r => decide (r.id = row.id)) = some row := by
  induction rows with
  | nil => simp
  | cons r rest ih =>
    have h1 : r.id ≠ row.id := hnew r (List.mem_cons_self _ _)
    have h2 := ih (fun x hx => hnew x (List.mem_cons_of_mem _ hx))
    simp only [List.cons_append, List.find?_cons, h1, decide_False]
    exact h2

/-- C20, counterexample: for the message m1 owned by U1, CreateMessage into
a fresh open database succeeds and GetMessage of m1 succeeds, but the message
read back has the empty user id and so differs from m1. -/
theorem get_message_returns_empty_user_id :
    (CreateMessage codecSample dbFresh msgU1).1 = Except.ok () ∧
    msgU1.UserID = "U1" ∧
    GetMessage codecSample (CreateMessage codecSample dbFresh msgU1).2 msgU1.ID
      = Except.ok { msgU1 with UserID := "" } ∧
    ({ msgU1 with UserID := "" } : Message) ≠ msgU1 := by
  refine ⟨rfl, rfl, rfl, by decide⟩

/-- C20, amended: for an open database that holds no message with the id of
m, and metadata that json.Marshal encodes to a text that json.Unmarshal
decodes back, CreateMessage succeeds and GetMessage of that id then returns m
with every field as given (id, channel, title, content, type, priority,
sender, created_at, updated_at, metadata) except the user id, which is
empty. -/
theorem storage_round_trip_without_user_id (codec : JsonCodec) (db : SqlDB) (m : Message)
    (text : String) (hopen : db.closed = false) (hnew : ∀ r ∈ db.messages, r.id ≠ m.ID)
    (hmarshal : codec.marshal m.Metadata = some text)
    (hunmarshal : codec.unmarshal text = some m.Metadata) :
    (CreateMessage codec db m).1 = Except.ok () ∧
    GetMessage codec (CreateMessage codec db m).2 m.ID = Except.ok { m with UserID := "" } := by
  have hany : db.messages.any (fun r => decide (r.id = m.ID)) = false := by
    rw [List.any_eq_false]
    intro r hr
    simpa using hnew r hr
  have hfind := find_append_new db.messages
    { id := m.ID, channel_id := m.ChannelID, title := m.Title, content := m.Content,
      message_type := m.MessageType, priority := m.Priority, sender := m.Sender,
      created_at := m.CreatedAt, updated_at := m.UpdatedAt, metadata := some text } hnew
  simp only at hfind
  constructor
  · simp [CreateMessage, updateChannelLastMessage, hopen, hany]
  · simp [CreateMessage, updateChannelLastMessage, GetMessage, hopen, hany, hmarshal, hfind,
      hunmarshal]

/-- Witness for C20: the message m1 with metadata ("k", "v") and the sample
JSON functions. -/
theorem storage_round_trip_without_user_id_witness :
    dbFresh.closed = false ∧
    codecSample.marshal msgU1.Metadata = some "\x7b\"k\":\"v\"\x7d" ∧
    GetMessage codecSample (CreateMessage codecSample dbFresh msgU1).2 msgU1.ID
      = Except.ok { msgU1 with UserID := "" } :=
  ⟨rfl, by decide,
   (storage_round_trip_without_user_id codecSample dbFresh msgU1 "\x7b\"k\":\"v\"\x7d" rfl
      (by decide) (by decide) (by decide)).2⟩

/-! ### Delivery to one recipient -/

theorem BroadcastMessage_other (wm : websocket.Manager) (encode : Message → Option String)
    (message : Message) (userID : String) (h : userID ≠ message.UserID) :
    mapGet (wm.BroadcastMessage encode message).userClients userID
      = mapGet wm.userClients userID := by
  unfold websocket.Manager.BroadcastMessage
  cases encode message with
  | none => rfl
  | some data =>
    cases hg : mapGet wm.userClients message.UserID with
    | none => rfl
    | some cs => exact mapGet_mapSet_other _ _ _ _ h

/-- When deliverToUser returns without error, the broadcaster has been asked
once to publish the message to the clients of `message.UserID`; the clients
of every other user, the recipient included, are as before. -/
theorem deliverToUser_ok_broadcast (env : DeliveryEnv) (now : Int) (outcome : CreateOutcome)
    (codec : JsonCodec) (encode : Message → Option String) (userID : String)
    (task : DeliveryTask) (message : Message) (hmsg : task.Message = some message)
    (hok : (deliverToUser env now outcome codec encode userID task).1 = DeliverResult.ok) :
    (deliverToUser env now outcome codec encode userID task).2.wsManager
      = env.wsManager.map (fun wm => wm.BroadcastMessage encode message) := by
  unfold deliverToUser at hok ⊢
  simp only [hmsg] at hok ⊢
  rcases hg : env.workspaceManager.GetUserWorkspace now outcome userID with ⟨r, m1⟩
  rw [hg] at hok
  cases r with
  | error e => simp at hok
  | ok ows =>
    cases ows with
    | none => simp at hok
    | some ws =>
      simp only at hok ⊢
      cases hh : ws.MessagesDB with
      | none => simp [hh] at hok
      | some h =>
        simp only [hh] at hok ⊢
        by_cases hc : m1.handleClosed h = true
        · simp [hc] at hok
        · simp only [hc] at hok ⊢
          rcases hcm : CreateMessage codec (m1.database ws h) message with ⟨res, db⟩
          rw [hcm] at hok
          cases res with
          | error e => simp at hok
          | ok u => simp

/-- C14: the message m1 owned by U1 is delivered to the recipient U2:
deliverToUser stores it in the workspace of U2 and returns without error, and
the broadcaster puts the payload into the send buffer of the client of U1 and
nothing into that of the client of U2. Delivered to U1 and then to U2 (a task
with both recipients), the client of U1 holds the payload twice and the
client of U2 holds nothing. -/
theorem deliver_to_user_publishes_to_message_owner :
    resolveRecipients taskForU2 = some ["U2"] ∧ msgU1.UserID = "U1" ∧
    (deliverToUser envTwoUsers 0 CreateOutcome.ok codecSample encodeSample "U2" taskForU2).1
      = DeliverResult.ok ∧
    (mapGet (deliverToUser envTwoUsers 0 CreateOutcome.ok codecSample encodeSample "U2"
        taskForU2).2.workspaceManager.disk "data/U2").map (fun f => f.messages.map (fun r => r.id))
      = some ["m1"] ∧
    (deliverToUser envTwoUsers 0 CreateOutcome.ok codecSample encodeSample "U2"
        taskForU2).2.wsManager.map (fun wm => (wm.received "U1", wm.received "U2"))
      = some ([["message m1"]], [[]]) ∧
    resolveRecipients taskForBoth = some ["U1", "U2"] ∧
    (deliverToUser
        (deliverToUser envTwoUsers 0 CreateOutcome.ok codecSample encodeSample "U1"
          taskForBoth).2
        0 CreateOutcome.ok codecSample encodeSample "U2" taskForBoth).1 = DeliverResult.ok ∧
    (deliverToUser
        (deliverToUser envTwoUsers 0 CreateOutcome.ok codecSample encodeSample "U1"
          taskForBoth).2
        0 CreateOutcome.ok codecSample encodeSample "U2" taskForBoth).2.wsManager.map
          (fun wm => (wm.received "U1", wm.received "U2"))
      = some ([["message m1", "message m1"]], [[]]) := by
  decide

/-! ### The cache when no entry has the empty user id -/

theorem mapDelete_sublist {α : Type} (m : List (String × α)) (k : String) :
    (mapDelete m k).Sublist m := by
  induction m with
  | nil => simp [mapDelete]
  | cons p rest ih =>
    obtain ⟨k1, v1⟩ := p
    by_cases h : k1 = k
    · simp only [mapDelete, h, if_true]
      exact List.Sublist.cons _ (h ▸ ih)
    · simp only [mapDelete, h, if_false]
      exact List.Sublist.cons₂ _ ih

theorem mapDelete_length_lt {α : Type} (m : List (String × α)) (k : String) (v : α)
    (h : mapGet m k = some v) : (mapDelete m k).length < m.length := by
  induction m with
  | nil => simp [mapGet] at h
  | cons p rest ih =>
    obtain ⟨k1, v1⟩ := p
    by_cases h1 : k1 = k
    · simp only [mapDelete, h1, if_true, List.length_cons]
      have := (mapDelete_sublist rest k).length_le
      omega
    · simp only [mapGet, h1, if_false] at h
      simp only [mapDelete, h1, if_false, List.length_cons]
      have := ih h
      omega

theorem mapSet_length_le {α : Type} (m : List (String × α)) (k : String) (v : α) :
    (mapSet m k v).length ≤ m.length + 1 := by
  induction m with
  | nil => simp [mapSet]
  | cons p rest ih =>
    obtain ⟨k1, v1⟩ := p
    by_cases h1 : k1 = k
    · simp [mapSet, h1]
    · simp only [mapSet, h1, if_false, List.length_cons]
      omega

theorem mapSet_mem {α : Type} (m : List (String × α)) (k : String) (v : α)
    (p : String × α) (hp : p ∈ mapSet m k v) : p ∈ m ∨ p = (k, v) := by
  induction m with
  | nil =>
    simp only [mapSet, List.mem_singleton] at hp
    exact Or.inr hp
  | cons q rest ih =>
    obtain ⟨k1, v1⟩ := q
    by_cases h1 : k1 = k
    · simp only [mapSet, h1, if_true, List.mem_cons] at hp
      rcases hp with hp | hp
      · exact Or.inr hp
      · exact Or.inl (List.mem_cons_of_mem _ hp)
    · simp only [mapSet, h1, if_false, List.mem_cons] at hp
      rcases hp with hp | hp
      · exact Or.inl (hp ▸ List.mem_cons_self _ _)
      · rcases ih hp with h | h
        · exact Or.inl (List.mem_cons_of_mem _ h)
        · exact Or.inr h

theorem mapGet_of_mem_keys {α : Type} (m : List (String × α)) (k : String)
    (h : k ∈ m.map Prod.fst) : ∃ v, mapGet m k = some v := by
  induction m with
  | nil => simp at h
  | cons p rest ih =>
    obtain ⟨k1, v1⟩ := p
    by_cases h1 : k1 = k
    · exact ⟨v1, by simp [mapGet, h1]⟩
    · simp only [List.map_cons, List.mem_cons] at h
      rcases h with h | h
      · exact absurd h.symm h1
      · obtain ⟨v, hv⟩ := ih h
        exact ⟨v, by simp [mapGet, h1, hv]⟩

theorem evictLRUScan_key (entries : List (String × CacheEntry)) (acc : String × Int) :
    (evictLRUScan entries acc).1 = acc.1 ∨
      (evictLRUScan entries acc).1 ∈ entries.map Prod.fst := by
  induction entries generalizing acc with
  | nil => exact Or.inl rfl
  | cons p rest ih =>
    obtain ⟨k, e⟩ := p
    obtain ⟨ko, t0⟩ := acc
    unfold evictLRUScan
    split_ifs with h
    · rcases ih (k, e.LastAccess) with h1 | h1
      · exact Or.inr (by rw [h1]; simp)
      · exact Or.inr (List.mem_cons_of_mem _ h1)
    · rcases ih (ko, t0) with h1 | h1
      · exact Or.inl h1
      · exact Or.inr (List.mem_cons_of_mem _ h1)

theorem evictLRUScan_key_mem (entries : List (String × CacheEntry)) (t : Int)
    (hne : entries ≠ []) : (evictLRUScan entries ("", t)).1 ∈ entries.map Prod.fst := by
  cases entries with
  | nil => exact absurd rfl hne
  | cons p rest =>
    obtain ⟨k, e⟩ := p
    unfold evictLRUScan
    simp only [true_or, if_true]
    rcases evictLRUScan_key rest (k, e.LastAccess) with h1 | h1
    · rw [h1]
      simp
    · exact List.mem_cons_of_mem _ h1

theorem removeEntryUnsafe_entries (wc : WorkspaceCache) (userID : String) :
    (wc.removeEntryUnsafe userID).entries.Sublist wc.entries ∧
    (wc.removeEntryUnsafe userID).maxSize = wc.maxSize := by
  unfold WorkspaceCache.removeEntryUnsafe
  cases mapGet wc.entries userID with
  | none => exact ⟨List.Sublist.refl _, rfl⟩
  | some e => exact ⟨mapDelete_sublist _ _, rfl⟩

theorem removeAll_entries (users : List String) (wc : WorkspaceCache) :
    (users.foldl WorkspaceCache.removeEntryUnsafe wc).entries.Sublist wc.entries ∧
    (users.foldl WorkspaceCache.removeEntryUnsafe wc).maxSize = wc.maxSize := by
  induction users generalizing wc with
  | nil => exact ⟨List.Sublist.refl _, rfl⟩
  | cons u rest ih =>
    have h1 := removeEntryUnsafe_entries wc u
    have h2 := ih (wc.removeEntryUnsafe u)
    exact ⟨h2.1.trans h1.1, h2.2.trans h1.2⟩

/-- One call other than a Put for the empty user id keeps a cache without an
entry for the empty user id within its bound. -/
theorem step_keeps_bound (wc wc1 : WorkspaceCache) (op : CacheOp)
    (hop : ∀ now ws, op ≠ CacheOp.Put now "" ws)
    (hkeys : ∀ p ∈ wc.entries, p.1 ≠ "") (hlen : (wc.entries.length : Int) ≤ wc.maxSize)
    (hmax : 1 ≤ wc.maxSize) (hstep : wc.step op = some wc1) :
    (∀ p ∈ wc1.entries, p.1 ≠ "") ∧ (wc1.entries.length : Int) ≤ wc1.maxSize ∧
    wc1.maxSize = wc.maxSize := by
  have hsub : ∀ w : WorkspaceCache, w.entries.Sublist wc.entries → w.maxSize = wc.maxSize →
      (∀ p ∈ w.entries, p.1 ≠ "") ∧ (w.entries.length : Int) ≤ w.maxSize ∧
      w.maxSize = wc.maxSize := by
    intro w hs hm
    refine ⟨fun p hp => hkeys p (hs.subset hp), ?_, hm⟩
    have := hs.length_le
    omega
  cases op with
  | Remove userID =>
    simp only [WorkspaceCache.step, Option.some.injEq] at hstep
    subst hstep
    exact hsub _ (removeEntryUnsafe_entries wc userID).1 (removeEntryUnsafe_entries wc userID).2
  | cleanupOnce now =>
    simp only [WorkspaceCache.step, Option.some.injEq] at hstep
    subst hstep
    exact hsub _ (removeAll_entries _ wc).1 (removeAll_entries _ wc).2
  | Close =>
    simp only [WorkspaceCache.step, WorkspaceCache.Close] at hstep
    by_cases hs : wc.stopped = true
    · simp [hs] at hstep
    · simp only [hs] at hstep
      simp only [Bool.false_eq_true, if_false, Option.some.injEq] at hstep
      subst hstep
      exact hsub _ (removeAll_entries _ { wc with stopped := true }).1
        (removeAll_entries _ { wc with stopped := true }).2
  | Get now userID =>
    simp only [WorkspaceCache.step, Option.some.injEq] at hstep
    subst hstep
    unfold WorkspaceCache.Get
    cases hg : mapGet wc.entries userID with
    | none => exact ⟨hkeys, hlen, rfl⟩
    | some entry =>
      simp only
      split_ifs with hexp
      · exact ⟨hkeys, hlen, rfl⟩
      · have hk := mapSet_keys_of_present wc.entries userID { entry with LastAccess := now }
          entry hg
        refine ⟨fun p hp => ?_, ?_, rfl⟩
        · have hp1 : p.1 ∈ (mapSet wc.entries userID { entry with LastAccess := now }).map
              Prod.fst := List.mem_map_of_mem _ hp
          rw [hk] at hp1
          obtain ⟨q, hq, hqe⟩ := List.mem_map.mp hp1
          rw [← hqe]
          exact hkeys q hq
        · have hl := congrArg List.length hk
          simp only [List.length_map] at hl
          simp only [hl]
          exact hlen
  | Put now userID ws =>
    simp only [WorkspaceCache.step, Option.some.injEq] at hstep
    subst hstep
    have huser : userID ≠ "" := by
      intro h
      exact hop now ws (by rw [h])
    unfold WorkspaceCache.Put
    simp only
    by_cases hfull : (wc.entries.length : Int) ≥ wc.maxSize
    · simp only [hfull, if_true]
      have hne : wc.entries ≠ [] := by
        intro h
        rw [h] at hfull
        simp at hfull
        omega
      have hmem := evictLRUScan_key_mem wc.entries 0 hne
      obtain ⟨q, hq, hqe⟩ := List.mem_map.mp hmem
      have hnonempty : (evictLRUScan wc.entries ("", 0)).1 ≠ "" := by
        rw [← hqe]
        exact hkeys q hq
      obtain ⟨v, hv⟩ := mapGet_of_mem_keys _ _ hmem
      have hev : wc.evictLRU = { wc with
          closeLog := wc.closeLog ++ closeCalls v.Workspace,
          entries := mapDelete wc.entries (evictLRUScan wc.entries ("", 0)).1 } := by
        simp only [WorkspaceCache.evictLRU, hnonempty, ne_eq, not_false_eq_true, if_true,
          WorkspaceCache.removeEntryUnsafe, hv]
      rw [hev]
      simp only
      refine ⟨fun p hp => ?_, ?_, trivial⟩
      · rcases mapSet_mem _ _ _ _ hp with h | h
        · exact hkeys p ((mapDelete_sublist _ _).subset h)
        · rw [h]
          exact huser
      · have h1 := mapSet_length_le (mapDelete wc.entries (evictLRUScan wc.entries ("", 0)).1)
          userID { Workspace := ws, LastAccess := now, CreatedAt := now }
        have h2 := mapDelete_length_lt _ _ _ hv
        omega
    · simp only [hfull, if_false]
      refine ⟨fun p hp => ?_, ?_, trivial⟩
      · rcases mapSet_mem _ _ _ _ hp with h | h
        · exact hkeys p h
        · rw [h]
          exact huser
      · have h1 := mapSet_length_le wc.entries userID
          { Workspace := ws, LastAccess := now, CreatedAt := now }
        omega

/-- Without a Put for the empty user id the cache stays within its bound:
from the empty cache with `maxSize ≥ 1`, every run of Put, Get, Remove,
cleanupOnce and Close leaves at most `maxSize` entries. -/
theorem cache_bounded_without_empty_user_id (maxSize ttl : Int) (hmax : 1 ≤ maxSize)
    (ops : List CacheOp) (hops : ∀ op ∈ ops, ∀ now ws, op ≠ CacheOp.Put now "" ws)
    (wc : WorkspaceCache) (hrun : (NewWorkspaceCache maxSize ttl).run ops = some wc) :
    wc.Size ≤ maxSize := by
  have key : ∀ (ops : List CacheOp) (w0 : WorkspaceCache),
      (∀ op ∈ ops, ∀ now ws, op ≠ CacheOp.Put now "" ws) →
      (∀ p ∈ w0.entries, p.1 ≠ "") → (w0.entries.length : Int) ≤ w0.maxSize →
      1 ≤ w0.maxSize → w0.run ops = some wc →
      (wc.entries.length : Int) ≤ wc.maxSize ∧ wc.maxSize = w0.maxSize := by
    intro ops
    induction ops with
    | nil =>
      intro w0 _ _ hl _ hr
      simp only [WorkspaceCache.run, Option.some.injEq] at hr
      subst hr
      exact ⟨hl, rfl⟩
    | cons op rest ih =>
      intro w0 ho hk hl hm hr
      simp only [WorkspaceCache.run] at hr
      cases hs : w0.step op with
      | none => simp [hs] at hr
      | some w1 =>
        simp only [hs] at hr
        obtain ⟨k1, l1, m1⟩ := step_keeps_bound w0 w1 op (ho op (List.mem_cons_self _ _))
          hk hl hm hs
        obtain ⟨a, b⟩ := ih w1 (fun o h => ho o (List.mem_cons_of_mem _ h)) k1 l1
          (by rw [m1]; exact hm) hr
        exact ⟨a, b.trans m1⟩
  obtain ⟨a, b⟩ := key ops (NewWorkspaceCache maxSize ttl) hops
    (by simp [NewWorkspaceCache]) (by simp [NewWorkspaceCache]; omega)
    (by simpa [NewWorkspaceCache] using hmax) hrun
  simp only [NewWorkspaceCache] at b
  unfold WorkspaceCache.Size
  omega

/-! ### Eviction of the least recently used entry -/

theorem mapGet_eq_none_iff {α : Type} (m : List (String × α)) (k : String) :
    mapGet m k = none ↔ ∀ p ∈ m, p.1 ≠ k := by
  induction m with
  | nil => simp [mapGet]
  | cons p rest ih =>
    obtain ⟨k1, v1⟩ := p
    by_cases h1 : k1 = k
    · simp [mapGet, h1]
    · simp [mapGet, h1, ih]

theorem mapGet_of_mem_nodup {α : Type} (m : List (String × α)) (k : String) (v : α)
    (hnodup : (m.map Prod.fst).Nodup) (hmem : (k, v) ∈ m) : mapGet m k = some v := by
  induction m with
  | nil => simp at hmem
  | cons p rest ih =>
    obtain ⟨k1, v1⟩ := p
    simp only [List.map_cons, List.nodup_cons] at hnodup
    simp only [List.mem_cons, Prod.mk.injEq] at hmem
    rcases hmem with ⟨hk, hv⟩ | hmem
    · simp [mapGet, hk, hv]
    · have hne : k1 ≠ k := by
        intro h
        apply hnodup.1
        rw [h]
        exact List.mem_map_of_mem Prod.fst hmem
      simp [mapGet, hne, ih hnodup.2 hmem]

theorem mapSet_of_absent {α : Type} (m : List (String × α)) (k : String) (v : α)
    (h : mapGet m k = none) : mapSet m k v = m ++ [(k, v)] := by
  induction m with
  | nil => simp [mapSet]
  | cons p rest ih =>
    obtain ⟨k1, v1⟩ := p
    by_cases h1 : k1 = k
    · simp [mapGet, h1] at h
    · simp only [mapGet, h1, if_false] at h
      simp [mapSet, h1, ih h]

theorem mapDelete_eq_filter {α : Type} (m : List (String × α)) (k : String) :
    mapDelete m k = m.filter (fun p => decide (p.1 ≠ k)) := by
  induction m with
  | nil => simp [mapDelete]
  | cons p rest ih =>
    obtain ⟨k1, v1⟩ := p
    by_cases h1 : k1 = k
    · simp [mapDelete, h1, ih]
    · simp [mapDelete, h1, ih]

theorem evictLRUScan_min (entries : List (String × CacheEntry)) (ko : String) (t0 : Int)
    (hko : ko ≠ "") (hkeys : ∀ p ∈ entries, p.1 ≠ "") :
    (evictLRUScan entries (ko, t0)).2 ≤ t0 ∧
    (∀ p ∈ entries, (evictLRUScan entries (ko, t0)).2 ≤ p.2.LastAccess) ∧
    (evictLRUScan entries (ko, t0) = (ko, t0) ∨
      ∃ p ∈ entries, evictLRUScan entries (ko, t0) = (p.1, p.2.LastAccess)) := by
  induction entries generalizing ko t0 with
  | nil => exact ⟨le_refl _, fun p hp => by simp at hp, Or.inl rfl⟩
  | cons q rest ih =>
    obtain ⟨k, e⟩ := q
    have hk : k ≠ "" := hkeys (k, e) (List.mem_cons_self _ _)
    have hrest : ∀ p ∈ rest, p.1 ≠ "" := fun p hp => hkeys p (List.mem_cons_of_mem _ hp)
    unfold evictLRUScan
    by_cases hlt : e.LastAccess < t0
    · simp only [hlt, or_true, if_true]
      obtain ⟨h1, h2, h3⟩ := ih k e.LastAccess hk hrest
      refine ⟨by omega, fun p hp => ?_, Or.inr ?_⟩
      · rcases List.mem_cons.mp hp with hp | hp
        · rw [hp]
          exact h1
        · exact h2 p hp
      · rcases h3 with h3 | ⟨p, hp, h3⟩
        · exact ⟨(k, e), List.mem_cons_self _ _, h3⟩
        · exact ⟨p, List.mem_cons_of_mem _ hp, h3⟩
    · simp only [hko, hlt, or_self, if_false]
      obtain ⟨h1, h2, h3⟩ := ih ko t0 hko hrest
      refine ⟨h1, fun p hp => ?_, ?_⟩
      · rcases List.mem_cons.mp hp with hp | hp
        · rw [hp]
          simp only
          omega
        · exact h2 p hp
      · rcases h3 with h3 | ⟨p, hp, h3⟩
        · exact Or.inl h3
        · exact Or.inr ⟨p, List.mem_cons_of_mem _ hp, h3⟩

theorem evictLRUScan_finds_oldest (entries : List (String × CacheEntry)) (t : Int)
    (hne : entries ≠ []) (hkeys : ∀ p ∈ entries, p.1 ≠ "") :
    ∃ p ∈ entries, evictLRUScan entries ("", t) = (p.1, p.2.LastAccess) ∧
      ∀ q ∈ entries, p.2.LastAccess ≤ q.2.LastAccess := by
  cases entries with
  | nil => exact absurd rfl hne
  | cons q rest =>
    obtain ⟨k, e⟩ := q
    have hk : k ≠ "" := hkeys (k, e) (List.mem_cons_self _ _)
    have hrest : ∀ p ∈ rest, p.1 ≠ "" := fun p hp => hkeys p (List.mem_cons_of_mem _ hp)
    obtain ⟨h1, h2, h3⟩ := evictLRUScan_min rest k e.LastAccess hk hrest
    have hstep : evictLRUScan ((k, e) :: rest) ("", t) = evictLRUScan rest (k, e.LastAccess) := by
      simp [evictLRUScan]
    rw [hstep]
    rcases h3 with h3 | ⟨p, hp, h3⟩
    · refine ⟨(k, e), List.mem_cons_self _ _, h3, fun q hq => ?_⟩
      rw [h3] at h1 h2
      rcases List.mem_cons.mp hq with hq | hq
      · rw [hq]
      · exact h2 q hq
    · refine ⟨p, List.mem_cons_of_mem _ hp, h3, fun q hq => ?_⟩
      rw [h3] at h1 h2
      rcases List.mem_cons.mp hq with hq | hq
      · rw [hq]
        exact h1
      · exact h2 q hq

/-- When no entry has the empty user id, Put into a full cache evicts the
least recently used entry: with distinct keys, the entry `(k, e)` strictly
older than every other entry and a user not yet present, Put removes exactly
that entry, calls Close on the handles of its workspace, keeps every other
entry and installs the new entry with LastAccess = now. -/
theorem put_evicts_least_recently_used (wc : WorkspaceCache) (now : Int) (userID : String)
    (ws : Option Workspace) (k : String) (e : CacheEntry)
    (hkeys : ∀ p ∈ wc.entries, p.1 ≠ "")
    (hnodup : (wc.entries.map Prod.fst).Nodup)
    (hfull : (wc.entries.length : Int) ≥ wc.maxSize)
    (hmem : (k, e) ∈ wc.entries)
    (hmin : ∀ p ∈ wc.entries, p ≠ (k, e) → e.LastAccess < p.2.LastAccess)
    (hnew : mapGet wc.entries userID = none) :
    wc.Put now userID ws =
      { wc with
        entries := wc.entries.filter (fun p => decide (p.1 ≠ k))
          ++ [(userID, { Workspace := ws, LastAccess := now, CreatedAt := now })],
        closeLog := wc.closeLog ++ closeCalls e.Workspace } := by
  have hne : wc.entries ≠ [] := List.ne_nil_of_mem hmem
  obtain ⟨p, hp, hscan, hpmin⟩ := evictLRUScan_finds_oldest wc.entries 0 hne hkeys
  have hpe : p = (k, e) := by
    by_contra hcon
    have h1 := hmin p hp hcon
    have h2 := hpmin (k, e) hmem
    simp only at h2
    omega
  have hk : k ≠ "" := hkeys (k, e) hmem
  have hget : mapGet wc.entries k = some e := mapGet_of_mem_nodup _ _ _ hnodup hmem
  have hscan1 : (evictLRUScan wc.entries ("", 0)).1 = k := by
    rw [hscan, hpe]
  have habsent : mapGet (mapDelete wc.entries k) userID = none := by
    rw [mapGet_eq_none_iff] at hnew ⊢
    exact fun q hq => hnew q ((mapDelete_sublist _ _).subset hq)
  have hev : wc.evictLRU = { wc with
      closeLog := wc.closeLog ++ closeCalls e.Workspace,
      entries := mapDelete wc.entries k } := by
    simp only [WorkspaceCache.evictLRU, hscan1, hk, ne_eq, not_false_eq_true, if_true,
      WorkspaceCache.removeEntryUnsafe, hget]
  unfold WorkspaceCache.Put
  simp only [hfull, if_true, hev]
  rw [mapSet_of_absent _ _ _ habsent, mapDelete_eq_filter]

/-- The scenario of the specification: with size 2, after Put of U1 and of
U2, Put of U3 evicts U1 and closes its handles. -/
theorem put_third_user_evicts_first :
    (cacheTwoUsers.Put 30 "U3" (some (wsOf "U3" 4))).entries.map Prod.fst = ["U2", "U3"] ∧
    (cacheTwoUsers.Put 30 "U3" (some (wsOf "U3" 4))).closeLog = [0, 1] := by
  decide

/-! ### Recipients and expiry in processTask -/

theorem successCount_congr (deliver deliver' : Nat → String → Bool) (users : List String)
    (h : ∀ p ∈ users.enum, deliver p.1 p.2 = deliver' p.1 p.2) :
    successCount deliver users = successCount deliver' users := by
  unfold successCount
  congr 1
  apply List.filter_congr
  intro p hp
  exact h p hp

theorem foldl_recordCall (succeeds : List String) (users log : List String) :
    users.foldl (fun e u => (recordCall succeeds e u).2) log = log ++ users := by
  induction users generalizing log with
  | nil => simp
  | cons u rest ih =>
    simp only [List.foldl_cons]
    rw [ih]
    simp [recordCall]

theorem processTaskIn_snd {σ : Type} (ds : DeliverySystem) (now : Int)
    (d : σ → String → Bool × σ) (task : DeliveryTask) (env : σ) (users : List String)
    (hexp : IsExpired task now = false) (hrec : resolveRecipients task = some users) :
    (processTaskIn ds now d task env).2 = users.foldl (fun e u => (d e u).2) env := by
  unfold processTaskIn
  simp only [hexp, Bool.false_eq_true, if_false, hrec]
  rw [← deliverLoop_snd d users env 0]
  split_ifs <;> rfl

/-- C25: for a task that is not expired, processTask calls deliverToUser for
each entry of task.TargetUsers, in the order of the list and once per
occurrence (a user listed twice is delivered to twice), each call on the state
the call before it left, when that list is not empty; for the single recipient
message.UserID when the list is empty and the task has a message; and for
nobody when the task has neither, in which case the system and the state are
as before (no delivery, no retry, no counter). The record of the calls kept by
recordCall is the list of the recipients. -/
theorem process_task_recipient_resolution {σ : Type} (ds : DeliverySystem) (now : Int)
    (d : σ → String → Bool × σ) (task : DeliveryTask) (env : σ)
    (hexp : IsExpired task now = false) :
    (task.TargetUsers ≠ [] →
      (processTaskIn ds now d task env).2
        = task.TargetUsers.foldl (fun e u => (d e u).2) env ∧
      ∀ succeeds log : List String,
        (processTaskIn ds now (recordCall succeeds) task log).2 = log ++ task.TargetUsers) ∧
    (task.TargetUsers = [] → ∀ m, task.Message = some m →
      (processTaskIn ds now d task env).2 = (d env m.UserID).2 ∧
      ∀ succeeds log : List String,
        (processTaskIn ds now (recordCall succeeds) task log).2 = log ++ [m.UserID]) ∧
    (task.TargetUsers = [] → task.Message = none →
      processTaskIn ds now d task env = (ds, env)) := by
  refine ⟨fun hne => ?_, fun hnil m hm => ?_, fun hnil hm => ?_⟩
  · have hlen : task.TargetUsers.length > 0 := List.length_pos.mpr hne
    have hrec : resolveRecipients task = some task.TargetUsers := by
      simp [resolveRecipients, hlen]
    refine ⟨processTaskIn_snd ds now d task env _ hexp hrec, fun succeeds log => ?_⟩
    rw [processTaskIn_snd ds now (recordCall succeeds) task log _ hexp hrec]
    exact foldl_recordCall succeeds task.TargetUsers log
  · have hrec : resolveRecipients task = some [m.UserID] := by
      simp [resolveRecipients, hnil, hm]
    refine ⟨?_, fun succeeds log => ?_⟩
    · rw [processTaskIn_snd ds now d task env _ hexp hrec]
      rfl
    · rw [processTaskIn_snd ds now (recordCall succeeds) task log _ hexp hrec]
      exact foldl_recordCall succeeds [m.UserID] log
  · simp [processTaskIn, hexp, resolveRecipients, hnil, hm]

/-- Witness for C25: for the target users U1, U2, U1 the calls are for U1, U2
and U1 again, whether they succeed or not; a task without target users whose
message is owned by U1 is delivered to U1 alone. -/
theorem process_task_recipient_resolution_witness :
    IsExpired taskRepeatedUser 0 = false ∧ taskRepeatedUser.TargetUsers ≠ [] ∧
    (processTaskIn dsSmall 0 (recordCall ["U2"]) taskRepeatedUser []).2
      = [] ++ taskRepeatedUser.TargetUsers ∧
    [] ++ taskRepeatedUser.TargetUsers = ["U1", "U2", "U1"] ∧
    IsExpired taskFallback 0 = false ∧ taskFallback.TargetUsers = [] ∧
    taskFallback.Message = some msgU1 ∧
    (processTaskIn dsSmall 0 (recordCall []) taskFallback []).2 = [] ++ [msgU1.UserID] :=
  ⟨by decide, by decide,
   ((process_task_recipient_resolution dsSmall 0 (recordCall ["U2"]) taskRepeatedUser []
      (by decide)).1 (by decide)).2 ["U2"] [],
   by decide, by decide, by decide, by decide,
   ((process_task_recipient_resolution dsSmall 0 (recordCall []) taskFallback []
      (by decide)).2.1 (by decide) msgU1 (by decide)).2 [] []⟩

/-- The task for U1 and U2 run by processTask on a fresh workspace manager:
both calls of deliverToUser return nil, the message is stored in the
workspaces of U1 and of U2, and TotalDelivered goes up by one. -/
theorem process_task_delivers_to_each_recipient :
    callOutcomes (deliverCall 0 CreateOutcome.ok codecSample encodeSample taskForBoth)
      ["U1", "U2"] envTwoUsers = [true, true] ∧
    (processTaskIn dsSmall 0 (deliverCall 0 CreateOutcome.ok codecSample encodeSample taskForBoth)
      taskForBoth envTwoUsers).1
      = { dsSmall with
          stats := { dsSmall.stats with TotalDelivered := dsSmall.stats.TotalDelivered + 1 } } ∧
    (mapGet (processTaskIn dsSmall 0
        (deliverCall 0 CreateOutcome.ok codecSample encodeSample taskForBoth)
        taskForBoth envTwoUsers).2.workspaceManager.disk "data/U1").map
          (fun f => f.messages.map (fun r => r.id)) = some ["m1"] ∧
    (mapGet (processTaskIn dsSmall 0
        (deliverCall 0 CreateOutcome.ok codecSample encodeSample taskForBoth)
        taskForBoth envTwoUsers).2.workspaceManager.disk "data/U2").map
          (fun f => f.messages.map (fun r => r.id)) = some ["m1"] := by
  decide

/-- C26: IsExpired holds exactly when now - CreatedAt > Timeout; for such a
task processTask calls deliverToUser for nobody (the state the deliveries act
on is as before, whatever deliverToUser would do), leaves TotalDelivered as it
is and makes the one call of ScheduleRetry with reason "task_expired". -/
theorem expired_task_is_not_delivered (ds : DeliverySystem) (now : Int)
    (deliver : Nat → String → Bool) (task : DeliveryTask) :
    (IsExpired task now = true ↔ now - task.CreatedAt > task.Timeout) ∧
    (now - task.CreatedAt > task.Timeout →
      (∀ (σ : Type) (d : σ → String → Bool × σ) (env : σ),
        processTaskIn ds now d task env = (scheduleRetry ds now task "task_expired", env)) ∧
      processTask ds now deliver task = scheduleRetry ds now task "task_expired" ∧
      (processTask ds now deliver task).stats.TotalDelivered = ds.stats.TotalDelivered ∧
      (processTask ds now deliver task).retryManager
        = (ScheduleRetry ds.retryManager now task "task_expired").2) := by
  have hiff : IsExpired task now = true ↔ now - task.CreatedAt > task.Timeout := by
    simp [IsExpired]
  refine ⟨hiff, fun hgt => ?_⟩
  have hexp : IsExpired task now = true := hiff.mpr hgt
  have hp : processTask ds now deliver task = scheduleRetry ds now task "task_expired" := by
    simp [processTask, hexp]
  refine ⟨fun σ d env => by simp [processTaskIn, hexp], hp, ?_, ?_⟩
  · rw [hp]
    unfold scheduleRetry
    rcases ScheduleRetry ds.retryManager now task "task_expired" with ⟨ok, rm⟩
    cases ok <;> rfl
  · rw [hp]
    unfold scheduleRetry
    rcases ScheduleRetry ds.retryManager now task "task_expired" with ⟨ok, rm⟩
    cases ok <;> rfl

/-- Witness for C26: a task for U1 and U2 created at time 0 with a timeout of
30 s, picked up at second 31: no call of deliverToUser is recorded. -/
theorem expired_task_is_not_delivered_witness :
    (31000000000 : Int) - taskThirtySeconds.CreatedAt > taskThirtySeconds.Timeout ∧
    taskThirtySeconds.TargetUsers = ["U1", "U2"] ∧
    processTaskIn dsSmall 31000000000 (recordCall ["U1", "U2"]) taskThirtySeconds []
      = (scheduleRetry dsSmall 31000000000 taskThirtySeconds "task_expired", []) ∧
    processTask dsSmall 31000000000 (fun _ _ => true) taskThirtySeconds
      = scheduleRetry dsSmall 31000000000 taskThirtySeconds "task_expired" :=
  ⟨by decide, by decide,
   ((expired_task_is_not_delivered dsSmall 31000000000 (fun _ _ => true)
      taskThirtySeconds).2 (by decide)).1 (List String) (recordCall ["U1", "U2"]) [],
   ((expired_task_is_not_delivered dsSmall 31000000000 (fun _ _ => true)
      taskThirtySeconds).2 (by decide)).2.1⟩

/-! ### Admission is monotone in the priority -/

/-- C30: from one controller state and under one pressure level, a task
whose priority is at least that of an accepted task is accepted too. -/
theorem should_accept_monotone_in_priority (bp : BackpressureCtrl) (pressure : MemoryPressure)
    (t1 t2 : DeliveryTask) (hle : t1.Priority ≤ t2.Priority)
    (hacc : (ShouldAccept bp pressure t1).1 = true) :
    (ShouldAccept bp pressure t2).1 = true := by
  unfold ShouldAccept at hacc ⊢
  by_cases h0 : bp.rejectionCount + bp.acceptanceCount = 0
  · simp [h0]
  · simp only [h0, if_false] at hacc ⊢
    cases pressure with
    | Low => simp
    | Critical =>
      by_cases h1 : t1.Priority < 8
      · simp [h1] at hacc
      · have h2 : ¬ t2.Priority < 8 := by omega
        simp [h2]
    | High =>
      by_cases hr : f64Div (f64OfInt bp.rejectionCount)
          (f64OfInt (bp.rejectionCount + bp.acceptanceCount)) > f64Round (3 / 10)
      · by_cases h1 : t1.Priority < 6
        · simp [hr, h1] at hacc
        · have h2 : ¬ t2.Priority < 6 := by omega
          simp [h2]
      · simp [hr]
    | Medium =>
      by_cases hr : f64Div (f64OfInt bp.rejectionCount)
          (f64OfInt (bp.rejectionCount + bp.acceptanceCount)) > f64Round 2⁻¹
      · by_cases h1 : t1.Priority < 4
        · simp [hr, h1] at hacc
        · have h2 : ¬ t2.Priority < 4 := by omega
          simp [h2]
      · simp [hr]

/-- Witness for C30: with two rejections among three decisions and Critical
pressure, priority 8 is accepted, hence priority 9 too. -/
theorem should_accept_monotone_in_priority_witness :
    (taskOfPriority 8).Priority ≤ (taskOfPriority 9).Priority ∧
    (ShouldAccept bpTwoOfThree MemoryPressure.Critical (taskOfPriority 8)).1 = true ∧
    (ShouldAccept bpTwoOfThree MemoryPressure.Critical (taskOfPriority 9)).1 = true :=
  ⟨by decide, by simp [ShouldAccept, bpTwoOfThree, taskOfPriority],
   should_accept_monotone_in_priority bpTwoOfThree MemoryPressure.Critical (taskOfPriority 8)
     (taskOfPriority 9) (by decide) (by simp [ShouldAccept, bpTwoOfThree, taskOfPriority])⟩

/-! ### A due retry whose hand-off times out -/

/-- Below the retry limit and with room in the retry queue, the goroutine
started by processRetries puts the task back: ScheduleRetry returns true and
appends one retry task for the same task with reason "worker_queue_full". -/
theorem rescheduleAfterTimeout_requeues (rm : RetryManager) (now : Int) (rt : RetryTask)
    (hcount : rt.OriginalTask.RetryCount < rm.maxRetries)
    (hroom : rm.retryQueue.buf.length < rm.retryQueue.cap) :
    rescheduleAfterTimeout rm now rt =
      (true, { rm with retryQueue := { rm.retryQueue with buf := rm.retryQueue.buf ++
        [{ OriginalTask := rt.OriginalTask, RetryCount := rt.OriginalTask.RetryCount + 1,
           NextRetry := now + 100000000 + backoffDelay rm rt.OriginalTask.RetryCount,
           Reason := "worker_queue_full" }] } }) := by
  have hn : ¬ rt.OriginalTask.RetryCount ≥ rm.maxRetries := by omega
  simp [rescheduleAfterTimeout, ScheduleRetry, hn, Chan.trySend, hroom]

/-- C28: the retry manager with limit 3 holds one due retry task of count 3
and the hand-off channel is full. processRetries takes the task out of the
retry queue and hands it to the re-scheduling goroutine; ScheduleRetry then
refuses it because its count has reached the limit, so the retry queue stays
empty and the task is in no queue. -/
theorem last_retry_is_dropped_when_hand_off_fails :
    retryLast.RetryCount = rmLastDue.maxRetries ∧
    rmDefault.retryQueue.buf.length < rmDefault.retryQueue.cap ∧
    processRetries 2 6000000000 rmLastDue rwFull
      = some { rm := rmDefault, rw := rwFull,
               requeue := [{ retryLast with
                 OriginalTask := { retryLast.OriginalTask with RetryCount := 3 } }],
               lost := [] } ∧
    rescheduleAfterTimeout rmDefault 6000000000
        { retryLast with OriginalTask := { retryLast.OriginalTask with RetryCount := 3 } }
      = (false, rmDefault) ∧
    rmDefault.retryQueue.buf = [] := by
  decide

/-! ### The priority of a created message -/

/-- The handler keeps every priority other than 0 as the request gives it. -/
theorem create_message_priority (req : CreateMessageRequest) (userID newID : String)
    (now : Int) (message : Message) (targetUsers : List String)
    (h : SimpleAPIHandler.CreateMessage req userID newID now = some (message, targetUsers)) :
    message.Priority = (if req.Priority = 0 then 5 else req.Priority) ∧
    (messageTask message targetUsers).Priority = message.Priority := by
  unfold SimpleAPIHandler.CreateMessage at h
  by_cases hb : req.ChannelID = "" ∨ req.Title = "" ∨ req.Content = ""
  · simp [hb] at h
  · have hc : ¬ req.ChannelID = "" := fun hc => hb (Or.inl hc)
    rw [if_neg hb] at h
    simp only [hc, if_false, Option.some.injEq, Prod.mk.injEq] at h
    obtain ⟨hm, _⟩ := h
    subst hm
    by_cases ht : req.MessageType = "" <;> by_cases hp : req.Priority = 0 <;>
      simp [NewMessage, messageTask, ht, hp]

/-- C21: a request with priority 99 gives a message and a task of priority
99, and one with priority -3 gives priority -3: no value other than 0 is
changed; priority 0 gives 5. Submitted to the small system, the task waits in
the entry buffer with priority 99. -/
theorem create_message_keeps_priority_out_of_range :
    (SimpleAPIHandler.CreateMessage (reqPriority 99) "U1" "m1" 1000).map
        (fun r => (r.1.Priority, (messageTask r.1 r.2).Priority)) = some (99, 99) ∧
    (SimpleAPIHandler.CreateMessage (reqPriority (-3)) "U1" "m1" 1000).map
        (fun r => (r.1.Priority, (messageTask r.1 r.2).Priority)) = some (-3, -3) ∧
    (SimpleAPIHandler.CreateMessage (reqPriority 0) "U1" "m1" 1000).map
        (fun r => (r.1.Priority, (messageTask r.1 r.2).Priority)) = some (5, 5) ∧
    (SubmitMessage dsSmall MemoryPressure.Low 1000 "task1"
        (NewMessage (reqPriority 99) "U1" "m1" 1000) ["U1"]).2.inputChan.buf.map
          (fun t => t.Priority) = [99] := by
  decide

/-! ### The number of workers -/

theorem initWorkers_length : ∀ (n : Nat) (qm : QueueManager),
    (initWorkers n qm).workerQueues.length = qm.workerQueues.length + n ∧
    (initWorkers n qm).workerCount = qm.workerCount + n := by
  intro n
  induction n with
  | zero => intro qm; simp [initWorkers]
  | succ k ih =>
    intro qm
    obtain ⟨h1, h2⟩ := ih (AddWorker qm { buf := [], cap := 100 })
    simp only [initWorkers]
    rw [h1, h2]
    simp [AddWorker]
    omega

/-- The system is built with as many workers as the configuration file asks
for, or as the machine has cores when it asks for 0; `workers.min_count` and
`workers.max_count` are not read. -/
theorem worker_count_selected (cfg : config.Config) (cpus now : Int) (ds : DeliverySystem)
    (h : NewDeliverySystemWithConfig (deliveryConfigOf (some cfg) cpus) now = some ds) :
    (ds.queueManager.workerQueues.length : Int)
      = (if cfg.Delivery.Workers.Count = 0 then cpus else cfg.Delivery.Workers.Count) ∧
    ds.queueManager.workerCount = ds.queueManager.workerQueues.length := by
  unfold NewDeliverySystemWithConfig at h
  simp only [Option.bind_eq_bind, Option.bind_eq_some, Option.pure_def] at h
  obtain ⟨input, hinput, qm, hqm, rm, hrm, h⟩ := h
  unfold NewQueueManager at hqm
  simp only [Option.bind_eq_bind, Option.bind_eq_some, Option.pure_def, Option.some.injEq] at hqm
  obtain ⟨e, he, hi, hhi, no, hno, lo, hlo, hqm⟩ := hqm
  split_ifs at h with hw
  cases h
  subst hqm
  obtain ⟨h1, h2⟩ := initWorkers_length (deliveryConfigOf (some cfg) cpus).WorkerCount.toNat
    { entryQueue := e, highQueue := hi, normalQueue := no, lowQueue := lo,
      workerQueues := [], workerCount := 0,
      config := { EntryQueueSize := (deliveryConfigOf (some cfg) cpus).QueueLimit,
                  PriorityQueueSize := (deliveryConfigOf (some cfg) cpus).QueueLimit.tdiv 3,
                  WorkerQueueSize := 100,
                  MaxWorkers := wrap64 ((deliveryConfigOf (some cfg) cpus).WorkerCount * 2),
                  MinWorkers := 2, QueueTimeout := 5 * 1000000000 } }
  have hwc : (deliveryConfigOf (some cfg) cpus).WorkerCount
      = (if cfg.Delivery.Workers.Count = 0 then cpus else cfg.Delivery.Workers.Count) := rfl
  rw [← hwc]
  constructor
  · simp only [h1, List.length_nil, zero_add]
    omega
  · simp only [h1, h2, List.length_nil, zero_add]

/-- C22: the default configuration file with `workers.count` set to 20
(`min_count` 2, `max_count` 8) passes validateConfig and the system is built
with 20 workers; with `workers.count` 0 on a machine with 16 cores it is
built with 16 workers, and with `workers.count` 1 with one worker. -/
theorem worker_count_ignores_min_and_max :
    (cfgWorkers 20).Delivery.Workers.MinCount = 2 ∧
    (cfgWorkers 20).Delivery.Workers.MaxCount = 8 ∧
    config.validateConfig (cfgWorkers 20) = none ∧
    (NewDeliverySystemWithConfig (deliveryConfigOf (some (cfgWorkers 20)) 4) 0).map
        (fun ds => ds.queueManager.workerQueues.length) = some 20 ∧
    config.validateConfig (cfgWorkers 0) = none ∧
    (NewDeliverySystemWithConfig (deliveryConfigOf (some (cfgWorkers 0)) 16) 0).map
        (fun ds => ds.queueManager.workerQueues.length) = some 16 ∧
    config.validateConfig (cfgWorkers 1) = none ∧
    (NewDeliverySystemWithConfig (deliveryConfigOf (some (cfgWorkers 1)) 4) 0).map
        (fun ds => ds.queueManager.workerQueues.length) = some 1 := by
  decide

/-! ### The statistics tick and the backpressure window -/

/-- C29: the window of the controller started at time 0 and at second 61 it
is older than its length of 60 s. ResetWindow would set both counters to zero
and the window start to second 61, but one tick of the statistics loop leaves
the controller as it is, with 2 rejections, 3 acceptances and the window start
0: collectAndLogStats changes nothing in any system. -/
theorem stats_tick_keeps_expired_window :
    (61000000000 : Int) - bpOldWindow.lastWindow > bpOldWindow.windowSize ∧
    ResetWindow bpOldWindow 61000000000
      = { rejectionCount := 0, acceptanceCount := 0, windowSize := 60 * 1000000000,
          lastWindow := 61000000000 } ∧
    (collectAndLogStats { dsSmall with backpressure := bpOldWindow } 0 0).2.backpressure
      = bpOldWindow ∧
    (∀ (ds : DeliverySystem) (alloc sys : Nat), (collectAndLogStats ds alloc sys).2 = ds) := by
  refine ⟨by decide, by decide, rfl, fun _ _ _ => rfl⟩

/-! ### Stop and the workspace cache -/

theorem mapDelete_of_absent {α : Type} (m : List (String × α)) (k : String)
    (h : ∀ p ∈ m, p.1 ≠ k) : mapDelete m k = m := by
  induction m with
  | nil => rfl
  | cons p rest ih =>
    obtain ⟨k1, v1⟩ := p
    have h1 : k1 ≠ k := h (k1, v1) (List.mem_cons_self _ _)
    simp only [mapDelete, h1, if_false]
    rw [ih (fun q hq => h q (List.mem_cons_of_mem _ hq))]

theorem removeAll_closes (es : List (String × CacheEntry)) :
    ∀ wc : WorkspaceCache, wc.entries = es → (es.map Prod.fst).Nodup →
      (es.map Prod.fst).foldl WorkspaceCache.removeEntryUnsafe wc
        = { wc with entries := [], closeLog := wc.closeLog ++ closeCallsAll es } := by
  induction es with
  | nil =>
    intro wc he _
    obtain ⟨entries, maxSize, ttl, stopped, closeLog⟩ := wc
    simp only at he
    subst he
    simp [closeCallsAll]
  | cons p rest ih =>
    intro wc he hnodup
    obtain ⟨k, e⟩ := p
    simp only [List.map_cons, List.nodup_cons] at hnodup
    have habsent : ∀ q ∈ rest, q.1 ≠ k := by
      intro q hq hqk
      apply hnodup.1
      rw [← hqk]
      exact List.mem_map_of_mem Prod.fst hq
    have hstep : wc.removeEntryUnsafe k
        = { wc with closeLog := wc.closeLog ++ closeCalls e.Workspace, entries := rest } := by
      unfold WorkspaceCache.removeEntryUnsafe
      rw [he]
      simp only [mapGet, if_true, mapDelete]
      rw [mapDelete_of_absent rest k habsent]
    simp only [List.map_cons, List.foldl_cons, hstep]
    rw [ih { wc with closeLog := wc.closeLog ++ closeCalls e.Workspace, entries := rest } rfl
      hnodup.2]
    simp [closeCallsAll, List.append_assoc]

/-- Close of the workspace manager, the call that Stop does not make: on a
cache that has not been closed before and has one entry per user it stops the
sweeper, removes every entry and calls Close on the handles of every cached
workspace. -/
theorem manager_close_closes_every_workspace (m : workspace.Manager)
    (hopen : m.cache.stopped = false) (hnodup : (m.cache.entries.map Prod.fst).Nodup) :
    m.Close = some { m with cache := { m.cache with
      stopped := true, entries := [],
      closeLog := m.cache.closeLog ++ closeCallsAll m.cache.entries } } := by
  unfold workspace.Manager.Close WorkspaceCache.Close
  simp only [hopen, Bool.false_eq_true, if_false, Option.map_some']
  rw [removeAll_closes m.cache.entries { m.cache with stopped := true } rfl hnodup]

theorem Stop_times_out_of_surplus (s : RunningSystem) (ends : Goroutine → Bool)
    (h : ((s.goroutines.filter Goroutine.callsDone).length : Int) < s.wg) :
    (Stop s ends).1 = Except.error "stop timeout" := by
  have hsub : ((s.goroutines.filter ends).filter Goroutine.callsDone).length
      ≤ (s.goroutines.filter Goroutine.callsDone).length :=
    (List.Sublist.filter Goroutine.callsDone (List.filter_sublist s.goroutines)).length_le
  have hne : ¬ s.wg - (((s.goroutines.filter ends).filter Goroutine.callsDone).length : Int) = 0 := by
    omega
  simp only [Stop, hne, if_false]

theorem filter_callsDone_workers (n : Nat) :
    (((List.range n).map Goroutine.worker).filter Goroutine.callsDone).length = n := by
  have h : ((List.range n).map Goroutine.worker).filter Goroutine.callsDone
      = (List.range n).map Goroutine.worker := by
    apply List.filter_eq_self.mpr
    intro g hg
    obtain ⟨i, _, hi⟩ := List.mem_map.mp hg
    rw [← hi]
    rfl
  rw [h]
  simp

theorem waitgroup_counter_covers_done (ds : DeliverySystem) (deps : DeliveryEnv) :
    (((NewRunningSystem ds deps).goroutines.filter Goroutine.callsDone).length : Int)
      = (NewRunningSystem ds deps).wg ∧
    (((Start (NewRunningSystem ds deps)).goroutines.filter Goroutine.callsDone).length : Int) + 4
      = (Start (NewRunningSystem ds deps)).wg ∧
    (((startRetryWorker (Start (NewRunningSystem ds deps))).goroutines.filter
        Goroutine.callsDone).length : Int) + 4
      = (startRetryWorker (Start (NewRunningSystem ds deps))).wg := by
  refine ⟨?_, ?_, ?_⟩
  · simp only [NewRunningSystem, filter_callsDone_workers]
  · simp only [Start, NewRunningSystem, List.filter_append, List.length_append,
      filter_callsDone_workers]
    simp [Goroutine.callsDone]
  · simp only [startRetryWorker, Start, NewRunningSystem, List.filter_append, List.length_append,
      filter_callsDone_workers]
    simp [Goroutine.callsDone]
    omega

/-- A system that has been started never stops in time: Start has added four
to the WaitGroup for loops that do not call Done, so Stop returns the error
"stop timeout" whichever goroutines return within the 30 s, all of them
included. -/
theorem stop_after_start_times_out (ds : DeliverySystem) (deps : DeliveryEnv)
    (ends : Goroutine → Bool) :
    (Stop (Start (NewRunningSystem ds deps)) ends).1 = Except.error "stop timeout" ∧
    (Stop (startRetryWorker (Start (NewRunningSystem ds deps))) ends).1
      = Except.error "stop timeout" := by
  constructor
  · apply Stop_times_out_of_surplus
    simp only [Start, NewRunningSystem, List.filter_append, List.length_append,
      filter_callsDone_workers]
    simp [Goroutine.callsDone]
  · apply Stop_times_out_of_surplus
    simp only [startRetryWorker, Start, NewRunningSystem, List.filter_append, List.length_append,
      filter_callsDone_workers]
    simp [Goroutine.callsDone]

/-- The small system, started, with the retry worker running: every goroutine
returns after the cancellation, the counter of the WaitGroup is left at 4 and
Stop returns "stop timeout". -/
theorem stop_small_system_times_out :
    (Stop (startRetryWorker (Start runningOneCached)) (fun _ => true)).1
      = Except.error "stop timeout" ∧
    (Stop (startRetryWorker (Start runningOneCached)) (fun _ => true)).2.goroutines = [] ∧
    (Stop (startRetryWorker (Start runningOneCached)) (fun _ => true)).2.wg = 4 :=
  ⟨rfl, by decide, by decide⟩

/-- C24, as stated, fails: the system has been constructed and the workspace
manager has the workspace of "u" cached, with the handles 0 and 1; every
goroutine returns in time and Stop returns ok, and afterwards the cache has
not been closed, the entry is still there and Close has been called on
neither handle. -/
theorem stop_returns_with_open_handles :
    (Stop runningOneCached (fun _ => true)).1 = Except.ok () ∧
    (Stop runningOneCached (fun _ => true)).2.goroutines = [] ∧
    (Stop runningOneCached (fun _ => true)).2.deps.workspaceManager.cache.stopped = false ∧
    (Stop runningOneCached (fun _ => true)).2.deps.workspaceManager.cache.entries.map
        (fun p => (p.1, p.2.Workspace))
      = [("u", some { UserID := "u", BasePath := "data/u",
                      MessagesDB := some 0, ReadDB := some 1 })] ∧
    (Stop runningOneCached (fun _ => true)).2.deps.workspaceManager.closeCount 0 = 0 ∧
    (Stop runningOneCached (fun _ => true)).2.deps.workspaceManager.closeCount 1 = 0 := by
  refine ⟨rfl, by decide⟩

/-- C24 (amended): Stop cancels the context and waits; whichever goroutines
return in time and whatever Stop returns, it leaves the delivery system and
its external dependencies, the workspace manager with its cache and the open
handles among them, as they were: it does not close the workspace cache. -/
theorem stop_leaves_workspace_cache_untouched (s : RunningSystem) (ends : Goroutine → Bool) :
    (Stop s ends).2.cancelled = true ∧
    (Stop s ends).2.ds = s.ds ∧
    (Stop s ends).2.deps = s.deps ∧
    (Stop s ends).2.deps.workspaceManager.cache = s.deps.workspaceManager.cache ∧
    (∀ h, (Stop s ends).2.deps.workspaceManager.closeCount h
      = s.deps.workspaceManager.closeCount h) := by
  unfold Stop
  simp only
  split_ifs <;> exact ⟨rfl, rfl, rfl, rfl, fun _ => rfl⟩

/-! ### The memory pressure probe -/

theorem f64Round_nine_tenths : f64Round (9 / 10) = 8106479329266893 * 2 ^ (-53 : Int) := by
  rw [f64Round_of_pos (by norm_num)]
  have := f64RoundPos_eval (9 / 10) (-1) 8106479329266893 (by norm_num) (by norm_num)
    (by norm_num) (by norm_num) (by norm_num)
  rw [this]
  norm_num

theorem f64Round_seven_tenths : f64Round (7 / 10) = 6305039478318694 * 2 ^ (-53 : Int) := by
  rw [f64Round_of_pos (by norm_num)]
  have := f64RoundPos_eval (7 / 10) (-1) 6305039478318694 (by norm_num) (by norm_num)
    (by norm_num) (by norm_num) (by norm_num)
  rw [this]
  norm_num

/-- A quotient that reaches the binary64 value next above a rounded constant
rounds to more than that constant. -/
theorem f64Round_gt_of_next (x q : ℚ) (m k : Int) (hq : f64Round q = (m : ℚ) * 2 ^ k)
    (hm : |m + 1| < 2 ^ 53) (hk : -1074 ≤ k) (hx : ((m + 1 : Int) : ℚ) * 2 ^ k ≤ x) :
    f64Round x > f64Round q := by
  have hrep := f64Round_representable (m + 1) k hm hk
  have hmono := f64Round_mono hx
  rw [hrep] at hmono
  rw [hq]
  refine lt_of_lt_of_le ?_ hmono
  have hpos := two_zpow_pos k
  push_cast
  nlinarith

/-- For whole numbers of mebibytes the binary64 quotient exceeds the constant
`0.9` exactly when the exact quotient exceeds nine tenths. -/
theorem ratio_gt_nine_tenths (a s : Int) (ha : 0 ≤ a) (ha2 : a < 2 ^ 53) (hs0 : 0 < s)
    (hs : s ≤ 2 ^ 44) :
    f64Div (f64OfInt a) (f64OfInt s) > f64Round (9 / 10) ↔ 10 * a > 9 * s := by
  have ha1 : f64OfInt a = a := f64Round_intCast a (by rw [abs_of_nonneg ha]; omega)
  have hs1 : f64OfInt s = s := f64Round_intCast s (by rw [abs_of_pos hs0]; omega)
  have hsq : (0 : ℚ) < s := by exact_mod_cast hs0
  unfold f64Div
  rw [ha1, hs1]
  constructor
  · intro h
    by_contra hle
    have hle1 : 10 * a ≤ 9 * s := by omega
    have hq : (10 : ℚ) * a ≤ 9 * s := by exact_mod_cast hle1
    have hdiv : (a : ℚ) / s ≤ 9 / 10 := by
      rw [div_le_iff₀ hsq]
      linarith
    exact absurd h (not_lt.mpr (f64Round_mono hdiv))
  · intro h
    have hint : 8106479329266894 * s ≤ a * 9007199254740992 := by omega
    have hq : (8106479329266894 : ℚ) * s ≤ a * 9007199254740992 := by exact_mod_cast hint
    refine f64Round_gt_of_next _ _ 8106479329266893 (-53) f64Round_nine_tenths (by norm_num)
      (by norm_num) ?_
    rw [le_div_iff₀ hsq]
    norm_num
    linarith

/-- The same for the constant `0.7`. -/
theorem ratio_gt_seven_tenths (a s : Int) (ha : 0 ≤ a) (ha2 : a < 2 ^ 53) (hs0 : 0 < s)
    (hs : s ≤ 2 ^ 44) :
    f64Div (f64OfInt a) (f64OfInt s) > f64Round (7 / 10) ↔ 10 * a > 7 * s := by
  have ha1 : f64OfInt a = a := f64Round_intCast a (by rw [abs_of_nonneg ha]; omega)
  have hs1 : f64OfInt s = s := f64Round_intCast s (by rw [abs_of_pos hs0]; omega)
  have hsq : (0 : ℚ) < s := by exact_mod_cast hs0
  unfold f64Div
  rw [ha1, hs1]
  constructor
  · intro h
    by_contra hle
    have hle1 : 10 * a ≤ 7 * s := by omega
    have hq : (10 : ℚ) * a ≤ 7 * s := by exact_mod_cast hle1
    have hdiv : (a : ℚ) / s ≤ 7 / 10 := by
      rw [div_le_iff₀ hsq]
      linarith
    exact absurd h (not_lt.mpr (f64Round_mono hdiv))
  · intro h
    have hint : 6305039478318695 * s ≤ a * 9007199254740992 := by omega
    have hq : (6305039478318695 : ℚ) * s ≤ a * 9007199254740992 := by exact_mod_cast hint
    refine f64Round_gt_of_next _ _ 6305039478318694 (-53) f64Round_seven_tenths (by norm_num)
      (by norm_num) ?_
    rw [le_div_iff₀ hsq]
    norm_num
    linarith

/-- The same for the constant `0.5`. -/
theorem ratio_gt_half (a s : Int) (ha : 0 ≤ a) (ha2 : a < 2 ^ 53) (hs0 : 0 < s)
    (hs : s ≤ 2 ^ 44) :
    f64Div (f64OfInt a) (f64OfInt s) > f64Round (1 / 2) ↔ 2 * a > s := by
  have ha1 : f64OfInt a = a := f64Round_intCast a (by rw [abs_of_nonneg ha]; omega)
  have hs1 : f64OfInt s = s := f64Round_intCast s (by rw [abs_of_pos hs0]; omega)
  have hsq : (0 : ℚ) < s := by exact_mod_cast hs0
  have hhalf : f64Round (1 / 2) = ((4503599627370496 : Int) : ℚ) * 2 ^ (-53 : Int) := by
    rw [f64Round_half]
    norm_num
  unfold f64Div
  rw [ha1, hs1]
  constructor
  · intro h
    by_contra hle
    have hle1 : 2 * a ≤ s := by omega
    have hq : (2 : ℚ) * a ≤ s := by exact_mod_cast hle1
    have hdiv : (a : ℚ) / s ≤ 1 / 2 := by
      rw [div_le_iff₀ hsq]
      linarith
    exact absurd h (not_lt.mpr (f64Round_mono hdiv))
  · intro h
    have hint : 4503599627370497 * s ≤ a * 9007199254740992 := by omega
    have hq : (4503599627370497 : ℚ) * s ≤ a * 9007199254740992 := by exact_mod_cast hint
    refine f64Round_gt_of_next _ _ 4503599627370496 (-53) hhalf (by norm_num)
      (by norm_num) ?_
    rw [le_div_iff₀ hsq]
    norm_num
    linarith

/-- C23, as stated, fails: with 1 MiB allocated out of 2 MiB - 1 byte the
quotient lies between 0.5 and 0.7, yet the probe returns Critical, because
both figures are cut to whole mebibytes first (1 and 1); and with 1000 bytes
allocated out of 1000 the quotient is 1, yet the probe returns Low, because
the total is below one mebibyte. -/
theorem memory_pressure_differs_from_byte_ratio :
    (0 : Nat) < 2097151 ∧
    ((1048576 : ℚ) / 2097151 > 1 / 2 ∧ (1048576 : ℚ) / 2097151 ≤ 7 / 10) ∧
    GetCurrentMemoryPressure 1048576 2097151 = MemoryPressure.Critical ∧
    (1000 : ℚ) / 1000 > 9 / 10 ∧
    GetCurrentMemoryPressure 1000 1000 = MemoryPressure.Low := by
  refine ⟨by norm_num, by norm_num, ?_, by norm_num, by decide⟩
  have h := (ratio_gt_nine_tenths 1 1 (by norm_num) (by norm_num) (by norm_num)
    (by norm_num)).mpr (by norm_num)
  have hmb : (1048576 : Nat) / 1024 / 1024 = 1 := by decide
  have hsb : (2097151 : Nat) / 1024 / 1024 = 1 := by decide
  simp only [GetCurrentMemoryPressure, hmb, hsb]
  simp only [Nat.cast_one, gt_iff_lt, Nat.lt_one_iff, Nat.zero_lt_one, if_true]
  have h1 : f64Round (9 / 10) < f64Div (f64OfInt 1) (f64OfInt 1) := h
  rw [if_pos h1]

/-- C23 (amended): the probe classifies the quotient of the whole mebibytes
allocated by the whole mebibytes obtained from the system: Low when the
total is below one mebibyte; otherwise Critical when that quotient exceeds
9/10, else High when it exceeds 7/10, else Medium when it exceeds 1/2, else
Low. -/
theorem memory_pressure_classifies_whole_mebibytes (alloc sys : Nat)
    (ha : alloc < 2 ^ 64) (hs : sys < 2 ^ 64) :
    GetCurrentMemoryPressure alloc sys =
      if sys / 1048576 = 0 then MemoryPressure.Low
      else if 10 * (alloc / 1048576) > 9 * (sys / 1048576) then MemoryPressure.Critical
      else if 10 * (alloc / 1048576) > 7 * (sys / 1048576) then MemoryPressure.High
      else if 2 * (alloc / 1048576) > sys / 1048576 then MemoryPressure.Medium
      else MemoryPressure.Low := by
  have hmb : alloc / 1024 / 1024 = alloc / 1048576 := by
    rw [Nat.div_div_eq_div_mul]
  have hsb : sys / 1024 / 1024 = sys / 1048576 := by
    rw [Nat.div_div_eq_div_mul]
  have hale : alloc / 1048576 < 2 ^ 44 := by omega
  have hsle : sys / 1048576 < 2 ^ 44 := by omega
  unfold GetCurrentMemoryPressure
  simp only [hmb, hsb]
  by_cases hz : sys / 1048576 = 0
  · simp [hz]
  · have hpos : sys / 1048576 > 0 := Nat.pos_of_ne_zero hz
    rw [if_pos hpos, if_neg hz]
    have a0 : (0 : Int) ≤ ((alloc / 1048576 : Nat) : Int) := Int.natCast_nonneg _
    have a1 : ((alloc / 1048576 : Nat) : Int) < 2 ^ 53 := by omega
    have s0 : (0 : Int) < ((sys / 1048576 : Nat) : Int) := by omega
    have s1 : ((sys / 1048576 : Nat) : Int) ≤ 2 ^ 44 := by omega
    have e9 := ratio_gt_nine_tenths _ _ a0 a1 s0 s1
    have e7 := ratio_gt_seven_tenths _ _ a0 a1 s0 s1
    have e5 := ratio_gt_half _ _ a0 a1 s0 s1
    have c9 : (10 * ((alloc / 1048576 : Nat) : Int) > 9 * ((sys / 1048576 : Nat) : Int))
        ↔ 10 * (alloc / 1048576) > 9 * (sys / 1048576) := by omega
    have c7 : (10 * ((alloc / 1048576 : Nat) : Int) > 7 * ((sys / 1048576 : Nat) : Int))
        ↔ 10 * (alloc / 1048576) > 7 * (sys / 1048576) := by omega
    have c5 : (2 * ((alloc / 1048576 : Nat) : Int) > ((sys / 1048576 : Nat) : Int))
        ↔ 2 * (alloc / 1048576) > sys / 1048576 := by omega
    simp only [e9.trans c9, e7.trans c7, e5.trans c5]

/-- Witness for C23: 900 MiB allocated out of 1000 MiB is not above nine
tenths and is classified High. -/
theorem memory_pressure_classifies_whole_mebibytes_witness :
    (943718400 : Nat) < 2 ^ 64 ∧ (1048576000 : Nat) < 2 ^ 64 ∧
    GetCurrentMemoryPressure 943718400 1048576000 =
      (if 1048576000 / 1048576 = 0 then MemoryPressure.Low
      else if 10 * (943718400 / 1048576) > 9 * (1048576000 / 1048576) then
        MemoryPressure.Critical
      else if 10 * (943718400 / 1048576) > 7 * (1048576000 / 1048576) then MemoryPressure.High
      else if 2 * (943718400 / 1048576) > 1048576000 / 1048576 then MemoryPressure.Medium
      else MemoryPressure.Low) ∧
    (if 1048576000 / 1048576 = 0 then MemoryPressure.Low
      else if 10 * (943718400 / 1048576) > 9 * (1048576000 / 1048576) then
        MemoryPressure.Critical
      else if 10 * (943718400 / 1048576) > 7 * (1048576000 / 1048576) then MemoryPressure.High
      else if 2 * (943718400 / 1048576) > 1048576000 / 1048576 then MemoryPressure.Medium
      else MemoryPressure.Low) = MemoryPressure.High :=
  ⟨by decide, by decide,
   memory_pressure_classifies_whole_mebibytes 943718400 1048576000 (by decide) (by decide),
   by decide⟩

/-! ### Handing a task to a worker inbox -/

theorem trySend_some_iff {α : Type} (c : Chan α) (x : α) (c1 : Chan α) :
    c.trySend x = some c1 ↔ c.buf.length < c.cap ∧ c1 = { c with buf := c.buf ++ [x] } := by
  unfold Chan.trySend
  by_cases h : c.buf.length < c.cap
  · simp [h, eq_comm]
  · simp [h]

theorem trySend_none_iff {α : Type} (c : Chan α) (x : α) :
    c.trySend x = none ↔ ¬ c.buf.length < c.cap := by
  unfold Chan.trySend
  by_cases h : c.buf.length < c.cap
  · simp [h]
  · simp [h]

theorem offerToOthers_some (task : DeliveryTask) (skip : Nat) :
    ∀ (qs : List (Chan DeliveryTask)) (i : Nat) (rs : List (Chan DeliveryTask)),
    offerToOthers task skip i qs = some rs →
    ∃ j c, qs[j]? = some c ∧ i + j ≠ skip ∧ c.buf.length < c.cap ∧
      rs = qs.set j { c with buf := c.buf ++ [task] } := by
  intro qs
  induction qs with
  | nil => intro i rs h; simp [offerToOthers] at h
  | cons c rest ih =>
    intro i rs h
    simp only [offerToOthers] at h
    have hrec : ∀ r, offerToOthers task skip (i + 1) rest = some r → rs = c :: r →
        ∃ j c1, (c :: rest)[j]? = some c1 ∧ i + j ≠ skip ∧ c1.buf.length < c1.cap ∧
          rs = (c :: rest).set j { c1 with buf := c1.buf ++ [task] } := by
      intro r hr hrs
      obtain ⟨j, c1, hj, hne, hroom, hset⟩ := ih (i + 1) r hr
      refine ⟨j + 1, c1, by simpa using hj, by omega, hroom, ?_⟩
      rw [hrs, hset]
      rfl
    by_cases hs : i = skip
    · rw [if_pos hs, Option.map_eq_some'] at h
      obtain ⟨r, hr, hrs⟩ := h
      exact hrec r hr hrs.symm
    · rw [if_neg hs] at h
      cases hsend : c.trySend task with
      | some c1 =>
        rw [hsend] at h
        simp only [Option.some.injEq] at h
        obtain ⟨hroom, hc1⟩ := (trySend_some_iff c task c1).mp hsend
        refine ⟨0, c, by simp, by omega, hroom, ?_⟩
        rw [← h, hc1]
        rfl
      | none =>
        rw [hsend] at h
        simp only at h
        rw [Option.map_eq_some'] at h
        obtain ⟨r, hr, hrs⟩ := h
        exact hrec r hr hrs.symm

theorem offerToOthers_none (task : DeliveryTask) (skip : Nat) :
    ∀ (qs : List (Chan DeliveryTask)) (i : Nat),
    offerToOthers task skip i qs = none →
    ∀ j c, qs[j]? = some c → i + j ≠ skip → ¬ c.buf.length < c.cap := by
  intro qs
  induction qs with
  | nil => intro i _ j c hj; simp at hj
  | cons c rest ih =>
    intro i h j c1 hj hne
    simp only [offerToOthers] at h
    have hrest : offerToOthers task skip (i + 1) rest = none ∧
        (i ≠ skip → c.trySend task = none) := by
      by_cases hs : i = skip
      · rw [if_pos hs, Option.map_eq_none'] at h
        exact ⟨h, fun hn => absurd hs hn⟩
      · rw [if_neg hs] at h
        cases hsend : c.trySend task with
        | some c2 => rw [hsend] at h; cases h
        | none =>
          rw [hsend] at h
          simp only at h
          rw [Option.map_eq_none'] at h
          exact ⟨h, fun _ => rfl⟩
    cases j with
    | zero =>
      simp only [List.getElem?_cons_zero, Option.some.injEq] at hj
      subst hj
      exact (trySend_none_iff c task).mp (hrest.2 (by omega))
    | succ k =>
      simp only [List.getElem?_cons_succ] at hj
      exact ih (i + 1) hrest.1 k c1 hj (by omega)

/-- With as many registered inboxes as workerCount says and a clock reading
that is not negative, DistributeToWorkers never leaves the inbox list: it
returns false and changes nothing when no worker is registered or every inbox
is full, and when some inbox has room it returns true after appending the
task to exactly one inbox that had room, the others being as before. -/
theorem DistributeToWorkers_nonneg_time (qm : QueueManager) (now : Int) (task : DeliveryTask)
    (hcount : qm.workerCount = qm.workerQueues.length) (hnow : 0 ≤ now) :
    (qm.workerQueues = [] → DistributeToWorkers qm now task = some (false, qm)) ∧
    ((∃ c ∈ qm.workerQueues, c.buf.length < c.cap) →
      ∃ j c, qm.workerQueues[j]? = some c ∧ c.buf.length < c.cap ∧
        DistributeToWorkers qm now task = some (true, { qm with
          workerQueues := qm.workerQueues.set j { c with buf := c.buf ++ [task] } })) ∧
    ((∀ c ∈ qm.workerQueues, ¬ c.buf.length < c.cap) →
      DistributeToWorkers qm now task = some (false, qm)) := by
  have hempty : qm.workerQueues = [] → DistributeToWorkers qm now task = some (false, qm) := by
    intro he
    have h0 : qm.workerCount = 0 := by rw [hcount, he]; rfl
    simp [DistributeToWorkers, h0]
  by_cases hnil : qm.workerQueues = []
  · refine ⟨hempty, fun ⟨c, hc, _⟩ => ?_, fun _ => hempty hnil⟩
    rw [hnil] at hc
    simp at hc
  · have hlen : 0 < qm.workerQueues.length := List.length_pos.mpr hnil
    have h0 : ¬ qm.workerCount = 0 := by omega
    have hpos : (0 : Int) < qm.workerCount := by omega
    have hidx0 : 0 ≤ now.tmod qm.workerCount := Int.tmod_nonneg _ hnow
    have hidx1 : now.tmod qm.workerCount < qm.workerCount := Int.tmod_lt_of_pos _ hpos
    have hnneg : ¬ now.tmod qm.workerCount < 0 := by omega
    have hlt : (now.tmod qm.workerCount).toNat < qm.workerQueues.length := by omega
    obtain ⟨target, htarget⟩ : ∃ target,
        qm.workerQueues[(now.tmod qm.workerCount).toNat]? = some target :=
      ⟨qm.workerQueues[(now.tmod qm.workerCount).toNat], List.getElem?_eq_getElem hlt⟩
    have hget : qm.workerQueues.get? (now.tmod qm.workerCount).toNat = some target := by
      rw [List.get?_eq_getElem?]
      exact htarget
    have hshort : ¬ (qm.workerQueues.length : Int) < qm.workerCount := by omega
    have htake : qm.workerQueues.take qm.workerCount.toNat = qm.workerQueues := by
      apply List.take_of_length_le
      omega
    have hdrop : qm.workerQueues.drop qm.workerCount.toNat = [] := by
      apply List.drop_of_length_le
      omega
    have hD : DistributeToWorkers qm now task =
        match target.trySend task with
        | some c =>
          some (true, { qm with
            workerQueues := qm.workerQueues.set (now.tmod qm.workerCount).toNat c })
        | none =>
          match offerToOthers task (now.tmod qm.workerCount).toNat 0 qm.workerQueues with
          | some qs => some (true, { qm with workerQueues := qs })
          | none => some (false, qm) := by
      unfold DistributeToWorkers
      rw [if_neg h0]
      simp only
      rw [if_neg hnneg, hget]
      simp only
      cases target.trySend task with
      | some c => rfl
      | none =>
        simp only
        rw [if_neg hshort, htake, hdrop]
        cases offerToOthers task (now.tmod qm.workerCount).toNat 0 qm.workerQueues with
        | some qs => simp
        | none => rfl
    refine ⟨fun he => absurd he hnil, fun ⟨c, hc, hroom⟩ => ?_, fun hfull => ?_⟩
    · rw [hD]
      cases hsend : target.trySend task with
      | some c1 =>
        obtain ⟨hr, hc1⟩ := (trySend_some_iff target task c1).mp hsend
        exact ⟨(now.tmod qm.workerCount).toNat, target, htarget, hr, by rw [hc1]⟩
      | none =>
        simp only
        cases hoff : offerToOthers task (now.tmod qm.workerCount).toNat 0 qm.workerQueues with
        | some qs =>
          obtain ⟨j, c1, hj, _, hr, hset⟩ := offerToOthers_some _ _ _ _ _ hoff
          exact ⟨j, c1, hj, hr, by rw [hset]⟩
        | none =>
          exfalso
          obtain ⟨j, hjlt, hjc⟩ := List.getElem_of_mem hc
          have hjc1 : qm.workerQueues[j]? = some c := by
            rw [List.getElem?_eq_getElem hjlt, hjc]
          by_cases hj : j = (now.tmod qm.workerCount).toNat
          · rw [hj, htarget] at hjc1
            cases hjc1
            exact (trySend_none_iff _ task).mp hsend hroom
          · exact offerToOthers_none _ _ _ _ hoff j c hjc1 (by omega) hroom
    · rw [hD]
      have htfull : target.trySend task = none :=
        (trySend_none_iff target task).mpr
          (hfull target (List.getElem?_mem htarget))
      rw [htfull]
      simp only
      cases hoff : offerToOthers task (now.tmod qm.workerCount).toNat 0 qm.workerQueues with
      | none => rfl
      | some qs =>
        exfalso
        obtain ⟨j, c1, hj, _, hr, _⟩ := offerToOthers_some _ _ _ _ _ hoff
        exact hfull c1 (List.getElem?_mem hj) hr

/-- C27: two inboxes are registered and workerCount is 2; with the clock
reading -1 the index `-1 % 2` is -1 and DistributeToWorkers indexes outside
the inbox list (a run-time panic), although both inboxes have room. With the
clock reading 1 the task goes to the inbox of index 1. -/
theorem distribute_to_workers_indexes_outside_for_negative_time :
    qmTwoWorkers.workerCount = qmTwoWorkers.workerQueues.length ∧
    (-1 : Int).tmod qmTwoWorkers.workerCount = -1 ∧
    (∀ c ∈ qmTwoWorkers.workerQueues, c.buf.length < c.cap) ∧
    DistributeToWorkers qmTwoWorkers (-1) tNormal = none ∧
    DistributeToWorkers qmTwoWorkers 1 tNormal
      = some (true, { qmTwoWorkers with
          workerQueues := [{ buf := [], cap := 100 }, { buf := [tNormal], cap := 100 }] }) := by
  decide

end Delivery
